import Mathlib

/-!
# USB-MIDI host class driver (`src/class/midi/midi_host.c`)

A shallow embedding of the stream encoder `tuh_midi_stream_write`, the stream
decoder `tuh_midi_stream_read` and the descriptor parser `midih_open`, with
theorems about them.

Conventions of the embedding:
* bytes (`uint8_t`) and the other machine integers are natural numbers; where a
  C assignment truncates, the truncation is written `% 256` or `% 65536`;
* the byte queues `tu_fifo_t` are lists of bytes, oldest byte first, with a depth;
* the session record `midih_interface_t` is a structure, the `static` variable
  `cable_sysex_in_progress` of the decoder is passed in and returned;
* the two bytes of the local `streamrt.buffer` that the encoder never
  initialises are inputs `rt2 rt3` of the encoder;
* the descriptors are read from a memory `mem`, addressed relative to the pointer
  `desc_itf`; the two loops of `midih_open`, which need not end, take a fuel and the
  parser answers `none` when it runs out;
* the constants, descriptor layouts and queue functions of headers and files of the
  repository other than `midi_host.c` are marked `Modelled from the spec`.
-/

namespace MidiHost

/-! ## Constants of `midi.h` -/

/-- Modelled from the spec: code index "SysEx start/continue" of `midi.h` (USB-MIDI 1.0: 0x4). -/
def MIDI_CIN_SYSEX_START : Nat := 4
/-- Modelled from the spec: code index "2-byte system common" of `midi.h` (USB-MIDI 1.0: 0x2). -/
def MIDI_CIN_SYSCOM_2BYTE : Nat := 2
/-- Modelled from the spec: code index "3-byte system common" of `midi.h` (USB-MIDI 1.0: 0x3). -/
def MIDI_CIN_SYSCOM_3BYTE : Nat := 3
/-- Modelled from the spec: code index "SysEx ends with 1 byte / single-byte system common"
of `midi.h` (USB-MIDI 1.0: 0x5). -/
def MIDI_CIN_SYSEX_END_1BYTE : Nat := 5
/-- Modelled from the spec: code index of note off, equal to the MIDI status nibble. -/
def MIDI_CIN_NOTE_OFF : Nat := 8
/-- Modelled from the spec: code index of note on, equal to the MIDI status nibble. -/
def MIDI_CIN_NOTE_ON : Nat := 9
/-- Modelled from the spec: code index of poly key pressure, equal to the MIDI status nibble. -/
def MIDI_CIN_POLY_KEYPRESS : Nat := 10
/-- Modelled from the spec: code index of control change, equal to the MIDI status nibble. -/
def MIDI_CIN_CONTROL_CHANGE : Nat := 11
/-- Modelled from the spec: code index of program change, equal to the MIDI status nibble. -/
def MIDI_CIN_PROGRAM_CHANGE : Nat := 12
/-- Modelled from the spec: code index of channel pressure, equal to the MIDI status nibble. -/
def MIDI_CIN_CHANNEL_PRESSURE : Nat := 13
/-- Modelled from the spec: code index of pitch bend, equal to the MIDI status nibble. -/
def MIDI_CIN_PITCH_BEND_CHANGE : Nat := 14
/-- Modelled from the spec: the SysEx-start status byte of `midi.h` (MIDI 1.0: 0xF0). -/
def MIDI_STATUS_SYSEX_START : Nat := 0xF0
/-- Modelled from the spec: the SysEx-end status byte of `midi.h` (MIDI 1.0: 0xF7). -/
def MIDI_STATUS_SYSEX_END : Nat := 0xF7
/-- Modelled from the spec: the time-code status byte of `midi.h` (MIDI 1.0: 0xF1). -/
def MIDI_STATUS_SYSCOM_TIME_CODE_QUARTER_FRAME : Nat := 0xF1
/-- Modelled from the spec: the song-position status byte of `midi.h` (MIDI 1.0: 0xF2). -/
def MIDI_STATUS_SYSCOM_SONG_POSITION_POINTER : Nat := 0xF2
/-- Modelled from the spec: the song-select status byte of `midi.h` (MIDI 1.0: 0xF3). -/
def MIDI_STATUS_SYSCOM_SONG_SELECT : Nat := 0xF3
/-- Modelled from the spec: the tune-request status byte of `midi.h` (MIDI 1.0: 0xF6). -/
def MIDI_STATUS_SYSCOM_TUNE_REQUEST : Nat := 0xF6
/-- Modelled from the spec: the real-time-message threshold of `midi.h`, the timing-clock
status byte (MIDI 1.0: 0xF8). -/
def MIDI_STATUS_SYSREAL_TIMING_CLOCK : Nat := 0xF8
/-- Modelled from the spec: the largest data byte of `midi.h` (MIDI 1.0: 0x7F). -/
def MIDI_MAX_DATA_VAL : Nat := 0x7F

/-! ## The byte queue `tu_fifo_t` -/

/-- Modelled from the spec: the bounded byte queue `tu_fifo_t` of `common/tusb_fifo.c`
(item size 1, not overwritable): `buf` holds the queued bytes, oldest first. -/
structure tu_fifo_t where
  depth : Nat
  buf : List Nat
deriving DecidableEq, Repr

/-- Modelled from the spec: `tu_fifo_count`, the number of queued bytes. -/
def tu_fifo_count (f : tu_fifo_t) : Nat := f.buf.length

/-- Modelled from the spec: `tu_fifo_remaining`, the free capacity of the queue. -/
def tu_fifo_remaining (f : tu_fifo_t) : Nat := f.depth - f.buf.length

/-- Modelled from the spec: `tu_fifo_write_n` on a queue that is not overwritable appends
the first `min n remaining` of the `n` bytes and returns how many it appended. -/
def tu_fifo_write_n (f : tu_fifo_t) (data : List Nat) (n : Nat) : tu_fifo_t × Nat :=
  let written := data.take (min n (tu_fifo_remaining f))
  ({ f with buf := f.buf ++ written }, written.length)

/-- Modelled from the spec: `tu_fifo_read_n` removes up to `n` bytes from the front of the
queue and returns them (their number is the C return value). -/
def tu_fifo_read_n (f : tu_fifo_t) (n : Nat) : tu_fifo_t × List Nat :=
  ({ f with buf := f.buf.drop n }, f.buf.take n)

/-- Modelled from the spec: `tu_fifo_peek` reads the oldest byte without removing it. -/
def tu_fifo_peek (f : tu_fifo_t) : Option Nat := f.buf.head?

/-- Modelled from the spec: `tu_fifo_clear` empties the queue. -/
def tu_fifo_clear (f : tu_fifo_t) : tu_fifo_t := { f with buf := [] }

/-! ## Data model -/

/-- The C `midi_stream_t`: `uint8_t buffer[4]` (fields `b0 .. b3`), `index`, `total`. -/
structure midi_stream_t where
  b0 : Nat
  b1 : Nat
  b2 : Nat
  b3 : Nat
  index : Nat
  total : Nat
deriving DecidableEq, Repr

/-- The stream after `tu_memclr`. -/
def midi_stream_t.zero : midi_stream_t := ⟨0, 0, 0, 0, 0, 0⟩

/-- The C assignment `stream->buffer[i] = v` (`i < 4`). -/
def midi_stream_t.setBuffer (s : midi_stream_t) (i v : Nat) : midi_stream_t :=
  match i with
  | 0 => { s with b0 := v }
  | 1 => { s with b1 := v }
  | 2 => { s with b2 := v }
  | 3 => { s with b3 := v }
  | _ => s

/-- The four bytes `stream->buffer` as handed to `tu_fifo_write_n`. -/
def midi_stream_t.bytes (s : midi_stream_t) : List Nat := [s.b0, s.b1, s.b2, s.b3]

/-- The C `midih_interface_t` (the transfer buffers and mutexes are left out). -/
structure midih_interface_t where
  dev_addr : Nat
  itf_num : Nat
  ep_in : Nat
  ep_out : Nat
  ep_in_max : Nat
  ep_out_max : Nat
  num_cables_rx : Nat
  num_cables_tx : Nat
  stream_write : midi_stream_t
  stream_read : midi_stream_t
  rx_ff : tu_fifo_t
  tx_ff : tu_fifo_t
  configured : Bool
deriving DecidableEq, Repr

/-- Queue size `CFG_TUH_MIDI_RX_BUFSIZE` of the source. -/
def CFG_TUH_MIDI_RX_BUFSIZE : Nat := 64
/-- Queue size `CFG_TUH_MIDI_TX_BUFSIZE` of the source. -/
def CFG_TUH_MIDI_TX_BUFSIZE : Nat := 64

/-- One slot of `_midi_host` after `midih_init`: everything cleared, both queues
configured with 64 bytes. -/
def midih_init : midih_interface_t :=
  { dev_addr := 0, itf_num := 0, ep_in := 0, ep_out := 0, ep_in_max := 0, ep_out_max := 0,
    num_cables_rx := 0, num_cables_tx := 0,
    stream_write := midi_stream_t.zero, stream_read := midi_stream_t.zero,
    rx_ff := ⟨CFG_TUH_MIDI_RX_BUFSIZE, []⟩, tx_ff := ⟨CFG_TUH_MIDI_TX_BUFSIZE, []⟩,
    configured := false }

/-! ## The encoder `tuh_midi_stream_write` -/

/-- The branch "New event packet" of `tuh_midi_stream_write` (`stream->index == 0`). -/
def write_new_event (cable_num data : Nat) (stream : midi_stream_t) : midi_stream_t :=
  let msg := data >>> 4
  let stream := { stream with index := 2, b1 := data }
  if stream.b0 = MIDI_CIN_SYSEX_START then
    if data = MIDI_STATUS_SYSEX_END then
      { stream with b0 := MIDI_CIN_SYSEX_END_1BYTE, total := 2 }
    else
      { stream with total := 4 }
  else if (msg ≥ 0x8 ∧ msg ≤ 0xB) ∨ msg = 0xE then
    { stream with b0 := ((cable_num <<< 4) ||| msg) % 256, total := 4 }
  else if msg = 0xC ∨ msg = 0xD then
    { stream with b0 := ((cable_num <<< 4) ||| msg) % 256, total := 3 }
  else if msg = 0xf then
    if data = MIDI_STATUS_SYSEX_START then
      { stream with b0 := MIDI_CIN_SYSEX_START, total := 4 }
    else if data = MIDI_STATUS_SYSCOM_TIME_CODE_QUARTER_FRAME
        ∨ data = MIDI_STATUS_SYSCOM_SONG_SELECT then
      { stream with b0 := MIDI_CIN_SYSCOM_2BYTE, total := 3 }
    else if data = MIDI_STATUS_SYSCOM_SONG_POSITION_POINTER then
      { stream with b0 := MIDI_CIN_SYSCOM_3BYTE, total := 4 }
    else
      { stream with b0 := MIDI_CIN_SYSEX_END_1BYTE, total := 2 }
  else
    { stream with b0 := ((cable_num <<< 4) ||| 0xf) % 256, b2 := 0, b3 := 0,
                  index := 2, total := 2 }

/-- The branch "On-going (buffering) packet" of `tuh_midi_stream_write`, after its
`TU_ASSERT(stream->index < 4, i)` has passed. -/
def write_ongoing (data : Nat) (stream : midi_stream_t) : midi_stream_t :=
  let stream := stream.setBuffer stream.index data
  let stream := { stream with index := stream.index + 1 }
  if stream.b0 = MIDI_CIN_SYSEX_START ∧ data = MIDI_STATUS_SYSEX_END then
    { stream with b0 := (MIDI_CIN_SYSEX_START + (stream.index - 1)) % 256,
                  total := stream.index }
  else stream

/-- The loop `for (idx = stream->total; idx < 4; idx++) stream->buffer[idx] = 0`. -/
def zero_unused (stream : midi_stream_t) : midi_stream_t :=
  { stream with
    b0 := if stream.total ≤ 0 then 0 else stream.b0
    b1 := if stream.total ≤ 1 then 0 else stream.b1
    b2 := if stream.total ≤ 2 then 0 else stream.b2
    b3 := if stream.total ≤ 3 then 0 else stream.b3 }

/-- The part "Send out packet" of the loop body. The boolean is `false` when
`TU_ASSERT(count == 4, i)` fails and the function returns. -/
def write_send_out (stream : midi_stream_t) (tx_ff : tu_fifo_t) :
    Bool × midi_stream_t × tu_fifo_t :=
  if stream.index ≥ 2 ∧ stream.index = stream.total then
    let stream := zero_unused stream
    let r := tu_fifo_write_n tx_ff stream.bytes 4
    let stream := { stream with index := 0, total := 0 }
    (decide (r.2 = 4), stream, r.1)
  else
    (true, stream, tx_ff)

/-- One iteration of the `while` loop of `tuh_midi_stream_write` on the byte `data`.
The boolean is `false` when a `TU_ASSERT(.., i)` fails, which makes the function return
`i` at once. -/
def write_body (cable_num rt2 rt3 data : Nat) (stream : midi_stream_t) (tx_ff : tu_fifo_t) :
    Bool × midi_stream_t × tu_fifo_t :=
  if data ≥ MIDI_STATUS_SYSREAL_TIMING_CLOCK then
    let r := tu_fifo_write_n tx_ff [MIDI_CIN_SYSEX_END_1BYTE, data, rt2, rt3] 4
    if r.2 = 4 then write_send_out stream r.1 else (false, stream, r.1)
  else if stream.index = 0 then
    write_send_out (write_new_event cable_num data stream) tx_ff
  else if stream.index < 4 then
    write_send_out (write_ongoing data stream) tx_ff
  else
    (false, stream, tx_ff)

/-- The `while` loop of `tuh_midi_stream_write`: `i` counts the bytes taken from the
input; the loop stops when the input is used up, when fewer than 4 bytes are free in
the outgoing queue, or when an assertion fails. -/
def write_loop (cable_num rt2 rt3 : Nat) :
    List Nat → Nat → midi_stream_t → tu_fifo_t → Nat × midi_stream_t × tu_fifo_t
  | [], i, stream, tx_ff => (i, stream, tx_ff)
  | data :: rest, i, stream, tx_ff =>
    if tu_fifo_remaining tx_ff ≥ 4 then
      let r := write_body cable_num rt2 rt3 data stream tx_ff
      if r.1 then write_loop cable_num rt2 rt3 rest (i + 1) r.2.1 r.2.2
      else (i + 1, r.2.1, r.2.2)
    else (i, stream, tx_ff)

/-- The function `tuh_midi_stream_write` on the session of a valid device address:
the returned count and the session afterwards. -/
def tuh_midi_stream_write (p : midih_interface_t) (cable_num rt2 rt3 : Nat)
    (buffer : List Nat) : Nat × midih_interface_t :=
  if cable_num < p.num_cables_tx then
    let r := write_loop cable_num rt2 rt3 buffer 0 p.stream_write p.tx_ff
    (r.1, { p with stream_write := r.2.1, tx_ff := r.2.2 })
  else (0, p)

/-! ## The decoder `tuh_midi_stream_read` -/

/-- The C statement `cable_sysex_in_progress &= ~cable_mask` on the 16-bit variable. -/
def sysex_clear (cable_sysex_in_progress cable_mask : Nat) : Nat :=
  cable_sysex_in_progress &&& (0xFFFF ^^^ cable_mask)

/-- One iteration of the loop `for (idx = 2; idx < 4; idx++)` of the decoder on the
payload byte `byte`; the state is `(bytes_to_add_to_stream, cable_sysex_in_progress,
exited)`, where `exited` records that `idx = 4` has forced the loop to exit. -/
def sysex_scan_step (cable_mask byte : Nat) (st : Nat × Nat × Bool) : Nat × Nat × Bool :=
  if st.2.2 then st
  else if byte ≤ MIDI_MAX_DATA_VAL then (st.1 + 1, st.2.1, false)
  else if byte = MIDI_STATUS_SYSEX_END then (st.1 + 1, sysex_clear st.2.1 cable_mask, true)
  else st

/-- The classification of the packet held in `stream_read.buffer` (the body of the
`while` loop of `tuh_midi_stream_read` up to the copy loop): the value of
`bytes_to_add_to_stream` and the new value of `cable_sysex_in_progress`. -/
def read_packet (num_cables_rx : Nat) (buf : midi_stream_t) (p_cable_num : Nat)
    (cable_sysex_in_progress : Nat) : Nat × Nat :=
  if p_cable_num < num_cables_rx then
    let status := buf.b1
    let cable_mask := (1 <<< p_cable_num) % 65536
    if status ≤ MIDI_MAX_DATA_VAL ∨ status = MIDI_STATUS_SYSEX_START then
      let sysex :=
        if status = MIDI_STATUS_SYSEX_START then cable_sysex_in_progress ||| cable_mask
        else cable_sysex_in_progress
      if sysex &&& cable_mask ≠ 0 then
        let r := sysex_scan_step cable_mask buf.b3
                  (sysex_scan_step cable_mask buf.b2 (1, sysex, false))
        (r.1, r.2.1)
      else (0, sysex)
    else if status < MIDI_STATUS_SYSEX_START then
      let fake_cin := (status &&& 0xf0) >>> 4
      let n :=
        if fake_cin = MIDI_CIN_NOTE_OFF ∨ fake_cin = MIDI_CIN_NOTE_ON
            ∨ fake_cin = MIDI_CIN_POLY_KEYPRESS ∨ fake_cin = MIDI_CIN_CONTROL_CHANGE
            ∨ fake_cin = MIDI_CIN_PITCH_BEND_CHANGE then 3
        else if fake_cin = MIDI_CIN_PROGRAM_CHANGE ∨ fake_cin = MIDI_CIN_CHANNEL_PRESSURE then 2
        else 0
      (n, sysex_clear cable_sysex_in_progress cable_mask)
    else if status < MIDI_STATUS_SYSREAL_TIMING_CLOCK then
      let n :=
        if status = MIDI_STATUS_SYSCOM_TIME_CODE_QUARTER_FRAME
            ∨ status = MIDI_STATUS_SYSCOM_SONG_SELECT then 2
        else if status = MIDI_STATUS_SYSCOM_SONG_POSITION_POINTER then 3
        else if status = MIDI_STATUS_SYSCOM_TUNE_REQUEST ∨ status = MIDI_STATUS_SYSEX_END then 1
        else 0
      (n, cable_sysex_in_progress)
    else (1, cable_sysex_in_progress)
  else (0, cable_sysex_in_progress)

/-- The bytes `tu_fifo_read_n` stores into `stream_read.buffer`, first byte at offset 0. -/
def midi_stream_t.load (s : midi_stream_t) : List Nat → midi_stream_t
  | [] => s
  | [a] => { s with b0 := a }
  | [a, b] => { s with b0 := a, b1 := b }
  | [a, b, c] => { s with b0 := a, b1 := b, b2 := c }
  | a :: b :: c :: d :: _ => { s with b0 := a, b1 := b, b2 := c, b3 := d }

/-- The variables of `tuh_midi_stream_read` when its loop ends. -/
structure read_state where
  bytes_buffered : Nat
  p_cable_num : Nat
  p_buffer : List Nat
  rx : List Nat
  buf : midi_stream_t
  cable_sysex_in_progress : Nat
deriving DecidableEq, Repr

/-- The `while (nread == 4 && bytes_buffered < bufsize)` loop of `tuh_midi_stream_read`,
entered with `nread == 4`: `buf` is `stream_read.buffer` holding the packet just read,
`rx` the bytes still in the incoming queue, `p_buffer` the bytes stored so far through
the caller's pointer. -/
def read_loop (num_cables_rx bufsize : Nat) :
    List Nat → midi_stream_t → Nat → Nat → List Nat → Nat → read_state
  | rx, buf, p_cable_num, sysex, p_buffer, bytes_buffered =>
    if bytes_buffered < bufsize then
      let cable := (buf.b0 >>> 4) &&& 0x0f
      let r := read_packet num_cables_rx buf cable sysex
      let p_buffer := p_buffer ++ [buf.b1, buf.b2, buf.b3].take r.1
      let bytes_buffered := bytes_buffered + r.1
      match rx with
      | c0 :: c1 :: c2 :: c3 :: rest =>
        if (c0 >>> 4) &&& 0xf = cable then
          read_loop num_cables_rx bufsize rest (buf.load [c0, c1, c2, c3]) cable r.2
            p_buffer bytes_buffered
        else ⟨bytes_buffered, cable, p_buffer, rx, buf, r.2⟩
      | [] => ⟨bytes_buffered, cable, p_buffer, rx, buf, r.2⟩
      | one_byte :: short =>
        if (one_byte >>> 4) &&& 0xf = cable then
          ⟨bytes_buffered, cable, p_buffer, [], buf.load (one_byte :: short), r.2⟩
        else ⟨bytes_buffered, cable, p_buffer, rx, buf, r.2⟩
    else ⟨bytes_buffered, p_cable_num, p_buffer, rx, buf, sysex⟩

/-- What a call of `tuh_midi_stream_read` leaves behind: the returned count, the value
stored through `p_cable_num` (if any), the bytes stored through `p_buffer` in order,
the session and the static `cable_sysex_in_progress`. -/
structure read_result where
  ret : Nat
  p_cable_num : Option Nat
  p_buffer : List Nat
  midi : midih_interface_t
  cable_sysex_in_progress : Nat
deriving DecidableEq, Repr

/-- The function `tuh_midi_stream_read` on the session of a valid device address, with
non-null `p_cable_num` and `p_buffer`; `cable_sysex_in_progress` is the value of the
static variable before the call. -/
def tuh_midi_stream_read (p : midih_interface_t) (cable_sysex_in_progress : Nat)
    (bufsize : Nat) : read_result :=
  if bufsize = 0 then ⟨0, none, [], p, cable_sysex_in_progress⟩
  else
    match tu_fifo_peek p.rx_ff with
    | none => ⟨0, none, [], p, cable_sysex_in_progress⟩
    | some one_byte =>
      let cable := (one_byte >>> 4) &&& 0xf
      let r := tu_fifo_read_n p.rx_ff 4
      if r.2.length = 4 then
        let s := read_loop p.num_cables_rx bufsize r.1.buf (p.stream_read.load r.2) cable
                  cable_sysex_in_progress [] 0
        ⟨s.bytes_buffered, some s.p_cable_num, s.p_buffer,
          { p with stream_read := s.buf, rx_ff := { r.1 with buf := s.rx } },
          s.cable_sysex_in_progress⟩
      else
        ⟨0, some cable, [],
          { p with stream_read := p.stream_read.load r.2, rx_ff := r.1 },
          cable_sysex_in_progress⟩

/-! ## The descriptor parser `midih_open` -/

/-- Modelled from the spec: interface class "audio" `TUSB_CLASS_AUDIO` of `tusb_types.h`
(USB: 1). -/
def TUSB_CLASS_AUDIO : Nat := 1
/-- Modelled from the spec: interface subclass "audio control" of `audio.h` (USB audio: 1). -/
def AUDIO_SUBCLASS_CONTROL : Nat := 1
/-- Modelled from the spec: interface subclass "MIDI streaming" of `audio.h` (USB audio: 3). -/
def AUDIO_SUBCLASS_MIDI_STREAMING : Nat := 3
/-- Modelled from the spec: descriptor type "endpoint" of `tusb_types.h` (USB: 5). -/
def TUSB_DESC_ENDPOINT : Nat := 0x05
/-- Modelled from the spec: descriptor type "class-specific interface" of `tusb_types.h`
(USB: 0x24). -/
def TUSB_DESC_CS_INTERFACE : Nat := 0x24
/-- Modelled from the spec: descriptor type "class-specific endpoint" of `tusb_types.h`
(USB: 0x25). -/
def TUSB_DESC_CS_ENDPOINT : Nat := 0x25
/-- Modelled from the spec: class-specific interface subtype "header" of `midi.h` (1). -/
def MIDI_CS_INTERFACE_HEADER : Nat := 0x01
/-- Modelled from the spec: class-specific interface subtype "input jack" of `midi.h` (2). -/
def MIDI_CS_INTERFACE_IN_JACK : Nat := 0x02
/-- Modelled from the spec: class-specific interface subtype "output jack" of `midi.h` (3). -/
def MIDI_CS_INTERFACE_OUT_JACK : Nat := 0x03
/-- Modelled from the spec: class-specific interface subtype "element" of `midi.h` (4). -/
def MIDI_CS_INTERFACE_ELEMENT : Nat := 0x04
/-- Modelled from the spec: class-specific endpoint subtype "general" of `midi.h` (1). -/
def MIDI_MS_ENDPOINT_GENERAL : Nat := 0x01
/-- Modelled from the spec: direction "out" `TUSB_DIR_OUT` of `tusb_types.h` (0). -/
def TUSB_DIR_OUT : Nat := 0
/-- Modelled from the spec: direction "in" `TUSB_DIR_IN` of `tusb_types.h` (1). -/
def TUSB_DIR_IN : Nat := 1

/-- Modelled from the spec: `tu_edpt_dir` of `tusb_types.h`, the direction bit (0x80) of
an endpoint address. -/
def tu_edpt_dir (addr : Nat) : Nat := if addr &&& 0x80 ≠ 0 then TUSB_DIR_IN else TUSB_DIR_OUT

/-- Modelled from the spec: the field `bLength` at offset 0 of every descriptor; `mem` is
the memory read through the descriptor pointer passed to `midih_open`, addressed
relative to it. -/
def bLength (mem : Nat → Nat) (p_desc : Nat) : Nat := mem p_desc
/-- Modelled from the spec: the field `bDescriptorType` at offset 1 of every descriptor. -/
def bDescriptorType (mem : Nat → Nat) (p_desc : Nat) : Nat := mem (p_desc + 1)
/-- Modelled from the spec: the field `bDescriptorSubType` at offset 2 of the
class-specific descriptors (`midi_desc_header_t`, `midi_desc_in_jack_t`,
`midi_cs_desc_endpoint_t`). -/
def bDescriptorSubType (mem : Nat → Nat) (p_desc : Nat) : Nat := mem (p_desc + 2)
/-- Modelled from the spec: the field `bInterfaceNumber` at offset 2 of
`tusb_desc_interface_t`. -/
def bInterfaceNumber (mem : Nat → Nat) (p_desc : Nat) : Nat := mem (p_desc + 2)
/-- Modelled from the spec: the field `bInterfaceClass` at offset 5 of
`tusb_desc_interface_t`. -/
def bInterfaceClass (mem : Nat → Nat) (p_desc : Nat) : Nat := mem (p_desc + 5)
/-- Modelled from the spec: the field `bInterfaceSubClass` at offset 6 of
`tusb_desc_interface_t`. -/
def bInterfaceSubClass (mem : Nat → Nat) (p_desc : Nat) : Nat := mem (p_desc + 6)
/-- Modelled from the spec: the field `bEndpointAddress` at offset 2 of
`tusb_desc_endpoint_t`. -/
def bEndpointAddress (mem : Nat → Nat) (p_desc : Nat) : Nat := mem (p_desc + 2)
/-- Modelled from the spec: the little-endian 16-bit field `wMaxPacketSize` at offsets 4
and 5 of `tusb_desc_endpoint_t`. -/
def wMaxPacketSize (mem : Nat → Nat) (p_desc : Nat) : Nat :=
  mem (p_desc + 4) + 256 * mem (p_desc + 5)
/-- Modelled from the spec: the field `bNumEmbMIDIJack` at offset 3 of
`midi_cs_desc_endpoint_t`. -/
def bNumEmbMIDIJack (mem : Nat → Nat) (p_desc : Nat) : Nat := mem (p_desc + 3)
/-- Modelled from the spec: `tu_desc_next` of `tusb_types.h`, the pointer advanced by the
descriptor's `bLength`. -/
def tu_desc_next (mem : Nat → Nat) (p_desc : Nat) : Nat := p_desc + bLength mem p_desc

/-- The local variables of `midih_open` together with the session. -/
structure open_state where
  midi : midih_interface_t
  p_desc : Nat
  len_parsed : Nat
  prev_ep_addr : Nat
  in_desc : Option Nat
  out_desc : Option Nat
deriving DecidableEq, Repr

/-- The forward scan of `midih_open` for a MIDI-streaming interface after an
audio-control interface: the loop `while (len_parsed < max_len && ...)`. The result is
`(p_desc, len_parsed)`, or `none` when the fuel runs out before the loop ends. -/
def open_scan (mem : Nat → Nat) (max_len : Nat) : Nat → Nat → Nat → Option (Nat × Nat)
  | 0, p_desc, len_parsed =>
    if len_parsed < max_len ∧ (bInterfaceClass mem p_desc ≠ TUSB_CLASS_AUDIO
        ∨ bInterfaceSubClass mem p_desc ≠ AUDIO_SUBCLASS_MIDI_STREAMING) then none
    else some (p_desc, len_parsed)
  | fuel + 1, p_desc, len_parsed =>
    if len_parsed < max_len ∧ (bInterfaceClass mem p_desc ≠ TUSB_CLASS_AUDIO
        ∨ bInterfaceSubClass mem p_desc ≠ AUDIO_SUBCLASS_MIDI_STREAMING) then
      open_scan mem max_len fuel (tu_desc_next mem p_desc)
        ((len_parsed + bLength mem p_desc) % 65536)
    else some (p_desc, len_parsed)

/-- One iteration of the main loop `while (len_parsed < max_len)` of `midih_open`. The
boolean is `false` when a `TU_VERIFY` fails, which makes `midih_open` return `false`
with the session as it is at that point. -/
def open_step (mem : Nat → Nat) (s : open_state) : Bool × open_state :=
  let p_mdh := s.p_desc
  if ¬ (bDescriptorType mem p_mdh = TUSB_DESC_CS_INTERFACE
      ∨ (bDescriptorType mem p_mdh = TUSB_DESC_CS_ENDPOINT
          ∧ bDescriptorSubType mem p_mdh = MIDI_MS_ENDPOINT_GENERAL)
      ∨ bDescriptorType mem p_mdh = TUSB_DESC_ENDPOINT) then (false, s)
  else if bDescriptorType mem p_mdh = TUSB_DESC_CS_INTERFACE then
    if bDescriptorSubType mem p_mdh = MIDI_CS_INTERFACE_HEADER
        ∨ bDescriptorSubType mem p_mdh = MIDI_CS_INTERFACE_IN_JACK
        ∨ bDescriptorSubType mem p_mdh = MIDI_CS_INTERFACE_OUT_JACK
        ∨ bDescriptorSubType mem p_mdh = MIDI_CS_INTERFACE_ELEMENT then
      (true, { s with len_parsed := (s.len_parsed + bLength mem p_mdh) % 65536,
                      p_desc := tu_desc_next mem s.p_desc })
    else (false, s)
  else if bDescriptorType mem p_mdh = TUSB_DESC_CS_ENDPOINT then
    if s.prev_ep_addr = 0 then (false, s)
    else if tu_edpt_dir s.prev_ep_addr = TUSB_DIR_OUT then
      if s.midi.ep_out ≠ s.prev_ep_addr then (false, s)
      else if s.midi.num_cables_tx ≠ 0 then (false, s)
      else
        (true, { s with midi := { s.midi with num_cables_tx := bNumEmbMIDIJack mem p_mdh },
                        len_parsed := (s.len_parsed + bLength mem p_mdh) % 65536,
                        prev_ep_addr := 0,
                        p_desc := tu_desc_next mem s.p_desc })
    else
      if s.midi.ep_in ≠ s.prev_ep_addr then (false, s)
      else if s.midi.num_cables_rx ≠ 0 then (false, s)
      else
        (true, { s with midi := { s.midi with num_cables_rx := bNumEmbMIDIJack mem p_mdh },
                        len_parsed := (s.len_parsed + bLength mem p_mdh) % 65536,
                        prev_ep_addr := 0,
                        p_desc := tu_desc_next mem s.p_desc })
  else if bDescriptorType mem p_mdh = TUSB_DESC_ENDPOINT then
    if tu_edpt_dir (bEndpointAddress mem p_mdh) = TUSB_DIR_OUT then
      if s.midi.ep_out ≠ 0 then (false, s)
      else if s.midi.num_cables_tx ≠ 0 then (false, s)
      else
        (true, { s with midi := { s.midi with
                                  ep_out := bEndpointAddress mem p_mdh
                                  ep_out_max :=
                                    if wMaxPacketSize mem p_mdh > CFG_TUH_MIDI_TX_BUFSIZE
                                    then CFG_TUH_MIDI_TX_BUFSIZE
                                    else wMaxPacketSize mem p_mdh },
                        prev_ep_addr := bEndpointAddress mem p_mdh,
                        out_desc := some p_mdh,
                        len_parsed := (s.len_parsed + bLength mem p_mdh) % 65536,
                        p_desc := tu_desc_next mem s.p_desc })
    else
      if s.midi.ep_in ≠ 0 then (false, s)
      else if s.midi.num_cables_rx ≠ 0 then (false, s)
      else
        (true, { s with midi := { s.midi with
                                  ep_in := bEndpointAddress mem p_mdh
                                  ep_in_max :=
                                    if wMaxPacketSize mem p_mdh > CFG_TUH_MIDI_RX_BUFSIZE
                                    then CFG_TUH_MIDI_RX_BUFSIZE
                                    else wMaxPacketSize mem p_mdh },
                        prev_ep_addr := bEndpointAddress mem p_mdh,
                        in_desc := some p_mdh,
                        len_parsed := (s.len_parsed + bLength mem p_mdh) % 65536,
                        p_desc := tu_desc_next mem s.p_desc })
  else (true, { s with p_desc := tu_desc_next mem s.p_desc })

/-- The main loop `while (len_parsed < max_len)` of `midih_open`: `none` when the fuel
runs out before the loop ends. -/
def open_loop (mem : Nat → Nat) (max_len : Nat) : Nat → open_state → Option (Bool × open_state)
  | 0, s => if s.len_parsed < max_len then none else some (true, s)
  | fuel + 1, s =>
    if s.len_parsed < max_len then
      let r := open_step mem s
      if r.1 then open_loop mem max_len fuel r.2 else some (false, r.2)
    else some (true, s)

/-- The part of `midih_open` after the descriptor walk: the final check, the endpoint
opens through the transport (`usbh_edpt_open`, given the endpoint descriptor) and the
record of the device address. -/
def open_finish (usbh_edpt_open : Nat → Bool) (dev_addr : Nat) (s : open_state) :
    Bool × midih_interface_t :=
  if ¬ ((s.midi.ep_out ≠ 0 ∧ s.midi.num_cables_tx ≠ 0)
      ∨ (s.midi.ep_in ≠ 0 ∧ s.midi.num_cables_rx ≠ 0)) then (false, s.midi)
  else if s.in_desc.any (fun d => ! usbh_edpt_open d) then (false, s.midi)
  else if s.out_desc.any (fun d => ! usbh_edpt_open d) then (false, s.midi)
  else (true, { s.midi with dev_addr := dev_addr })

/-- The function `midih_open` on the session `p` of a valid device address: `mem` is
the memory behind `desc_itf`, `usbh_edpt_open` the answer of the transport. The result
is the returned boolean and the session afterwards, or `none` when a loop has not
ended within `fuel` iterations. -/
def midih_open (mem : Nat → Nat) (usbh_edpt_open : Nat → Bool) (fuel : Nat)
    (p : midih_interface_t) (dev_addr max_len : Nat) : Option (Bool × midih_interface_t) :=
  if TUSB_CLASS_AUDIO ≠ bInterfaceClass mem 0 then some (false, p)
  else
    let scanned : Option (Bool × Nat × Nat) :=
      if AUDIO_SUBCLASS_CONTROL = bInterfaceSubClass mem 0 then
        (open_scan mem max_len fuel 0 0).map
          (fun r => (decide ( TUSB_CLASS_AUDIO = bInterfaceClass mem r.1), r))
      else some (true, 0, 0)
    match scanned with
    | none => none
    | some (false, _) => some (false, p)
    | some (true, desc_itf, len_parsed) =>
      if AUDIO_SUBCLASS_MIDI_STREAMING ≠ bInterfaceSubClass mem desc_itf then some (false, p)
      else
        let len_parsed := (len_parsed + bLength mem desc_itf) % 65536
        let p_desc := tu_desc_next mem desc_itf
        if ¬ ((bDescriptorType mem p_desc = TUSB_DESC_CS_INTERFACE
              ∧ bDescriptorSubType mem p_desc = MIDI_CS_INTERFACE_HEADER)
            ∨ (bDescriptorType mem p_desc = TUSB_DESC_CS_ENDPOINT
              ∧ bDescriptorSubType mem p_desc = MIDI_MS_ENDPOINT_GENERAL)
            ∨ bDescriptorType mem p_desc = TUSB_DESC_ENDPOINT) then some (false, p)
        else
          let p := { p with itf_num := bInterfaceNumber mem desc_itf }
          match open_loop mem max_len fuel ⟨p, p_desc, len_parsed, 0, none, none⟩ with
          | none => none
          | some (false, s) => some (false, s.midi)
          | some (true, s) => some (open_finish usbh_edpt_open dev_addr s)

/-! ## Packets and their content -/

/-- A 4-byte USB-MIDI event packet. -/
abbrev packet := Nat × Nat × Nat × Nat

/-- The bytes of a run of packets, as they lie in a queue. -/
def packets_bytes : List packet → List Nat
  | [] => []
  | pk :: pks => pk.1 :: pk.2.1 :: pk.2.2.1 :: pk.2.2.2 :: packets_bytes pks

/-- The cable number the decoder reads off the first byte of a packet. -/
def cable_of (byte0 : Nat) : Nat := (byte0 >>> 4) &&& 0x0f

/-- The content of one packet, that is the bytes the loop body of `tuh_midi_stream_read`
stores for it (through `read_packet` and the copy loop), and the SysEx bits after it. -/
def packet_content (num_cables_rx : Nat) (pk : packet) (sysex : Nat) : List Nat × Nat :=
  let buf := midi_stream_t.zero.load [pk.1, pk.2.1, pk.2.2.1, pk.2.2.2]
  let r := read_packet num_cables_rx buf ((buf.b0 >>> 4) &&& 0x0f) sysex
  ([buf.b1, buf.b2, buf.b3].take r.1, r.2)

/-- The concatenated content of a run of packets, decoded in order, and the SysEx bits
after the last one. -/
def packets_content (num_cables_rx : Nat) : List packet → Nat → List Nat × Nat
  | [], sysex => ([], sysex)
  | pk :: pks, sysex =>
    let r := packet_content num_cables_rx pk sysex
    let r' := packets_content num_cables_rx pks r.2
    (r.1 ++ r'.1, r'.2)

/-! ## Auxiliary definitions of the statements -/

/-- The encode state between two loop iterations: idle, or a packet in progress with
fill index 2 or 3 below the expected total. -/
def stream_ok (st : midi_stream_t) : Prop :=
  (st.index = 0 ∧ st.total = 0) ∨
    ((st.index = 2 ∨ st.index = 3) ∧ st.index < st.total ∧ st.total ≤ 4)

instance (st : midi_stream_t) : Decidable (stream_ok st) := by
  unfold stream_ok; infer_instance

/-- The encode state after one loop iteration and the bytes this iteration queues, read
off `write_body` run on an empty queue of depth 4. -/
def enc_step (cable_num rt2 rt3 data : Nat) (st : midi_stream_t) : midi_stream_t × List Nat :=
  let r := write_body cable_num rt2 rt3 data st ⟨4, []⟩
  (r.2.1, r.2.2.buf)

/-- The encode state after a run of iterations and the bytes they queue. -/
def enc (cable_num rt2 rt3 : Nat) : midi_stream_t → List Nat → midi_stream_t × List Nat
  | st, [] => (st, [])
  | st, data :: rest =>
    let r := enc_step cable_num rt2 rt3 data st
    let r' := enc cable_num rt2 rt3 r.1 rest
    (r'.1, r.2 ++ r'.2)

/-- A session with one output cable whose outgoing queue has 4 bytes free. -/
def session_nearly_full : midih_interface_t :=
  { midih_init with num_cables_tx := 1, tx_ff := ⟨64, List.replicate 60 0⟩ }

/-- The outgoing queue after a transfer has taken `d` bytes from its front
(`tu_fifo_read_n` in `write_flush`). -/
def drain (d : Nat) (p : midih_interface_t) : midih_interface_t :=
  { p with tx_ff := (tu_fifo_read_n p.tx_ff d).1 }

/-- A session after `midih_init` with `n` input cables and the bytes `queue` in its
incoming queue. -/
def session_rx (n : Nat) (queue : List Nat) : midih_interface_t :=
  { midih_init with num_cables_rx := n, rx_ff := ⟨CFG_TUH_MIDI_RX_BUFSIZE, queue⟩ }

/-- A session after `midih_init` with `n` output cables. -/
def session_tx (n : Nat) : midih_interface_t :=
  { midih_init with num_cables_tx := n }

/-- The session in which the bytes queued for output have been placed in the incoming
queue. -/
def loopback (p : midih_interface_t) : midih_interface_t :=
  { p with rx_ff := { p.rx_ff with buf := p.tx_ff.buf } }

/-- The canonical channel-voice message with status `s`: two bytes for program change
and channel pressure (high nibble 0xC, 0xD), three bytes otherwise. -/
def channel_voice_message (s d1 d2 : Nat) : List Nat :=
  if s >>> 4 = 0xC ∨ s >>> 4 = 0xD then [s, d1] else [s, d1, d2]

/-- A session after `midih_init` with `rx` input cables and `tx` output cables. -/
def session_cables (rx tx : Nat) : midih_interface_t :=
  { midih_init with num_cables_rx := rx, num_cables_tx := tx }

/-- The canonical system messages: time code and song select with one data byte, song
position with two, tune request, and a single real-time byte. -/
def system_message (msg : List Nat) : Prop :=
  (∃ d, d ≤ 0x7F ∧ msg = [0xF1, d]) ∨ (∃ d, d ≤ 0x7F ∧ msg = [0xF3, d]) ∨
  (∃ d1 d2, d1 ≤ 0x7F ∧ d2 ≤ 0x7F ∧ msg = [0xF2, d1, d2]) ∨ msg = [0xF6] ∨
  (∃ r, 0xF8 ≤ r ∧ msg = [r])

/-- The packets of the USB-MIDI wire format for the bytes `xs` of a SysEx message
followed by the closing 0xF7: three bytes per SysEx-start/continue packet (code index
4), and an end packet with one, two or three bytes (code index 5, 6, 7). -/
def sysex_packets : List Nat → List packet
  | [] => [(5, 0xF7, 0, 0)]
  | [a] => [(6, a, 0xF7, 0)]
  | [a, b] => [(7, a, b, 0xF7)]
  | a :: b :: c :: xs => (4, a, b, c) :: sysex_packets xs

/-- Successive calls of `tuh_midi_stream_write` on one cable. Before each call `d`
bytes leave the outgoing queue (a completed transfer). The result lists the count each
call returns, the bytes that have left the queue, in order, and the final session. -/
def write_chunks (cable_num rt2 rt3 : Nat) :
    midih_interface_t → List (Nat × List Nat) → List Nat × List Nat × midih_interface_t
  | p, [] => ([], [], p)
  | p, (d, chunk) :: rest =>
    let sent := (tu_fifo_read_n p.tx_ff d).2
    let r := tuh_midi_stream_write (drain d p) cable_num rt2 rt3 chunk
    let r' := write_chunks cable_num rt2 rt3 r.2 rest
    (r.1 :: r'.1, sent ++ r'.2.1, r'.2.2)

/-- Successive calls of `tuh_midi_stream_read`, each on an incoming queue that has
received the next batch of packets: the bytes stored by all the calls, in order, and
the SysEx bits at the end. -/
def read_batches (bufsize : Nat) :
    midih_interface_t → Nat → List (List packet) → List Nat × Nat
  | _, sysex, [] => ([], sysex)
  | p, sysex, batch :: rest =>
    let r := tuh_midi_stream_read { p with rx_ff := { p.rx_ff with buf := packets_bytes batch } }
      sysex bufsize
    let r' := read_batches bufsize r.midi r.cable_sysex_in_progress rest
    (r.p_buffer ++ r'.1, r'.2)

/-! ## Well-formed descriptor blocks -/

/-- The memory `mem` holds the bytes `bytes` from offset `off` on. -/
def agrees (mem : Nat → Nat) (off : Nat) (bytes : List Nat) : Prop :=
  ∀ i, i < bytes.length → mem (off + i) = bytes.getD i 0

/-- A descriptor of type `type` with at least `least` bytes whose `bLength` is its
length. -/
def is_desc (d : List Nat) (least type : Nat) : Prop :=
  d.getD 0 0 = d.length ∧ least ≤ d.length ∧ d.getD 1 0 = type

/-- A standard interface descriptor of class audio, subclass MIDI streaming. -/
def is_midi_itf (d : List Nat) : Prop :=
  is_desc d 9 0x04 ∧ d.getD 5 0 = 1 ∧ d.getD 6 0 = 3

/-- A class-specific MS interface header. -/
def is_ms_header (d : List Nat) : Prop :=
  is_desc d 7 0x24 ∧ d.getD 2 0 = 1

/-- A MIDI IN or OUT jack descriptor. -/
def is_jack (d : List Nat) : Prop :=
  is_desc d 6 0x24 ∧ (d.getD 2 0 = 2 ∨ d.getD 2 0 = 3)

/-- A standard endpoint descriptor with a non-zero endpoint address. -/
def is_endpoint (d : List Nat) : Prop :=
  is_desc d 7 0x05 ∧ d.getD 2 0 ≠ 0

/-- A class-specific MS bulk endpoint descriptor. -/
def is_cs_endpoint (d : List Nat) : Prop :=
  is_desc d 4 0x25 ∧ d.getD 2 0 = 1

/-- The elements of a MIDI-streaming descriptor block after the interface descriptor: a
class-specific interface descriptor, or a standard endpoint descriptor immediately
followed by its class-specific endpoint descriptor. -/
inductive desc_item where
  | cs_interface (d : List Nat)
  | endpoint (ep cs : List Nat)
deriving DecidableEq, Repr

/-- The bytes of an element. -/
def desc_item.bytes : desc_item → List Nat
  | cs_interface d => d
  | endpoint ep cs => ep ++ cs

/-- The bytes of a run of elements. -/
def items_bytes : List desc_item → List Nat
  | [] => []
  | it :: rest => it.bytes ++ items_bytes rest

/-- An element that is a jack descriptor or a well-formed endpoint pair. -/
def desc_item.well_formed : desc_item → Prop
  | cs_interface d => is_jack d
  | endpoint ep cs => is_endpoint ep ∧ is_cs_endpoint cs

/-- An element the descriptor walk accepts: a class-specific interface descriptor of a
known subtype (header, jack, element) or a well-formed endpoint pair. -/
def desc_item.walk_ok : desc_item → Prop
  | cs_interface d =>
    is_desc d 3 0x24 ∧ (d.getD 2 0 = 1 ∨ d.getD 2 0 = 2 ∨ d.getD 2 0 = 3 ∨ d.getD 2 0 = 4)
  | endpoint ep cs => is_endpoint ep ∧ is_cs_endpoint cs

/-- The endpoint descriptor `ep` is an IN endpoint (bit 7 of the address). -/
def ep_is_in (ep : List Nat) : Prop := ep.getD 2 0 &&& 0x80 ≠ 0

instance (ep : List Nat) : Decidable (ep_is_in ep) := by
  unfold ep_is_in; infer_instance

/-- The number of IN endpoint pairs among the elements. -/
def count_in : List desc_item → Nat
  | [] => 0
  | desc_item.cs_interface _ :: rest => count_in rest
  | desc_item.endpoint ep _ :: rest => (if ep_is_in ep then 1 else 0) + count_in rest

/-- The number of OUT endpoint pairs among the elements. -/
def count_out : List desc_item → Nat
  | [] => 0
  | desc_item.cs_interface _ :: rest => count_out rest
  | desc_item.endpoint ep _ :: rest => (if ep_is_in ep then 0 else 1) + count_out rest

/-- What the descriptor walk records in the session for one element. -/
def record_item (p : midih_interface_t) : desc_item → midih_interface_t
  | desc_item.cs_interface _ => p
  | desc_item.endpoint ep cs =>
    if ep_is_in ep then
      { p with ep_in := ep.getD 2 0
               ep_in_max := min (ep.getD 4 0 + 256 * ep.getD 5 0) 64
               num_cables_rx := cs.getD 3 0 }
    else
      { p with ep_out := ep.getD 2 0
               ep_out_max := min (ep.getD 4 0 + 256 * ep.getD 5 0) 64
               num_cables_tx := cs.getD 3 0 }

/-- The memory behind a descriptor pointer that holds the bytes `block` and reads as 0
after them. -/
def mem_of (block : List Nat) : Nat → Nat := fun i => block.getD i 0

instance (d : List Nat) (least type : Nat) : Decidable (is_desc d least type) := by
  unfold is_desc; infer_instance

instance (d : List Nat) : Decidable (is_midi_itf d) := by
  unfold is_midi_itf; infer_instance

instance (d : List Nat) : Decidable (is_ms_header d) := by
  unfold is_ms_header; infer_instance

instance (d : List Nat) : Decidable (is_jack d) := by
  unfold is_jack; infer_instance

instance (d : List Nat) : Decidable (is_endpoint d) := by
  unfold is_endpoint; infer_instance

instance (d : List Nat) : Decidable (is_cs_endpoint d) := by
  unfold is_cs_endpoint; infer_instance

instance (it : desc_item) : Decidable it.well_formed := by
  cases it <;> unfold desc_item.well_formed <;> infer_instance

/-- The interface descriptor of the sample block: audio class, MIDI streaming, interface
number 1. -/
def sample_itf : List Nat := [9, 4, 1, 0, 2, 1, 3, 0, 0]

/-- The MS header of the sample block. -/
def sample_header : List Nat := [7, 0x24, 1, 0, 1, 0x25, 0]

/-- The elements of the sample block: an embedded IN jack and an embedded OUT jack; a
bulk OUT endpoint (address 0x01, 64 bytes) with 1 embedded jack; a bulk IN endpoint
(address 0x81, 512 bytes) with 2 embedded jacks. -/
def sample_items : List desc_item :=
  [desc_item.cs_interface [6, 0x24, 2, 1, 1, 0],
   desc_item.cs_interface [9, 0x24, 3, 1, 3, 1, 2, 1, 0],
   desc_item.endpoint [9, 5, 0x01, 2, 0x40, 0, 0, 0, 0] [5, 0x25, 1, 1, 1],
   desc_item.endpoint [9, 5, 0x81, 2, 0, 2, 0, 0, 0] [6, 0x25, 1, 2, 3, 4]]

/-- A well-formed interface descriptor block with an IN endpoint of 2 embedded jacks and
an OUT endpoint of 1. -/
def sample_block : List Nat :=
  sample_itf ++ (sample_header ++ items_bytes sample_items)

/-- An interface descriptor block like `sample_block` whose two class-specific endpoint
descriptors each declare 17 embedded jacks (`bNumEmbMIDIJack = 17`). -/
def block_17_jacks : List Nat :=
  sample_itf ++ (sample_header ++ items_bytes
    [desc_item.endpoint [9, 5, 0x01, 2, 0x40, 0, 0, 0, 0]
       [21, 0x25, 1, 17, 1, 2, 3, 4, 5, 6, 7, 8, 9, 10, 11, 12, 13, 14, 15, 16, 17],
     desc_item.endpoint [9, 5, 0x81, 2, 0x40, 0, 0, 0, 0]
       [21, 0x25, 1, 17, 1, 2, 3, 4, 5, 6, 7, 8, 9, 10, 11, 12, 13, 14, 15, 16, 17]])

/-- The session that `midih_open` builds from `block_17_jacks` for device address 1. -/
def session_17_cables : midih_interface_t :=
  { midih_init with
    dev_addr := 1, itf_num := 1, ep_in := 0x81, ep_out := 0x01,
    ep_in_max := 64, ep_out_max := 64, num_cables_rx := 17, num_cables_tx := 17 }

/-- Successive calls of `tuh_midi_stream_write`, each with its own cable number, its own
uninitialised bytes `rt2 rt3` and its own input. Before each call `d` bytes leave the
outgoing queue, so that every fill level of the queue occurs. -/
def write_calls : midih_interface_t → List (Nat × Nat × Nat × Nat × List Nat) →
    midih_interface_t
  | p, [] => p
  | p, (d, cable_num, rt2, rt3, buffer) :: rest =>
    write_calls (tuh_midi_stream_write (drain d p) cable_num rt2 rt3 buffer).2 rest

/-- What `midih_open` returns once its main loop has ended: `false` with the session as
it is when a check of the loop has failed, the outcome of `open_finish` otherwise. -/
def open_return (usbh_edpt_open : Nat → Bool) (dev_addr : Nat) :
    Option (Bool × open_state) → Option (Bool × midih_interface_t)
  | none => none
  | some (false, s) => some (false, s.midi)
  | some (true, s) => some (open_finish usbh_edpt_open dev_addr s)

/-- The interface descriptor `midih_open` settles on lies at offset `q`, reached with
`len_parsed = l`: the descriptor passed in when it is not an audio-control interface,
the one at which the forward scan stops otherwise. -/
def open_start (mem : Nat → Nat) (max_len fuel q l : Nat) : Prop :=
  (bInterfaceSubClass mem 0 ≠ AUDIO_SUBCLASS_CONTROL ∧ q = 0 ∧ l = 0) ∨
  (bInterfaceSubClass mem 0 = AUDIO_SUBCLASS_CONTROL ∧
    open_scan mem max_len fuel 0 0 = some (q, l))

/-- The check of `midih_open` on the first descriptor after the interface descriptor. -/
def open_first_ok (mem : Nat → Nat) (p_desc : Nat) : Prop :=
  (bDescriptorType mem p_desc = TUSB_DESC_CS_INTERFACE
      ∧ bDescriptorSubType mem p_desc = MIDI_CS_INTERFACE_HEADER)
  ∨ (bDescriptorType mem p_desc = TUSB_DESC_CS_ENDPOINT
      ∧ bDescriptorSubType mem p_desc = MIDI_MS_ENDPOINT_GENERAL)
  ∨ bDescriptorType mem p_desc = TUSB_DESC_ENDPOINT

instance (mem : Nat → Nat) (p_desc : Nat) : Decidable (open_first_ok mem p_desc) := by
  unfold open_first_ok; infer_instance

/-- The state in which `midih_open` enters its main loop when the interface descriptor
lies at offset `q` and `len_parsed = l` on reaching it. -/
def open_entry (mem : Nat → Nat) (p : midih_interface_t) (q l : Nat) : open_state :=
  ⟨{ p with itf_num := bInterfaceNumber mem q }, tu_desc_next mem q,
    (l + bLength mem q) % 65536, 0, none, none⟩

/-- The fields of the session the descriptor walk never writes. -/
def open_frame (p q : midih_interface_t) : Prop :=
  q.dev_addr = p.dev_addr ∧ q.configured = p.configured ∧
  q.stream_write = p.stream_write ∧ q.stream_read = p.stream_read ∧
  q.rx_ff = p.rx_ff ∧ q.tx_ff = p.tx_ff

/-- A cable count is recorded only for a direction whose endpoint address is recorded
and non-zero. -/
def open_counted (p : midih_interface_t) : Prop :=
  (p.num_cables_rx ≠ 0 → p.ep_in ≠ 0) ∧ (p.num_cables_tx ≠ 0 → p.ep_out ≠ 0)

/-- An interface descriptor block in which the bulk OUT endpoint descriptor is followed
by the descriptor of a further interface instead of its class-specific endpoint
descriptor. -/
def block_unfinished : List Nat :=
  sample_itf ++ (sample_header ++
    ([9, 5, 0x01, 2, 0x40, 0, 0, 0, 0] ++ [9, 4, 2, 0, 0, 1, 2, 0, 0]))

/-- An interface descriptor block with a bulk OUT endpoint that has no class-specific
endpoint descriptor, and a bulk IN endpoint whose class-specific endpoint descriptor
declares 17 embedded jacks. -/
def block_out_uncounted : List Nat :=
  sample_itf ++ (sample_header ++
    ([9, 5, 0x01, 2, 0x40, 0, 0, 0, 0] ++ ([9, 5, 0x81, 2, 0x40, 0, 0, 0, 0] ++
      [21, 0x25, 1, 17, 1, 2, 3, 4, 5, 6, 7, 8, 9, 10, 11, 12, 13, 14, 15, 16, 17])))

/-- An interface descriptor block whose class-specific MS header declares `bLength = 0`. -/
def block_zero_length : List Nat :=
  sample_itf ++ [0, 0x24, 1, 0, 1, 7, 0]

/-- The bytes of a run of descriptors. -/
def descs_bytes : List (List Nat) → List Nat
  | [] => []
  | d :: rest => d ++ descs_bytes rest

/-- Whether, after the descriptors `descs`, a standard endpoint descriptor is still
waiting for its class-specific endpoint descriptor: a standard endpoint descriptor
(type 5) starts the wait, a class-specific endpoint descriptor (type 0x25) ends it, and
any other descriptor leaves it as it is. -/
def endpoint_pending : Bool → List (List Nat) → Bool
  | b, [] => b
  | b, d :: rest =>
    endpoint_pending
      (if d.getD 1 0 = TUSB_DESC_ENDPOINT then true
       else if d.getD 1 0 = TUSB_DESC_CS_ENDPOINT then false else b) rest

/-- An interface descriptor block in which a jack descriptor stands between the bulk OUT
endpoint descriptor and its class-specific endpoint descriptor. -/
def block_jack_between : List Nat :=
  sample_itf ++ (sample_header ++
    ([9, 5, 0x01, 2, 0x40, 0, 0, 0, 0] ++ ([6, 0x24, 2, 1, 1, 0] ++ [5, 0x25, 1, 1, 1])))

/-- An interface descriptor block with a second class-specific endpoint descriptor
right after the one of the bulk OUT endpoint. -/
def block_cs_endpoint_twice : List Nat :=
  sample_itf ++ (descs_bytes [sample_header, [9, 5, 0x01, 2, 0x40, 0, 0, 0, 0],
    [5, 0x25, 1, 1, 1]] ++ [5, 0x25, 1, 1, 2])

/-! ## The session table, the transport and the transfer functions -/

/-- The pointer `get_midi_host` returns into the table `_midi_host` of
`CFG_TUH_DEVICE_MAX` sessions: the index `dev_addr - 1` of the session, or `none` for
the null pointer that its failed `TU_ASSERT` returns. -/
def get_midi_host (CFG_TUH_DEVICE_MAX dev_addr : Nat) : Option Nat :=
  if dev_addr > 0 ∧ dev_addr ≤ CFG_TUH_DEVICE_MAX then some (dev_addr - 1) else none

/-- The answers of the transport (functions of the host stack): whether an endpoint
is busy, whether it can be claimed, and whether a transfer on it is accepted. -/
structure usbh_t where
  usbh_edpt_busy : Nat → Nat → Bool
  usbh_edpt_claim : Nat → Nat → Bool
  usbh_edpt_xfer : Nat → Nat → Bool

/-- The buffer handed to `usbh_edpt_xfer`: the `epin_buf` of the session in slot `slot`
of `_midi_host`, or the `epout_buf` of the session at hand with its content. -/
inductive xfer_buffer where
  | epin_buf (slot : Nat)
  | epout_buf (content : List Nat)
deriving DecidableEq, Repr

/-- What the driver asks of the transport: a transfer the transport has accepted
(`usbh_edpt_xfer` with device address, endpoint address, buffer and length), the
release of a claimed endpoint, or the abandon of an unacknowledged inbound transfer. -/
inductive usbh_call where
  | xfer (dev_addr ep_addr : Nat) (buffer : xfer_buffer) (len : Nat)
  | release (dev_addr ep_addr : Nat)
  | clear_in_on_nak (dev_addr ep_addr : Nat)
deriving DecidableEq, Repr

/-- The function `midih_close` on the session of a valid device address (the call of
the unmount callback is left out). The static variable `cable_sysex_in_progress` is
local to `tuh_midi_stream_read` and not within its reach. -/
def midih_close (p : midih_interface_t) : midih_interface_t :=
  { p with rx_ff := tu_fifo_clear p.rx_ff
           tx_ff := tu_fifo_clear p.tx_ff
           ep_in := 0
           ep_in_max := 0
           ep_out := 0
           ep_out_max := 0
           itf_num := 0
           num_cables_rx := 0
           num_cables_tx := 0
           dev_addr := 255
           configured := false
           stream_read := midi_stream_t.zero
           stream_write := midi_stream_t.zero }

/-- The function `midih_set_config` on the session of a valid device address. -/
def midih_set_config (p : midih_interface_t) : Bool × midih_interface_t :=
  (true, { p with configured := true })

/-- The function `write_flush`: the returned count, the session afterwards and the
requests made to the transport. -/
def write_flush (usbh : usbh_t) (dev_addr : Nat) (midi : midih_interface_t) :
    Nat × midih_interface_t × List usbh_call :=
  if tu_fifo_count midi.tx_ff = 0 then (0, midi, [])
  else if ¬ usbh.usbh_edpt_claim dev_addr midi.ep_out then (0, midi, [])
  else
    let r := tu_fifo_read_n midi.tx_ff midi.ep_out_max
    let count := r.2.length % 65536
    if count ≠ 0 then
      if usbh.usbh_edpt_xfer dev_addr midi.ep_out then
        (count, { midi with tx_ff := r.1 },
          [usbh_call.xfer dev_addr midi.ep_out (xfer_buffer.epout_buf r.2) count])
      else (0, { midi with tx_ff := r.1 }, [])
    else (0, { midi with tx_ff := r.1 }, [usbh_call.release dev_addr midi.ep_out])

/-- The function `tuh_midi_stream_flush` on the session `p` of a valid device address:
the returned count, the session afterwards and the requests made to the transport. -/
def tuh_midi_stream_flush (usbh : usbh_t) (dev_addr : Nat) (p : midih_interface_t) :
    Nat × midih_interface_t × List usbh_call :=
  let control_edpt_not_busy :=
    !usbh.usbh_edpt_busy dev_addr 0 && !usbh.usbh_edpt_busy dev_addr 0x80
  let in_edpt_not_busy :=
    if p.num_cables_rx > 0 then !usbh.usbh_edpt_busy dev_addr p.ep_in else true
  if control_edpt_not_busy && in_edpt_not_busy
      && !usbh.usbh_edpt_busy p.dev_addr p.ep_out then
    write_flush usbh dev_addr p
  else (0, p, [])

/-- The function `tuh_midi_read_poll` on the table `hosts` (the array `_midi_host`, of
`CFG_TUH_DEVICE_MAX = hosts.length` sessions): the returned boolean and the requests
made to the transport, or `none` when the null pointer of an invalid device address is
dereferenced. The expression `_midi_host->epin_buf` is the buffer of slot 0 and
`_midi_host->ep_in_max` the field of the session in slot 0. -/
def tuh_midi_read_poll (usbh : usbh_t) (hosts : List midih_interface_t) (dev_addr : Nat) :
    Option (Bool × List usbh_call) :=
  match get_midi_host hosts.length dev_addr with
  | none => none
  | some slot =>
    let p_midi_host := hosts.getD slot midih_init
    let control_edpt_not_busy :=
      !usbh.usbh_edpt_busy dev_addr 0 && !usbh.usbh_edpt_busy dev_addr 0x80
    let out_edpt_not_busy :=
      if p_midi_host.num_cables_tx > 0 then
        !usbh.usbh_edpt_busy p_midi_host.dev_addr p_midi_host.ep_out
      else true
    if control_edpt_not_busy && out_edpt_not_busy then
      let in_edpt_not_busy := !usbh.usbh_edpt_busy dev_addr p_midi_host.ep_in
      if in_edpt_not_busy then
        if usbh.usbh_edpt_xfer p_midi_host.dev_addr p_midi_host.ep_in then
          some (true, [usbh_call.xfer p_midi_host.dev_addr p_midi_host.ep_in
            (xfer_buffer.epin_buf 0) (hosts.getD 0 midih_init).ep_in_max])
        else some (false, [])
      else
        some (false, [usbh_call.clear_in_on_nak p_midi_host.dev_addr p_midi_host.ep_in])
    else some (false, [])

/-- The functions of the application interface called with a device address, on the
table `hosts`: `get_midi_host` first, then the function on the session it points to.
The result is `none` when the null pointer of an invalid device address is
dereferenced. -/
def tuh_midi_stream_write_dev (hosts : List midih_interface_t)
    (dev_addr cable_num rt2 rt3 : Nat) (buffer : List Nat) :
    Option (Nat × List midih_interface_t) :=
  (get_midi_host hosts.length dev_addr).map fun slot =>
    let r := tuh_midi_stream_write (hosts.getD slot midih_init) cable_num rt2 rt3 buffer
    (r.1, hosts.set slot r.2)

/-- The function `tuh_midi_stream_read` called with a device address and non-null
`p_cable_num` and `p_buffer`: the returned count, the bytes stored, the table and the
static `cable_sysex_in_progress` afterwards. With `bufsize = 0` the function returns
before it uses the session. -/
def tuh_midi_stream_read_dev (hosts : List midih_interface_t)
    (cable_sysex_in_progress dev_addr bufsize : Nat) :
    Option (Nat × List Nat × List midih_interface_t × Nat) :=
  if bufsize = 0 then some (0, [], hosts, cable_sysex_in_progress)
  else
    (get_midi_host hosts.length dev_addr).map fun slot =>
      let r := tuh_midi_stream_read (hosts.getD slot midih_init) cable_sysex_in_progress
        bufsize
      (r.ret, r.p_buffer, hosts.set slot r.midi, r.cable_sysex_in_progress)

/-- The function `tuh_midi_stream_flush` called with a device address. -/
def tuh_midi_stream_flush_dev (usbh : usbh_t) (hosts : List midih_interface_t)
    (dev_addr : Nat) : Option (Nat × List midih_interface_t × List usbh_call) :=
  (get_midi_host hosts.length dev_addr).map fun slot =>
    let r := tuh_midi_stream_flush usbh dev_addr (hosts.getD slot midih_init)
    (r.1, hosts.set slot r.2.1, r.2.2)

/-- The function `tuh_midi_configured`. -/
def tuh_midi_configured (hosts : List midih_interface_t) (dev_addr : Nat) : Option Bool :=
  (get_midi_host hosts.length dev_addr).map fun slot =>
    (hosts.getD slot midih_init).configured

/-- The function `tuh_midih_get_num_tx_cables`. -/
def tuh_midih_get_num_tx_cables (hosts : List midih_interface_t) (dev_addr : Nat) :
    Option Nat :=
  (get_midi_host hosts.length dev_addr).map fun slot =>
    if (hosts.getD slot midih_init).ep_out ≠ 0 then (hosts.getD slot midih_init).num_cables_tx
    else 0

/-- The function `tuh_midih_get_num_rx_cables`. -/
def tuh_midih_get_num_rx_cables (hosts : List midih_interface_t) (dev_addr : Nat) :
    Option Nat :=
  (get_midi_host hosts.length dev_addr).map fun slot =>
    if (hosts.getD slot midih_init).ep_in ≠ 0 then (hosts.getD slot midih_init).num_cables_rx
    else 0

/-- A transport on which every endpoint is idle and every request succeeds. -/
def usbh_idle : usbh_t := ⟨fun _ _ => false, fun _ _ => true, fun _ _ => true⟩

/-- A transport like `usbh_idle` on which the control OUT endpoint (address 0) is
busy. -/
def usbh_control_busy : usbh_t :=
  ⟨fun _ ep_addr => ep_addr = 0, fun _ _ => true, fun _ _ => true⟩

/-- The session of an attached and configured device at address `dev_addr`, with one
cable per direction and 64-byte endpoints 0x81 and 0x01. -/
def session_attached (dev_addr : Nat) : midih_interface_t :=
  { midih_init with
    dev_addr := dev_addr, itf_num := 1, ep_in := 0x81, ep_out := 0x01,
    ep_in_max := 64, ep_out_max := 64, num_cables_rx := 1, num_cables_tx := 1,
    configured := true }

/-! ## The SysEx-in-progress indicator of a cable -/

/-- Bit `c` of the static `cable_sysex_in_progress`: the SysEx-in-progress indicator of
cable `c`. -/
def sysex_bit (cable_sysex_in_progress c : Nat) : Bool := cable_sysex_in_progress.testBit c

/-- The packet carries a SysEx-start status (0xF0 as its first MIDI byte) on cable `c`. -/
def sysex_starts (c : Nat) (pk : packet) : Prop :=
  cable_of pk.1 = c ∧ pk.2.1 = 0xF0

/-- The packet ends a SysEx message on cable `c`: a packet of the SysEx stream (first
MIDI byte a data byte or 0xF0) with 0xF7 as a trailing payload byte, or a packet with a
channel-voice status. -/
def sysex_stops (c : Nat) (pk : packet) : Prop :=
  cable_of pk.1 = c ∧
    (((pk.2.1 ≤ 0x7F ∨ pk.2.1 = 0xF0) ∧ (pk.2.2.1 = 0xF7 ∨ pk.2.2.2 = 0xF7))
      ∨ (0x80 ≤ pk.2.1 ∧ pk.2.1 < 0xF0))

/-- A SysEx-start status has been seen on cable `c` and nothing has ended the message
since. -/
def sysex_pending (c : Nat) (pks : List packet) : Prop :=
  ∃ pre pk post, pks = pre ++ pk :: post ∧ sysex_starts c pk ∧ ¬ sysex_stops c pk ∧
    ∀ q ∈ post, ¬ sysex_stops c q

/-! ## Queues that differ in code-index nibbles -/

/-- Two incoming queues of packets (the last one possibly incomplete) that differ at
most in the low nibble, the code index, of the first byte of some packets. -/
inductive differ_in_code_index : List Nat → List Nat → Prop where
  | nil : differ_in_code_index [] []
  | short (a a' : Nat) (t : List Nat) :
      a >>> 4 = a' >>> 4 → t.length < 3 → differ_in_code_index (a :: t) (a' :: t)
  | packet (a a' b c d : Nat) (q q' : List Nat) :
      a >>> 4 = a' >>> 4 → differ_in_code_index q q' →
      differ_in_code_index (a :: b :: c :: d :: q) (a' :: b :: c :: d :: q')

/-- Two contents of `stream_read.buffer` that differ at most in the low nibble of the
first byte. -/
def buffer_alike (buf buf' : midi_stream_t) : Prop :=
  buf.b0 >>> 4 = buf'.b0 >>> 4 ∧ buf.b1 = buf'.b1 ∧ buf.b2 = buf'.b2 ∧ buf.b3 = buf'.b3

/-- Two outcomes of the loop of `tuh_midi_stream_read` with the same count, cable
number, stored bytes and SysEx bits, whose remaining queues and packet buffers differ
at most in code-index nibbles. -/
def read_state_alike (s s' : read_state) : Prop :=
  s.bytes_buffered = s'.bytes_buffered ∧ s.p_cable_num = s'.p_cable_num ∧
  s.p_buffer = s'.p_buffer ∧ s.cable_sysex_in_progress = s'.cable_sysex_in_progress ∧
  differ_in_code_index s.rx s'.rx ∧ buffer_alike s.buf s'.buf

/-- The bytes stored by `k` successive calls of `tuh_midi_stream_read` on the same
session, in order. -/
def read_repeat : Nat → midih_interface_t → Nat → Nat → List Nat
  | 0, _, _, _ => []
  | k + 1, p, sysex, bufsize =>
    let r := tuh_midi_stream_read p sysex bufsize
    r.p_buffer ++ read_repeat k r.midi r.cable_sysex_in_progress bufsize

/-! ## The content of a packet in the words of the spec -/

/-- Spec, section 4.3, the scan of the payload of a SysEx packet, "scanning payload
offset 2 then 3: a data-range byte counts as content; a SysEx-end byte counts as
content and clears the bit, ending the scan early": the content bytes found and
whether a SysEx-end byte has ended the scan. -/
def spec_sysex_scan : List Nat → List Nat × Bool
  | [] => ([], false)
  | x :: rest =>
    if x ≤ 0x7F then (x :: (spec_sysex_scan rest).1, (spec_sysex_scan rest).2)
    else if x = 0xF7 then ([x], true)
    else spec_sysex_scan rest

/-- Spec, section 4.3: the content of one packet, determined from its status byte (the
first MIDI byte) and, for a SysEx packet, from whether a SysEx message is in progress on
the cable (`in_sysex`), together with that indicator after the packet.
A status in the data-byte range or SysEx start: the status and the content bytes of the
payload while the indicator is set (SysEx start sets it), nothing otherwise. A
channel-voice status: the status and two bytes for note off, note on, poly pressure,
control change and pitch bend, the status and one byte for program change and channel
pressure; the indicator is cleared. A system-common status: the status and one byte
for time code and song select, the status and two bytes for song position, the status
alone for tune request and SysEx end (which ends a SysEx message). A real-time status:
the status alone, the indicator untouched. The spec names no further content for the
system-common bytes 0xF4 and 0xF5: they are given the status alone here (the status byte
is content in each of these cases), and `packet_regular` leaves them out. -/
def spec_content (in_sysex : Bool) (pk : packet) : List Nat × Bool :=
  let status := pk.2.1
  if status ≤ 0x7F ∨ status = 0xF0 then
    if in_sysex = true ∨ status = 0xF0 then
      (status :: (spec_sysex_scan [pk.2.2.1, pk.2.2.2]).1,
        !(spec_sysex_scan [pk.2.2.1, pk.2.2.2]).2)
    else ([], false)
  else if status < 0xF0 then
    if status >>> 4 = 0xC ∨ status >>> 4 = 0xD then ([status, pk.2.2.1], false)
    else ([status, pk.2.2.1, pk.2.2.2], false)
  else if status < 0xF8 then
    if status = 0xF1 ∨ status = 0xF3 then ([status, pk.2.2.1], in_sysex)
    else if status = 0xF2 then ([status, pk.2.2.1, pk.2.2.2], in_sysex)
    else if status = 0xF7 then ([status], false)
    else ([status], in_sysex)
  else ([status], in_sysex)

/-- A packet for which the spec determines the content and the decoder does not slip:
its status is neither 0xF4 nor 0xF5; it is not a SysEx-end status met while a SysEx
message is in progress; and, in a SysEx packet whose payload is scanned, no byte that is
not content (neither a data byte nor 0xF7) stands before a content byte. -/
def packet_regular (in_sysex : Bool) (pk : packet) : Prop :=
  pk.2.1 ≠ 0xF4 ∧ pk.2.1 ≠ 0xF5 ∧ ¬ (in_sysex = true ∧ pk.2.1 = 0xF7) ∧
  ¬ (((pk.2.1 ≤ 0x7F ∧ in_sysex = true) ∨ pk.2.1 = 0xF0) ∧
      (0x7F < pk.2.2.1 ∧ pk.2.2.1 ≠ 0xF7) ∧ (pk.2.2.2 ≤ 0x7F ∨ pk.2.2.2 = 0xF7))

instance (in_sysex : Bool) (pk : packet) : Decidable (packet_regular in_sysex pk) := by
  unfold packet_regular; infer_instance

/-- A run of packets of one cable each of which is regular at the SysEx indicator that
the packets before it leave. -/
def run_regular : Bool → List packet → Prop
  | _, [] => True
  | in_sysex, pk :: rest =>
    packet_regular in_sysex pk ∧ run_regular (spec_content in_sysex pk).2 rest

/-- Whether a run is regular can be computed. -/
def run_regular_decidable : (in_sysex : Bool) → (pks : List packet) →
    Decidable (run_regular in_sysex pks)
  | _, [] => isTrue trivial
  | in_sysex, pk :: rest =>
    @instDecidableAnd _ _ inferInstance (run_regular_decidable (spec_content in_sysex pk).2 rest)

instance (in_sysex : Bool) (pks : List packet) : Decidable (run_regular in_sysex pks) :=
  run_regular_decidable in_sysex pks

/-! # Theorems -/

/-! ## Arithmetic of the packet header byte -/

theorem and_0xf (x : Nat) : x &&& 0xf = x % 16 :=
  Nat.and_pow_two_sub_one_eq_mod x 4

theorem shr4 (x : Nat) : x >>> 4 = x / 16 :=
  Nat.shiftRight_eq_div_pow x 4

theorem header_eq (c m : Nat) (hm : m < 16) : (c <<< 4) ||| m = 16 * c + m := by
  rw [Nat.shiftLeft_eq, Nat.mul_comm]
  exact (Nat.mul_add_lt_is_or (by simpa using hm) c).symm

theorem header_cable (c m : Nat) (hc : c < 16) (hm : m < 16) :
    ((((c <<< 4) ||| m) % 256) >>> 4) &&& 0xf = c := by
  rw [header_eq c m hm, and_0xf, shr4]
  omega

theorem header_low (c m : Nat) (hm : m < 16) : (((c <<< 4) ||| m) % 256) % 16 = m := by
  rw [header_eq c m hm]
  omega

set_option maxRecDepth 100000 in
theorem status_nibble : ∀ s < 256, (s &&& 0xf0) >>> 4 = s / 16 := by
  decide

/-! ## The encoder as a function of the input bytes -/

theorem fifo_write4 (f : tu_fifo_t) (a b c d : Nat) (h : 4 ≤ tu_fifo_remaining f) :
    tu_fifo_write_n f [a, b, c, d] 4 = (⟨f.depth, f.buf ++ [a, b, c, d]⟩, 4) := by
  unfold tu_fifo_write_n
  simp [Nat.min_eq_left h]

theorem send_out_eq (st : midi_stream_t) (ff : tu_fifo_t) (h : 4 ≤ tu_fifo_remaining ff) :
    write_send_out st ff =
      (true, (write_send_out st ⟨4, []⟩).2.1,
        ⟨ff.depth, ff.buf ++ (write_send_out st ⟨4, []⟩).2.2.buf⟩) := by
  have h4 : 4 ≤ tu_fifo_remaining ⟨4, []⟩ := by decide
  unfold write_send_out
  split
  · simp only [midi_stream_t.bytes, fifo_write4 _ _ _ _ _ h, fifo_write4 _ _ _ _ _ h4]
    simp
  · simp

theorem send_out_skip (st : midi_stream_t) (ff : tu_fifo_t)
    (h : ¬ (st.index ≥ 2 ∧ st.index = st.total)) : write_send_out st ff = (true, st, ff) := by
  unfold write_send_out
  rw [if_neg h]

theorem body_eq (c rt2 rt3 data : Nat) (st : midi_stream_t) (ff : tu_fifo_t)
    (hst : stream_ok st) (h : 4 ≤ tu_fifo_remaining ff) :
    write_body c rt2 rt3 data st ff =
      (true, (enc_step c rt2 rt3 data st).1,
        ⟨ff.depth, ff.buf ++ (enc_step c rt2 rt3 data st).2⟩) := by
  have h4 : 4 ≤ tu_fifo_remaining ⟨4, []⟩ := by decide
  have hno : ¬ (st.index ≥ 2 ∧ st.index = st.total) := by
    unfold stream_ok at hst; omega
  unfold enc_step write_body
  by_cases hrt : data ≥ MIDI_STATUS_SYSREAL_TIMING_CLOCK
  · simp only [if_pos hrt, fifo_write4 _ _ _ _ _ h, fifo_write4 _ _ _ _ _ h4,
      send_out_skip _ _ hno]
    simp
  · simp only [if_neg hrt]
    by_cases h0 : st.index = 0
    · simp only [if_pos h0]
      rw [send_out_eq _ _ h]
    · have hlt : st.index < 4 := by unfold stream_ok at hst; omega
      simp only [if_neg h0, if_pos hlt]
      rw [send_out_eq _ _ h]

theorem new_event_shape (c data : Nat) (st : midi_stream_t) :
    (write_new_event c data st).index = 2 ∧
      ((write_new_event c data st).total = 2 ∨ (write_new_event c data st).total = 3
        ∨ (write_new_event c data st).total = 4) := by
  unfold write_new_event
  simp only []
  split_ifs <;> simp

theorem ongoing_shape (data : Nat) (st : midi_stream_t) :
    (write_ongoing data st).index = st.index + 1 ∧
      ((write_ongoing data st).total = st.total
        ∨ (write_ongoing data st).total = st.index + 1) := by
  have hi : ∀ i v, (st.setBuffer i v).index = st.index := by
    intro i v; unfold midi_stream_t.setBuffer; split <;> rfl
  have ht : ∀ i v, (st.setBuffer i v).total = st.total := by
    intro i v; unfold midi_stream_t.setBuffer; split <;> rfl
  unfold write_ongoing
  simp only []
  split_ifs <;> simp [hi, ht]

theorem send_out_shape (st : midi_stream_t) (ff : tu_fifo_t)
    (h : (st.index = 2 ∨ st.index = 3 ∨ st.index = 4) ∧ st.index ≤ st.total ∧ st.total ≤ 4) :
    stream_ok (write_send_out st ff).2.1 := by
  unfold write_send_out stream_ok
  split_ifs with hc
  · simp
  · simp only []
    omega

theorem send_out_length (st : midi_stream_t) :
    (write_send_out st ⟨4, []⟩).2.2.buf.length ≤ 4 := by
  unfold write_send_out
  split_ifs
  · simp [tu_fifo_write_n, midi_stream_t.bytes]
  · simp

theorem enc_step_ok (c rt2 rt3 data : Nat) (st : midi_stream_t) (hst : stream_ok st) :
    stream_ok (enc_step c rt2 rt3 data st).1 := by
  have hno : ¬ (st.index ≥ 2 ∧ st.index = st.total) := by
    unfold stream_ok at hst; omega
  unfold enc_step write_body
  by_cases hrt : data ≥ MIDI_STATUS_SYSREAL_TIMING_CLOCK
  · simp only [if_pos hrt, fifo_write4 _ _ _ _ _ (by decide : 4 ≤ tu_fifo_remaining ⟨4, []⟩),
      send_out_skip _ _ hno]
    simpa using hst
  · simp only [if_neg hrt]
    by_cases h0 : st.index = 0
    · simp only [if_pos h0]
      apply send_out_shape
      have := new_event_shape c data st
      omega
    · have hlt : st.index < 4 := by unfold stream_ok at hst; omega
      simp only [if_neg h0, if_pos hlt]
      apply send_out_shape
      have := ongoing_shape data st
      unfold stream_ok at hst
      omega

theorem enc_step_length (c rt2 rt3 data : Nat) (st : midi_stream_t) (hst : stream_ok st) :
    (enc_step c rt2 rt3 data st).2.length ≤ 4 := by
  have hno : ¬ (st.index ≥ 2 ∧ st.index = st.total) := by
    unfold stream_ok at hst; omega
  unfold enc_step write_body
  by_cases hrt : data ≥ MIDI_STATUS_SYSREAL_TIMING_CLOCK
  · simp only [if_pos hrt, fifo_write4 _ _ _ _ _ (by decide : 4 ≤ tu_fifo_remaining ⟨4, []⟩),
      send_out_skip _ _ hno]
    simp
  · simp only [if_neg hrt]
    by_cases h0 : st.index = 0
    · simp only [if_pos h0]
      exact send_out_length _
    · have hlt : st.index < 4 := by unfold stream_ok at hst; omega
      simp only [if_neg h0, if_pos hlt]
      exact send_out_length _

theorem enc_ok (c rt2 rt3 : Nat) (xs : List Nat) :
    ∀ st, stream_ok st → stream_ok (enc c rt2 rt3 st xs).1 := by
  induction xs with
  | nil => intro st h; simpa [enc] using h
  | cons x xs ih =>
    intro st h
    simp only [enc]
    exact ih _ (enc_step_ok c rt2 rt3 x st h)

theorem enc_length (c rt2 rt3 : Nat) (xs : List Nat) :
    ∀ st, stream_ok st → (enc c rt2 rt3 st xs).2.length ≤ 4 * xs.length := by
  induction xs with
  | nil => intro st _; simp [enc]
  | cons x xs ih =>
    intro st h
    simp only [enc, List.length_append, List.length_cons]
    have h1 := enc_step_length c rt2 rt3 x st h
    have h2 := ih _ (enc_step_ok c rt2 rt3 x st h)
    omega

theorem enc_append (c rt2 rt3 : Nat) (xs ys : List Nat) :
    ∀ st, enc c rt2 rt3 st (xs ++ ys) =
      ((enc c rt2 rt3 (enc c rt2 rt3 st xs).1 ys).1,
        (enc c rt2 rt3 st xs).2 ++ (enc c rt2 rt3 (enc c rt2 rt3 st xs).1 ys).2) := by
  induction xs with
  | nil => intro st; simp [enc]
  | cons x xs ih =>
    intro st
    rw [List.cons_append]
    simp only [enc]
    rw [ih]
    simp only [List.append_assoc]

/-- With room for one packet per input byte the loop takes every byte, and the queue
grows by the bytes of `enc`. -/
theorem write_loop_room (c rt2 rt3 : Nat) (xs : List Nat) :
    ∀ i st ff, stream_ok st → ff.buf.length + 4 * xs.length ≤ ff.depth →
      write_loop c rt2 rt3 xs i st ff =
        (i + xs.length, (enc c rt2 rt3 st xs).1,
          ⟨ff.depth, ff.buf ++ (enc c rt2 rt3 st xs).2⟩) := by
  induction xs with
  | nil => intro i st ff _ _; simp [write_loop, enc]
  | cons x xs ih =>
    intro i st ff hst hroom
    simp only [List.length_cons] at hroom
    have hrem : 4 ≤ tu_fifo_remaining ff := by unfold tu_fifo_remaining; omega
    have hlen := enc_step_length c rt2 rt3 x st hst
    simp only [write_loop, ge_iff_le, hrem, if_true, body_eq c rt2 rt3 x st ff hst hrem]
    rw [ih _ _ _ (enc_step_ok c rt2 rt3 x st hst)
      (by simp only [List.length_append]; omega)]
    simp only [enc, List.length_cons, List.append_assoc]
    congr 1
    omega

/-- Whatever the room, the loop takes some prefix of the input and the queue grows by
the bytes `enc` gives for that prefix. -/
theorem write_loop_prefix (c rt2 rt3 : Nat) (xs : List Nat) :
    ∀ i st ff, stream_ok st →
      ∃ k, k ≤ xs.length ∧
        write_loop c rt2 rt3 xs i st ff =
          (i + k, (enc c rt2 rt3 st (xs.take k)).1,
            ⟨ff.depth, ff.buf ++ (enc c rt2 rt3 st (xs.take k)).2⟩) := by
  induction xs with
  | nil => intro i st ff _; exact ⟨0, by simp [write_loop, enc]⟩
  | cons x xs ih =>
    intro i st ff hst
    by_cases hrem : 4 ≤ tu_fifo_remaining ff
    · obtain ⟨k, hk, he⟩ := ih (i + 1) (enc_step c rt2 rt3 x st).1
        ⟨ff.depth, ff.buf ++ (enc_step c rt2 rt3 x st).2⟩ (enc_step_ok c rt2 rt3 x st hst)
      refine ⟨k + 1, by simpa using hk, ?_⟩
      simp only [write_loop, ge_iff_le, hrem, if_true, body_eq c rt2 rt3 x st ff hst hrem]
      rw [he]
      simp only [List.take_succ_cons, enc, List.append_assoc]
      congr 1
      omega
    · exact ⟨0, by simp [write_loop, enc, hrem]⟩

/-! ## The encoder: invalid cable -/

/-- C4: for every session, every cable number at or above the session's output cable
count and every input buffer, `tuh_midi_stream_write` returns 0 and leaves the session,
its encode state and outgoing queue included, exactly as it was. -/
theorem write_invalid_cable (p : midih_interface_t) (c rt2 rt3 : Nat) (buffer : List Nat)
    (h : p.num_cables_tx ≤ c) : tuh_midi_stream_write p c rt2 rt3 buffer = (0, p) := by
  unfold tuh_midi_stream_write
  rw [if_neg (Nat.not_lt.mpr h)]

theorem write_invalid_cable_witness :
    tuh_midi_stream_write (session_tx 2) 2 0 0 [0x90, 0x40, 0x7F]
      = (0, (session_tx 2)) :=
  write_invalid_cable (session_tx 2) 2 0 0 [0x90, 0x40, 0x7F]
    (by decide)

/-! ## The decoder as a function of the queued packets -/

theorem sysex_scan_step_le (m b : Nat) (st : Nat × Nat × Bool) :
    (sysex_scan_step m b st).1 ≤ st.1 + 1 := by
  unfold sysex_scan_step
  split_ifs <;> simp

theorem read_packet_le (n : Nat) (buf : midi_stream_t) (cab sysex : Nat) :
    (read_packet n buf cab sysex).1 ≤ 3 := by
  have key : ∀ s : Nat, (sysex_scan_step ((1 <<< cab) % 65536) buf.b3
      (sysex_scan_step ((1 <<< cab) % 65536) buf.b2 (1, s, false))).1 ≤ 3 := by
    intro s
    have h1 := sysex_scan_step_le ((1 <<< cab) % 65536) buf.b2 (1, s, false)
    have h2 := sysex_scan_step_le ((1 <<< cab) % 65536) buf.b3
      (sysex_scan_step ((1 <<< cab) % 65536) buf.b2 (1, s, false))
    simp only at h1
    omega
  unfold read_packet
  simp only []
  split_ifs
  all_goals first
    | exact key _
    | simp

theorem read_loop_cons4 (n bufsize c0 c1 c2 c3 : Nat) (rest : List Nat) (buf : midi_stream_t)
    (cab sysex : Nat) (out : List Nat) (bb : Nat) :
    read_loop n bufsize (c0 :: c1 :: c2 :: c3 :: rest) buf cab sysex out bb =
      if bb < bufsize then
        if (c0 >>> 4) &&& 0xf = (buf.b0 >>> 4) &&& 0x0f then
          read_loop n bufsize rest (buf.load [c0, c1, c2, c3]) ((buf.b0 >>> 4) &&& 0x0f)
            (read_packet n buf ((buf.b0 >>> 4) &&& 0x0f) sysex).2
            (out ++ [buf.b1, buf.b2, buf.b3].take
              (read_packet n buf ((buf.b0 >>> 4) &&& 0x0f) sysex).1)
            (bb + (read_packet n buf ((buf.b0 >>> 4) &&& 0x0f) sysex).1)
        else
          ⟨bb + (read_packet n buf ((buf.b0 >>> 4) &&& 0x0f) sysex).1,
            (buf.b0 >>> 4) &&& 0x0f,
            out ++ [buf.b1, buf.b2, buf.b3].take
              (read_packet n buf ((buf.b0 >>> 4) &&& 0x0f) sysex).1,
            c0 :: c1 :: c2 :: c3 :: rest, buf,
            (read_packet n buf ((buf.b0 >>> 4) &&& 0x0f) sysex).2⟩
      else ⟨bb, cab, out, c0 :: c1 :: c2 :: c3 :: rest, buf, sysex⟩ := rfl

theorem read_loop_nil (n bufsize : Nat) (buf : midi_stream_t)
    (cab sysex : Nat) (out : List Nat) (bb : Nat) :
    read_loop n bufsize [] buf cab sysex out bb =
      if bb < bufsize then
        ⟨bb + (read_packet n buf ((buf.b0 >>> 4) &&& 0x0f) sysex).1,
          (buf.b0 >>> 4) &&& 0x0f,
          out ++ [buf.b1, buf.b2, buf.b3].take
            (read_packet n buf ((buf.b0 >>> 4) &&& 0x0f) sysex).1,
          [], buf, (read_packet n buf ((buf.b0 >>> 4) &&& 0x0f) sysex).2⟩
      else ⟨bb, cab, out, [], buf, sysex⟩ := rfl

theorem read_loop_next (n bufsize c0 c1 c2 c3 : Nat) (rest : List Nat) (buf : midi_stream_t)
    (cab sysex : Nat) (out : List Nat) (bb : Nat) (hbb : bb < bufsize)
    (hc : (c0 >>> 4) &&& 0xf = (buf.b0 >>> 4) &&& 0x0f) :
    read_loop n bufsize (c0 :: c1 :: c2 :: c3 :: rest) buf cab sysex out bb =
      read_loop n bufsize rest (buf.load [c0, c1, c2, c3]) ((buf.b0 >>> 4) &&& 0x0f)
        (read_packet n buf ((buf.b0 >>> 4) &&& 0x0f) sysex).2
        (out ++ [buf.b1, buf.b2, buf.b3].take (read_packet n buf ((buf.b0 >>> 4) &&& 0x0f) sysex).1)
        (bb + (read_packet n buf ((buf.b0 >>> 4) &&& 0x0f) sysex).1) := by
  rw [read_loop_cons4, if_pos hbb, if_pos hc]

/-- The loop stops in front of a byte of another cable. -/
theorem read_loop_other (n bufsize ob : Nat) (rest : List Nat) (buf : midi_stream_t)
    (cab sysex : Nat) (out : List Nat) (bb : Nat) (hbb : bb < bufsize)
    (hc : (ob >>> 4) &&& 0xf ≠ (buf.b0 >>> 4) &&& 0x0f) :
    read_loop n bufsize (ob :: rest) buf cab sysex out bb =
      ⟨bb + (read_packet n buf ((buf.b0 >>> 4) &&& 0x0f) sysex).1,
        (buf.b0 >>> 4) &&& 0x0f,
        out ++ [buf.b1, buf.b2, buf.b3].take
          (read_packet n buf ((buf.b0 >>> 4) &&& 0x0f) sysex).1,
        ob :: rest, buf, (read_packet n buf ((buf.b0 >>> 4) &&& 0x0f) sysex).2⟩ := by
  match rest with
  | [] =>
    show (if bb < bufsize then
      (if (ob >>> 4) &&& 0xf = (buf.b0 >>> 4) &&& 0x0f then _ else _) else _) = _
    rw [if_pos hbb, if_neg hc]
  | [_] =>
    show (if bb < bufsize then
      (if (ob >>> 4) &&& 0xf = (buf.b0 >>> 4) &&& 0x0f then _ else _) else _) = _
    rw [if_pos hbb, if_neg hc]
  | [_, _] =>
    show (if bb < bufsize then
      (if (ob >>> 4) &&& 0xf = (buf.b0 >>> 4) &&& 0x0f then _ else _) else _) = _
    rw [if_pos hbb, if_neg hc]
  | _ :: _ :: _ :: _ =>
    rw [read_loop_cons4, if_pos hbb, if_neg hc]

theorem packet_content_length (n : Nat) (pk : packet) (sysex : Nat) :
    (packet_content n pk sysex).1.length ≤ 3 := by
  unfold packet_content
  have := read_packet_le n (midi_stream_t.zero.load [pk.1, pk.2.1, pk.2.2.1, pk.2.2.2])
    (((midi_stream_t.zero.load [pk.1, pk.2.1, pk.2.2.1, pk.2.2.2]).b0 >>> 4) &&& 0x0f) sysex
  simp only [List.length_take, List.length_cons, List.length_nil]
  omega

theorem packet_content_take (n : Nat) (pk : packet) (sysex : Nat) (buf0 : midi_stream_t) :
    packet_content n pk sysex =
      ([pk.2.1, pk.2.2.1, pk.2.2.2].take
          (read_packet n (buf0.load [pk.1, pk.2.1, pk.2.2.1, pk.2.2.2])
            ((pk.1 >>> 4) &&& 0x0f) sysex).1,
        (read_packet n (buf0.load [pk.1, pk.2.1, pk.2.2.1, pk.2.2.2])
          ((pk.1 >>> 4) &&& 0x0f) sysex).2) := rfl

theorem packet_content_length_eq (n : Nat) (pk : packet) (sysex : Nat) (buf0 : midi_stream_t) :
    (packet_content n pk sysex).1.length =
      (read_packet n (buf0.load [pk.1, pk.2.1, pk.2.2.1, pk.2.2.2])
        ((pk.1 >>> 4) &&& 0x0f) sysex).1 := by
  rw [packet_content_take n pk sysex buf0]
  have := read_packet_le n (buf0.load [pk.1, pk.2.1, pk.2.2.1, pk.2.2.2])
    ((pk.1 >>> 4) &&& 0x0f) sysex
  simp only [List.length_take, List.length_cons, List.length_nil]
  omega

/-- The loop on a run of packets of one cable `a`, followed by nothing or by a byte of
another cable: it stores the content of each packet of the run and stops in front of
what follows. -/
theorem read_loop_run (n bufsize a : Nat) (rest : List Nat)
    (hrest : ∀ b ∈ rest.head?, cable_of b ≠ a) :
    ∀ (pks : List packet) (pk : packet) (buf0 : midi_stream_t) (cab sysex : Nat)
      (out : List Nat) (bb : Nat),
      cable_of pk.1 = a → (∀ q ∈ pks, cable_of q.1 = a) → bb + 3 * pks.length < bufsize →
      ∃ buf',
        read_loop n bufsize (packets_bytes pks ++ rest)
            (buf0.load [pk.1, pk.2.1, pk.2.2.1, pk.2.2.2]) cab sysex out bb
          = ⟨bb + (packets_content n (pk :: pks) sysex).1.length, a,
              out ++ (packets_content n (pk :: pks) sysex).1, rest, buf',
              (packets_content n (pk :: pks) sysex).2⟩ := by
  intro pks
  induction pks with
  | nil =>
    intro pk buf0 cab sysex out bb hpk _ hbb
    refine ⟨buf0.load [pk.1, pk.2.1, pk.2.2.1, pk.2.2.2], ?_⟩
    have hbb' : bb < bufsize := by omega
    have hl := packet_content_length_eq n pk sysex buf0
    unfold cable_of at hpk hrest
    simp only [packets_content, List.append_nil, packets_bytes, List.nil_append,
      packet_content_take n pk sysex buf0] at hl ⊢
    match rest, hrest with
    | [], _ =>
      rw [read_loop_nil, if_pos hbb']
      simp only [midi_stream_t.load, hpk] at hl ⊢
      rw [hl]
    | ob :: rest, hrest =>
      have := hrest ob (by simp)
      rw [read_loop_other n bufsize ob rest _ _ _ _ _ hbb'
        (by simp only [midi_stream_t.load]; rw [hpk]; exact this)]
      simp only [midi_stream_t.load, hpk] at hl ⊢
      rw [hl]
  | cons q pks ih =>
    intro pk buf0 cab sysex out bb hpk hall hbb
    have hq : cable_of q.1 = a := hall q (by simp)
    have hall' : ∀ q' ∈ pks, cable_of q'.1 = a := fun q' h => hall q' (by simp [h])
    have hbb' : bb < bufsize := by omega
    have hl := packet_content_length_eq n pk sysex buf0
    have hle := packet_content_length n pk sysex
    simp only [List.length_cons] at hbb
    obtain ⟨buf', he⟩ := ih q (buf0.load [pk.1, pk.2.1, pk.2.2.1, pk.2.2.2]) a
      (packet_content n pk sysex).2 (out ++ (packet_content n pk sysex).1)
      (bb + (packet_content n pk sysex).1.length) hq hall' (by omega)
    refine ⟨buf', ?_⟩
    have hload : ∀ (b : midi_stream_t) (w x y z : Nat),
        (b.load [w, x, y, z]).load [q.1, q.2.1, q.2.2.1, q.2.2.2]
          = b.load [q.1, q.2.1, q.2.2.1, q.2.2.2] := by
      intro b w x y z; rfl
    rw [hload] at he
    unfold cable_of at hpk hq
    rw [show packets_content n (pk :: q :: pks) sysex =
        ((packet_content n pk sysex).1 ++ (packets_content n (q :: pks)
            (packet_content n pk sysex).2).1,
          (packets_content n (q :: pks) (packet_content n pk sysex).2).2) from rfl]
    simp only [List.length_append, ← Nat.add_assoc, ← List.append_assoc]
    rw [← he]
    simp only [packets_bytes, List.cons_append, packet_content_take n pk sysex buf0] at hl ⊢
    rw [read_loop_next n bufsize _ _ _ _ _ _ _ _ _ _ hbb'
      (by simp only [midi_stream_t.load]; rw [hq, hpk])]
    simp only [midi_stream_t.load, hpk] at hl ⊢
    rw [hl]

/-! ## The encoder: resuming -/

theorem write_loop_shift (c rt2 rt3 : Nat) (xs : List Nat) :
    ∀ i st ff, write_loop c rt2 rt3 xs i st ff =
      ((write_loop c rt2 rt3 xs 0 st ff).1 + i, (write_loop c rt2 rt3 xs 0 st ff).2) := by
  induction xs with
  | nil => intro i st ff; simp [write_loop]
  | cons x xs ih =>
    intro i st ff
    simp only [write_loop]
    split_ifs
    · rw [ih (i + 1), ih (0 + 1)]
      simp only [Prod.mk.injEq, and_true]
      omega
    · simp only [Prod.mk.injEq, and_true]
      omega
    · simp

theorem write_loop_split (c rt2 rt3 : Nat) (a b : List Nat) :
    ∀ i st ff, (write_loop c rt2 rt3 (a ++ b) i st ff).1 = i + a.length + b.length →
      (write_loop c rt2 rt3 a i st ff).1 = i + a.length ∧
      write_loop c rt2 rt3 b (i + a.length) (write_loop c rt2 rt3 a i st ff).2.1
          (write_loop c rt2 rt3 a i st ff).2.2
        = write_loop c rt2 rt3 (a ++ b) i st ff := by
  induction a with
  | nil => intro i st ff _; simp [write_loop]
  | cons x a ih =>
    intro i st ff h
    simp only [List.cons_append, write_loop, List.length_cons, List.append_eq] at h ⊢
    split_ifs at h ⊢ with h1 h2
    · have := ih (i + 1) _ _ (by rw [h]; omega)
      refine ⟨by rw [this.1]; omega, ?_⟩
      rw [← this.2]
      congr 1
      omega
    · simp only at h
      have ha : a = [] := List.eq_nil_of_length_eq_zero (by omega)
      have hb : b = [] := List.eq_nil_of_length_eq_zero (by omega)
      subst ha hb
      simp [write_loop]
    · simp only at h
      omega

/-- Resumable encoding when every call finds the same two bytes `rt2 rt3` in the part of
`streamrt.buffer` that the code does not initialise. For a cable below the output cable
count and an encode
state that is idle or holds a packet in progress: (1) if one call on `a ++ b` takes
every byte (enough queue space), then the call on `a` takes all of `a` and the
following call on `b` returns `b.length` and leaves exactly the session, queued
packets and encode state included, of the single call; (2) if a call on `x` returns
a count `k`, `d` bytes then leave the queue, and the call on the suffix of `x` from
offset `k` takes that whole suffix, then the bytes `e1`, `e2` the two calls append to
the queue are, put together, the bytes that an uninterrupted call on `x` (a session
`q` with the same encode state whose call takes all of `x`) appends, and the final
encode states agree. -/
theorem write_resumable (p q : midih_interface_t) (c rt2 rt3 d : Nat) (a b x : List Nat)
    (hc : c < p.num_cables_tx)
    (hok : stream_ok p.stream_write)
    (hab : (tuh_midi_stream_write p c rt2 rt3 (a ++ b)).1 = (a ++ b).length)
    (hq : q.stream_write = p.stream_write ∧ q.num_cables_tx = p.num_cables_tx)
    (hfull : (tuh_midi_stream_write q c rt2 rt3 x).1 = x.length)
    (hresume : (tuh_midi_stream_write (drain d (tuh_midi_stream_write p c rt2 rt3 x).2)
        c rt2 rt3 (x.drop (tuh_midi_stream_write p c rt2 rt3 x).1)).1
          = x.length - (tuh_midi_stream_write p c rt2 rt3 x).1) :
    ((tuh_midi_stream_write p c rt2 rt3 a).1 = a.length ∧
      tuh_midi_stream_write (tuh_midi_stream_write p c rt2 rt3 a).2 c rt2 rt3 b
        = (b.length, (tuh_midi_stream_write p c rt2 rt3 (a ++ b)).2)) ∧
    (∃ e1 e2 : List Nat,
      (tuh_midi_stream_write p c rt2 rt3 x).2.tx_ff.buf = p.tx_ff.buf ++ e1 ∧
      (tuh_midi_stream_write (drain d (tuh_midi_stream_write p c rt2 rt3 x).2)
          c rt2 rt3 (x.drop (tuh_midi_stream_write p c rt2 rt3 x).1)).2.tx_ff.buf
        = (drain d (tuh_midi_stream_write p c rt2 rt3 x).2).tx_ff.buf ++ e2 ∧
      (tuh_midi_stream_write q c rt2 rt3 x).2.tx_ff.buf = q.tx_ff.buf ++ (e1 ++ e2) ∧
      (tuh_midi_stream_write (drain d (tuh_midi_stream_write p c rt2 rt3 x).2)
          c rt2 rt3 (x.drop (tuh_midi_stream_write p c rt2 rt3 x).1)).2.stream_write
        = (tuh_midi_stream_write q c rt2 rt3 x).2.stream_write) := by
  have hcq : c < q.num_cables_tx := by rw [hq.2]; exact hc
  constructor
  · simp only [tuh_midi_stream_write, if_pos hc, List.length_append] at hab ⊢
    obtain ⟨h1, h2⟩ :=
      write_loop_split c rt2 rt3 a b 0 p.stream_write p.tx_ff (by rw [hab]; omega)
    rw [write_loop_shift c rt2 rt3 b (0 + a.length)] at h2
    have h3 := congrArg Prod.fst h2
    have h4 := congrArg Prod.snd h2
    simp only at h3 h4
    rw [hab] at h3
    refine ⟨by omega, ?_⟩
    rw [← h4]
    simp only [Prod.mk.injEq, and_true]
    omega
  · obtain ⟨k, hk, he⟩ := write_loop_prefix c rt2 rt3 x 0 p.stream_write p.tx_ff hok
    have hok1 := enc_ok c rt2 rt3 (x.take k) p.stream_write hok
    obtain ⟨k2, hk2, he2⟩ := write_loop_prefix c rt2 rt3 (x.drop k) 0
      (enc c rt2 rt3 p.stream_write (x.take k)).1
      ⟨p.tx_ff.depth, (p.tx_ff.buf ++ (enc c rt2 rt3 p.stream_write (x.take k)).2).drop d⟩ hok1
    obtain ⟨k3, hk3, he3⟩ := write_loop_prefix c rt2 rt3 x 0 q.stream_write q.tx_ff
      (by rw [hq.1]; exact hok)
    simp only [tuh_midi_stream_write, if_pos hc, if_pos hcq, drain, tu_fifo_read_n, he, he3,
      Nat.zero_add] at hfull hresume ⊢
    simp only [he2, Nat.zero_add, List.length_drop] at hresume ⊢
    subst hfull
    have e2full : List.take k2 (List.drop k x) = List.drop k x := by
      apply List.take_of_length_le
      simp only [List.length_drop]; omega
    refine ⟨(enc c rt2 rt3 p.stream_write (x.take k)).2,
      (enc c rt2 rt3 (enc c rt2 rt3 p.stream_write (x.take k)).1 (x.drop k)).2, rfl, ?_, ?_, ?_⟩
    · rw [e2full]
    · rw [List.take_length, hq.1]
      conv => lhs; rw [← List.take_append_drop k x, enc_append]
    · rw [List.take_length, hq.1, e2full]
      conv => rhs; rw [← List.take_append_drop k x, enc_append]

theorem write_resumable_witness :
    (tuh_midi_stream_write session_nearly_full 0 0 0 [0x90, 0x40, 0x7F, 0x80, 0x40, 0]).1 = 3 ∧
    (((tuh_midi_stream_write session_nearly_full 0 0 0 [0x90]).1 = [0x90].length ∧
      tuh_midi_stream_write (tuh_midi_stream_write session_nearly_full 0 0 0 [0x90]).2 0 0 0
          [0x40]
        = ([0x40].length, (tuh_midi_stream_write session_nearly_full 0 0 0 ([0x90] ++ [0x40])).2)) ∧
    (∃ e1 e2 : List Nat,
      (tuh_midi_stream_write session_nearly_full 0 0 0
          [0x90, 0x40, 0x7F, 0x80, 0x40, 0]).2.tx_ff.buf
        = session_nearly_full.tx_ff.buf ++ e1 ∧
      (tuh_midi_stream_write (drain 64 (tuh_midi_stream_write session_nearly_full 0 0 0
          [0x90, 0x40, 0x7F, 0x80, 0x40, 0]).2) 0 0 0
          (([0x90, 0x40, 0x7F, 0x80, 0x40, 0] : List Nat).drop
            (tuh_midi_stream_write session_nearly_full 0 0 0
              [0x90, 0x40, 0x7F, 0x80, 0x40, 0]).1)).2.tx_ff.buf
        = (drain 64 (tuh_midi_stream_write session_nearly_full 0 0 0
            [0x90, 0x40, 0x7F, 0x80, 0x40, 0]).2).tx_ff.buf ++ e2 ∧
      (tuh_midi_stream_write (session_tx 1) 0 0 0 [0x90, 0x40, 0x7F, 0x80, 0x40, 0]).2.tx_ff.buf
        = (session_tx 1).tx_ff.buf ++ (e1 ++ e2) ∧
      (tuh_midi_stream_write (drain 64 (tuh_midi_stream_write session_nearly_full 0 0 0
          [0x90, 0x40, 0x7F, 0x80, 0x40, 0]).2) 0 0 0
          (([0x90, 0x40, 0x7F, 0x80, 0x40, 0] : List Nat).drop
            (tuh_midi_stream_write session_nearly_full 0 0 0
              [0x90, 0x40, 0x7F, 0x80, 0x40, 0]).1)).2.stream_write
        = (tuh_midi_stream_write (session_tx 1) 0 0 0
            [0x90, 0x40, 0x7F, 0x80, 0x40, 0]).2.stream_write)) :=
  ⟨by decide,
    write_resumable session_nearly_full (session_tx 1) 0 0 0 64 [0x90] [0x40]
      [0x90, 0x40, 0x7F, 0x80, 0x40, 0] (by decide) (by decide) (by decide) ⟨rfl, rfl⟩
      (by decide) (by decide)⟩

/-! ## The decoder: cable boundary and capacity -/

/-- One call of `tuh_midi_stream_read` on a queue that starts with a run of complete
packets of one cable `a`, followed by nothing or by a byte of another cable. -/
theorem read_run (p : midih_interface_t) (sysex bufsize a : Nat)
    (pk : packet) (pks : List packet) (rest : List Nat)
    (hq : p.rx_ff.buf = packets_bytes (pk :: pks) ++ rest)
    (hrest : ∀ b ∈ rest.head?, cable_of b ≠ a)
    (ha : ∀ q ∈ pk :: pks, cable_of q.1 = a)
    (hcap : 3 * pks.length < bufsize) :
    (tuh_midi_stream_read p sysex bufsize).p_cable_num = some a ∧
    (tuh_midi_stream_read p sysex bufsize).p_buffer
      = (packets_content p.num_cables_rx (pk :: pks) sysex).1 ∧
    (tuh_midi_stream_read p sysex bufsize).ret
      = (packets_content p.num_cables_rx (pk :: pks) sysex).1.length ∧
    (tuh_midi_stream_read p sysex bufsize).midi.rx_ff.buf = rest ∧
    (tuh_midi_stream_read p sysex bufsize).cable_sysex_in_progress
      = (packets_content p.num_cables_rx (pk :: pks) sysex).2 := by
  have hne : bufsize ≠ 0 := by omega
  obtain ⟨buf', he⟩ := read_loop_run p.num_cables_rx bufsize a rest hrest
    pks pk p.stream_read (cable_of pk.1) sysex [] 0 (ha pk (by simp))
    (fun q h => ha q (by simp [h])) (by omega)
  unfold tuh_midi_stream_read
  simp only [if_neg hne, tu_fifo_peek, tu_fifo_read_n, hq, packets_bytes, List.cons_append,
    List.head?_cons, List.take_succ_cons, List.take_zero, List.drop_succ_cons, List.drop_zero,
    List.length_cons, List.length_nil, Nat.zero_add, if_true, Nat.reduceAdd]
  simp only [cable_of] at he ⊢
  rw [he]
  simp

/-- C7 (evaluation at the failing input). With one input cable, the note-on packet
`09 90 40 7F` in the incoming queue and capacity `bufsize = 1`, the loop guard
`bytes_buffered < bufsize` lets the packet through and `tuh_midi_stream_read` stores
three bytes through `p_buffer` and returns 3, more than the capacity. -/
theorem read_exceeds_capacity :
    (tuh_midi_stream_read
        (session_rx 1 [0x09, 0x90, 0x40, 0x7F])
        0 1).p_buffer = [0x90, 0x40, 0x7F] ∧
    (tuh_midi_stream_read
        (session_rx 1 [0x09, 0x90, 0x40, 0x7F])
        0 1).ret = 3 := by
  decide

/-- C5 (evaluation at the failing input). On cable 1 of a session with two output
cables, the real-time byte `F8` is queued as `05 F8 ..` and the SysEx start `F0 01 02`
as `04 F0 01 02`: the first byte is the bare code index, its high nibble is 0 and not
the cable number 1, whereas the channel-voice message `90 40 7F` is queued as
`19 90 40 7F` with the cable number in the high nibble. -/
theorem write_system_packet_header :
    (tuh_midi_stream_write (session_tx 2) 1 0 0 [0xF8]).2.tx_ff.buf
      = [0x05, 0xF8, 0, 0] ∧
    (tuh_midi_stream_write (session_tx 2) 1 0 0
        [0xF0, 0x01, 0x02]).2.tx_ff.buf = [0x04, 0xF0, 0x01, 0x02] ∧
    (tuh_midi_stream_write (session_tx 2) 1 0 0
        [0x90, 0x40, 0x7F]).2.tx_ff.buf = [0x19, 0x90, 0x40, 0x7F] ∧
    cable_of 0x05 = 0 ∧ cable_of 0x04 = 0 ∧ cable_of 0x19 = 1 := by
  decide

/-! ## The encoder byte by byte -/

theorem write_loop_cons_ok (c rt2 rt3 x : Nat) (xs : List Nat) (i : Nat) (st : midi_stream_t)
    (ff : tu_fifo_t) (hst : stream_ok st) (h : 4 ≤ tu_fifo_remaining ff) :
    write_loop c rt2 rt3 (x :: xs) i st ff =
      write_loop c rt2 rt3 xs (i + 1) (enc_step c rt2 rt3 x st).1
        ⟨ff.depth, ff.buf ++ (enc_step c rt2 rt3 x st).2⟩ := by
  simp only [write_loop, ge_iff_le, h, if_true, body_eq c rt2 rt3 x st ff hst h]

/-- A status byte of a 3-byte channel-voice message met by an idle encoder that does
not continue a SysEx. -/
theorem enc_step_voice3 (c rt2 rt3 s : Nat) (st : midi_stream_t) (h0 : st.index = 0)
    (hb : st.b0 ≠ MIDI_CIN_SYSEX_START)
    (hs : (0x80 ≤ s ∧ s ≤ 0xBF) ∨ (0xE0 ≤ s ∧ s ≤ 0xEF)) :
    enc_step c rt2 rt3 s st =
      ({ st with b0 := ((c <<< 4) ||| (s >>> 4)) % 256, b1 := s, index := 2, total := 4 }, []) := by
  have h1 : ¬ (s ≥ MIDI_STATUS_SYSREAL_TIMING_CLOCK) := by
    unfold MIDI_STATUS_SYSREAL_TIMING_CLOCK; omega
  have h2 : (s >>> 4 ≥ 0x8 ∧ s >>> 4 ≤ 0xB) ∨ s >>> 4 = 0xE := by
    rw [shr4]; omega
  unfold enc_step write_body
  rw [if_neg h1, if_pos h0]
  unfold write_new_event
  simp only [if_neg hb, if_pos h2]
  rw [send_out_skip _ _ (by simp)]

/-- A status byte of a 2-byte channel-voice message met by an idle encoder that does
not continue a SysEx. -/
theorem enc_step_voice2 (c rt2 rt3 s : Nat) (st : midi_stream_t) (h0 : st.index = 0)
    (hb : st.b0 ≠ MIDI_CIN_SYSEX_START) (hs : 0xC0 ≤ s ∧ s ≤ 0xDF) :
    enc_step c rt2 rt3 s st =
      ({ st with b0 := ((c <<< 4) ||| (s >>> 4)) % 256, b1 := s, index := 2, total := 3 }, []) := by
  have h1 : ¬ (s ≥ MIDI_STATUS_SYSREAL_TIMING_CLOCK) := by
    unfold MIDI_STATUS_SYSREAL_TIMING_CLOCK; omega
  have h2 : ¬ ((s >>> 4 ≥ 0x8 ∧ s >>> 4 ≤ 0xB) ∨ s >>> 4 = 0xE) := by
    rw [shr4]; omega
  have h3 : s >>> 4 = 0xC ∨ s >>> 4 = 0xD := by
    rw [shr4]; omega
  unfold enc_step write_body
  rw [if_neg h1, if_pos h0]
  unfold write_new_event
  simp only [if_neg hb, if_neg h2, if_pos h3]
  rw [send_out_skip _ _ (by simp)]

/-- A system status byte met by an idle encoder that does not continue a SysEx. -/
theorem enc_step_system (c rt2 rt3 s : Nat) (st : midi_stream_t) (h0 : st.index = 0)
    (hb : st.b0 ≠ MIDI_CIN_SYSEX_START) (hs : 0xF0 ≤ s ∧ s ≤ 0xF7) :
    enc_step c rt2 rt3 s st =
      if s = 0xF0 then
        ({ st with b0 := MIDI_CIN_SYSEX_START, b1 := s, index := 2, total := 4 }, [])
      else if s = 0xF1 ∨ s = 0xF3 then
        ({ st with b0 := MIDI_CIN_SYSCOM_2BYTE, b1 := s, index := 2, total := 3 }, [])
      else if s = 0xF2 then
        ({ st with b0 := MIDI_CIN_SYSCOM_3BYTE, b1 := s, index := 2, total := 4 }, [])
      else
        (⟨MIDI_CIN_SYSEX_END_1BYTE, s, 0, 0, 0, 0⟩, [MIDI_CIN_SYSEX_END_1BYTE, s, 0, 0]) := by
  have h1 : ¬ (s ≥ MIDI_STATUS_SYSREAL_TIMING_CLOCK) := by
    unfold MIDI_STATUS_SYSREAL_TIMING_CLOCK; omega
  have h2 : ¬ ((s >>> 4 ≥ 0x8 ∧ s >>> 4 ≤ 0xB) ∨ s >>> 4 = 0xE) := by
    rw [shr4]; omega
  have h3 : ¬ (s >>> 4 = 0xC ∨ s >>> 4 = 0xD) := by
    rw [shr4]; omega
  have h4 : s >>> 4 = 0xf := by
    rw [shr4]; omega
  unfold enc_step write_body
  rw [if_neg h1, if_pos h0]
  unfold write_new_event
  simp only [if_neg hb, if_neg h2, if_neg h3, if_pos h4, MIDI_STATUS_SYSEX_START,
    MIDI_STATUS_SYSCOM_TIME_CODE_QUARTER_FRAME, MIDI_STATUS_SYSCOM_SONG_SELECT,
    MIDI_STATUS_SYSCOM_SONG_POSITION_POINTER]
  split_ifs
  · rw [send_out_skip _ _ (by simp)]
  · rw [send_out_skip _ _ (by simp)]
  · rw [send_out_skip _ _ (by simp)]
  · simp [write_send_out, zero_unused, tu_fifo_write_n, tu_fifo_remaining, midi_stream_t.bytes]

/-- A byte met by an idle encoder that continues a SysEx. -/
theorem enc_step_sysex_idle (c rt2 rt3 x : Nat) (st : midi_stream_t) (h0 : st.index = 0)
    (hb : st.b0 = MIDI_CIN_SYSEX_START) (hx : x < 0xF8) :
    enc_step c rt2 rt3 x st =
      if x = 0xF7 then
        (⟨MIDI_CIN_SYSEX_END_1BYTE, x, 0, 0, 0, 0⟩, [MIDI_CIN_SYSEX_END_1BYTE, x, 0, 0])
      else ({ st with b1 := x, index := 2, total := 4 }, []) := by
  have h1 : ¬ (x ≥ MIDI_STATUS_SYSREAL_TIMING_CLOCK) := by
    unfold MIDI_STATUS_SYSREAL_TIMING_CLOCK; omega
  unfold enc_step write_body
  rw [if_neg h1, if_pos h0]
  unfold write_new_event
  simp only [if_pos hb, MIDI_STATUS_SYSEX_END]
  split_ifs
  · simp [write_send_out, zero_unused, tu_fifo_write_n, tu_fifo_remaining, midi_stream_t.bytes]
  · rw [send_out_skip _ _ (by simp)]

/-- A byte met by an encoder holding two bytes of a packet. -/
theorem enc_step_at2 (c rt2 rt3 x : Nat) (st : midi_stream_t) (h2 : st.index = 2)
    (ht : st.total = 3 ∨ st.total = 4) (hx : x < 0xF8) :
    enc_step c rt2 rt3 x st =
      if st.b0 = MIDI_CIN_SYSEX_START ∧ x = 0xF7 then
        (⟨6, st.b1, x, 0, 0, 0⟩, [6, st.b1, x, 0])
      else if st.total = 3 then
        (⟨st.b0, st.b1, x, 0, 0, 0⟩, [st.b0, st.b1, x, 0])
      else ({ st with b2 := x, index := 3 }, []) := by
  have h1 : ¬ (x ≥ MIDI_STATUS_SYSREAL_TIMING_CLOCK) := by
    unfold MIDI_STATUS_SYSREAL_TIMING_CLOCK; omega
  obtain ⟨b0, b1, b2, b3, index, total⟩ := st
  simp only at h2 ht
  subst h2
  unfold enc_step write_body
  rw [if_neg h1]
  simp only [write_ongoing, midi_stream_t.setBuffer, MIDI_STATUS_SYSEX_END, MIDI_CIN_SYSEX_START]
  rcases ht with ht | ht <;> subst ht <;> split_ifs <;>
    simp_all [write_send_out, zero_unused, tu_fifo_write_n, tu_fifo_remaining,
      midi_stream_t.bytes]

/-- A byte met by an encoder holding three bytes of a packet. -/
theorem enc_step_at3 (c rt2 rt3 x : Nat) (st : midi_stream_t) (h3 : st.index = 3)
    (ht : st.total = 4) (hx : x < 0xF8) :
    enc_step c rt2 rt3 x st =
      if st.b0 = MIDI_CIN_SYSEX_START ∧ x = 0xF7 then
        (⟨7, st.b1, st.b2, x, 0, 0⟩, [7, st.b1, st.b2, x])
      else (⟨st.b0, st.b1, st.b2, x, 0, 0⟩, [st.b0, st.b1, st.b2, x]) := by
  have h1 : ¬ (x ≥ MIDI_STATUS_SYSREAL_TIMING_CLOCK) := by
    unfold MIDI_STATUS_SYSREAL_TIMING_CLOCK; omega
  obtain ⟨b0, b1, b2, b3, index, total⟩ := st
  simp only at h3 ht
  subst h3 ht
  unfold enc_step write_body
  rw [if_neg h1]
  simp only [write_ongoing, midi_stream_t.setBuffer, MIDI_STATUS_SYSEX_END, MIDI_CIN_SYSEX_START]
  split_ifs <;>
    simp_all [write_send_out, zero_unused, tu_fifo_write_n, tu_fifo_remaining,
      midi_stream_t.bytes]

/-- A real-time byte met by an encoder that is idle or holds a packet in progress. -/
theorem enc_step_realtime (c rt2 rt3 r : Nat) (st : midi_stream_t) (hst : stream_ok st)
    (hr : 0xF8 ≤ r) :
    enc_step c rt2 rt3 r st = (st, [MIDI_CIN_SYSEX_END_1BYTE, r, rt2, rt3]) := by
  have hno : ¬ (st.index ≥ 2 ∧ st.index = st.total) := by
    unfold stream_ok at hst; omega
  have h1 : r ≥ MIDI_STATUS_SYSREAL_TIMING_CLOCK := hr
  unfold enc_step write_body
  rw [if_pos h1]
  simp only [fifo_write4 _ _ _ _ _ (by decide : 4 ≤ tu_fifo_remaining ⟨4, []⟩),
    send_out_skip _ _ hno]
  simp

/-! ## Round trip of channel-voice messages -/

theorem write_voice3 (c rt2 rt3 s d1 d2 D : Nat) (hD : 4 ≤ D)
    (hs : (0x80 ≤ s ∧ s ≤ 0xBF) ∨ (0xE0 ≤ s ∧ s ≤ 0xEF)) (hd1 : d1 ≤ 0x7F) (hd2 : d2 ≤ 0x7F) :
    write_loop c rt2 rt3 [s, d1, d2] 0 midi_stream_t.zero ⟨D, []⟩ =
      (3, ⟨((c <<< 4) ||| (s >>> 4)) % 256, s, d1, d2, 0, 0⟩,
        ⟨D, [((c <<< 4) ||| (s >>> 4)) % 256, s, d1, d2]⟩) := by
  have hrem : 4 ≤ tu_fifo_remaining ⟨D, []⟩ := by simpa [tu_fifo_remaining] using hD
  have hm : s >>> 4 < 16 := by rw [shr4]; omega
  have hne : ((c <<< 4) ||| (s >>> 4)) % 256 ≠ 4 := by
    intro h
    have h1 := header_low c (s >>> 4) hm
    rw [h, shr4] at h1
    omega
  rw [write_loop_cons_ok _ _ _ _ _ _ _ _ (by decide) hrem,
    enc_step_voice3 _ _ _ _ _ rfl (by decide) hs]
  simp only [List.append_nil]
  rw [write_loop_cons_ok _ _ _ _ _ _ _ _ (by unfold stream_ok; simp) hrem,
    enc_step_at2 _ _ _ _ _ rfl (by simp) (by omega)]
  simp only [MIDI_CIN_SYSEX_START, hne, false_and, if_false, List.append_nil]
  simp only [midi_stream_t.zero, Nat.reduceEqDiff, if_false, List.append_nil]
  rw [write_loop_cons_ok _ _ _ _ _ _ _ _ (by unfold stream_ok; simp) hrem,
    enc_step_at3 _ _ _ _ _ rfl rfl (by omega)]
  simp only [MIDI_CIN_SYSEX_START, hne, false_and, if_false, List.nil_append]
  rfl

theorem write_voice2 (c rt2 rt3 s d1 D : Nat) (hD : 4 ≤ D)
    (hs : 0xC0 ≤ s ∧ s ≤ 0xDF) (hd1 : d1 ≤ 0x7F) :
    write_loop c rt2 rt3 [s, d1] 0 midi_stream_t.zero ⟨D, []⟩ =
      (2, ⟨((c <<< 4) ||| (s >>> 4)) % 256, s, d1, 0, 0, 0⟩,
        ⟨D, [((c <<< 4) ||| (s >>> 4)) % 256, s, d1, 0]⟩) := by
  have hrem : 4 ≤ tu_fifo_remaining ⟨D, []⟩ := by simpa [tu_fifo_remaining] using hD
  have hm : s >>> 4 < 16 := by rw [shr4]; omega
  have hne : ((c <<< 4) ||| (s >>> 4)) % 256 ≠ 4 := by
    intro h
    have h1 := header_low c (s >>> 4) hm
    rw [h, shr4] at h1
    omega
  rw [write_loop_cons_ok _ _ _ _ _ _ _ _ (by decide) hrem,
    enc_step_voice2 _ _ _ _ _ rfl (by decide) hs]
  simp only [List.append_nil]
  rw [write_loop_cons_ok _ _ _ _ _ _ _ _ (by unfold stream_ok; simp) hrem,
    enc_step_at2 _ _ _ _ _ rfl (by simp) (by omega)]
  simp only [MIDI_CIN_SYSEX_START, hne, false_and, if_false, List.nil_append, if_true]
  rfl

/-- The content of a channel-voice packet of a valid cable is its status byte and the
data bytes the status calls for. -/
theorem content_voice (n h s d1 d2 sysex : Nat) (hc : cable_of h < n)
    (hs : 0x80 ≤ s ∧ s ≤ 0xEF) :
    (packet_content n (h, s, d1, d2) sysex).1 =
      if s >>> 4 = 0xC ∨ s >>> 4 = 0xD then [s, d1] else [s, d1, d2] := by
  have h1 : ¬ (s ≤ MIDI_MAX_DATA_VAL ∨ s = MIDI_STATUS_SYSEX_START) := by
    unfold MIDI_MAX_DATA_VAL MIDI_STATUS_SYSEX_START; omega
  have h2 : s < MIDI_STATUS_SYSEX_START := by unfold MIDI_STATUS_SYSEX_START; omega
  have h3 : (s &&& 0xf0) >>> 4 = s >>> 4 := by rw [status_nibble s (by omega), shr4]
  have hm := shr4 s
  unfold cable_of at hc
  unfold packet_content read_packet
  simp only [midi_stream_t.load, hc, if_true, if_neg h1, if_pos h2, h3,
    MIDI_CIN_NOTE_OFF, MIDI_CIN_NOTE_ON, MIDI_CIN_POLY_KEYPRESS, MIDI_CIN_CONTROL_CHANGE,
    MIDI_CIN_PITCH_BEND_CHANGE, MIDI_CIN_PROGRAM_CHANGE, MIDI_CIN_CHANNEL_PRESSURE]
  by_cases h4 : s >>> 4 = 0xC ∨ s >>> 4 = 0xD
  · have h5 : ¬ (s >>> 4 = 8 ∨ s >>> 4 = 9 ∨ s >>> 4 = 10 ∨ s >>> 4 = 11 ∨ s >>> 4 = 14) := by
      omega
    simp [h4, h5]
  · have h5 : s >>> 4 = 8 ∨ s >>> 4 = 9 ∨ s >>> 4 = 10 ∨ s >>> 4 = 11 ∨ s >>> 4 = 14 := by
      omega
    simp [h4, h5]

/-- A message that the encoder turns into the single packet `pk`, read back. -/
theorem round_trip_of_packet (p : midih_interface_t) (c rt2 rt3 sysex bufsize a : Nat)
    (msg : List Nat) (st : midi_stream_t) (pk : packet)
    (hw : tuh_midi_stream_write p c rt2 rt3 msg
      = (msg.length, { p with stream_write := st,
                              tx_ff := ⟨p.tx_ff.depth, [pk.1, pk.2.1, pk.2.2.1, pk.2.2.2]⟩ }))
    (ha : cable_of pk.1 = a)
    (hcont : (packet_content p.num_cables_rx pk sysex).1 = msg) (hcap : 0 < bufsize) :
    (tuh_midi_stream_write p c rt2 rt3 msg).1 = msg.length ∧
    (tuh_midi_stream_write p c rt2 rt3 msg).2.tx_ff.buf.length = 4 ∧
    (tuh_midi_stream_read (loopback (tuh_midi_stream_write p c rt2 rt3 msg).2)
      sysex bufsize).p_cable_num = some a ∧
    (tuh_midi_stream_read (loopback (tuh_midi_stream_write p c rt2 rt3 msg).2)
      sysex bufsize).p_buffer = msg ∧
    (tuh_midi_stream_read (loopback (tuh_midi_stream_write p c rt2 rt3 msg).2)
      sysex bufsize).ret = msg.length := by
  have hr := read_run (loopback (tuh_midi_stream_write p c rt2 rt3 msg).2) sysex bufsize a
    pk [] [] (by rw [hw]; rfl) (by simp)
    (by intro q hq; simp only [List.mem_singleton] at hq; subst hq; exact ha)
    (by simpa using hcap)
  have hn : (loopback (tuh_midi_stream_write p c rt2 rt3 msg).2).num_cables_rx
      = p.num_cables_rx := by
    rw [hw]; rfl
  rw [hn] at hr
  simp only [packets_content, List.append_nil, hcont] at hr
  exact ⟨by rw [hw], by rw [hw]; rfl, hr.1, hr.2.1, hr.2.2.1⟩

/-- C1 (as amended). For every cable `c < 16` below both cable counts of the session,
every status byte `s` in 0x80..0xEF and data bytes `d1, d2 ≤ 0x7F`, starting from a fresh
encode state and an empty outgoing queue, `tuh_midi_stream_write` on cable `c` of the
channel-voice message (`[s, d1]` when the high nibble of `s` is 0xC or 0xD, `[s, d1, d2]`
otherwise) takes every byte and queues exactly one 4-byte packet; with that packet in
the incoming queue, `tuh_midi_stream_read` with capacity at least 3 reports cable `c`
and stores and counts exactly the bytes written. -/
theorem channel_voice_round_trip (p : midih_interface_t)
    (c s d1 d2 rt2 rt3 sysex bufsize : Nat)
    (hfresh : p.stream_write = midi_stream_t.zero) (hempty : p.tx_ff.buf = [])
    (hdepth : 4 ≤ p.tx_ff.depth)
    (hct : c < p.num_cables_tx) (hcr : c < p.num_cables_rx) (hc16 : c < 16)
    (hs : 0x80 ≤ s ∧ s ≤ 0xEF) (hd1 : d1 ≤ 0x7F) (hd2 : d2 ≤ 0x7F) (hcap : 3 ≤ bufsize) :
    (tuh_midi_stream_write p c rt2 rt3 (channel_voice_message s d1 d2)).1
      = (channel_voice_message s d1 d2).length ∧
    (tuh_midi_stream_write p c rt2 rt3 (channel_voice_message s d1 d2)).2.tx_ff.buf.length = 4 ∧
    (tuh_midi_stream_read
      (loopback (tuh_midi_stream_write p c rt2 rt3 (channel_voice_message s d1 d2)).2)
      sysex bufsize).p_cable_num = some c ∧
    (tuh_midi_stream_read
      (loopback (tuh_midi_stream_write p c rt2 rt3 (channel_voice_message s d1 d2)).2)
      sysex bufsize).p_buffer = channel_voice_message s d1 d2 ∧
    (tuh_midi_stream_read
      (loopback (tuh_midi_stream_write p c rt2 rt3 (channel_voice_message s d1 d2)).2)
      sysex bufsize).ret = (channel_voice_message s d1 d2).length := by
  have hff : p.tx_ff = ⟨p.tx_ff.depth, []⟩ := by rw [← hempty]
  have hm : s >>> 4 < 16 := by rw [shr4]; omega
  have hcab : cable_of (((c <<< 4) ||| (s >>> 4)) % 256) = c := header_cable c _ hc16 hm
  by_cases h2 : s >>> 4 = 0xC ∨ s >>> 4 = 0xD
  · have hs2 : 0xC0 ≤ s ∧ s ≤ 0xDF := by rw [shr4] at h2; omega
    have hmsg : channel_voice_message s d1 d2 = [s, d1] := by
      unfold channel_voice_message; rw [if_pos h2]
    rw [hmsg]
    refine round_trip_of_packet p c rt2 rt3 sysex bufsize c [s, d1]
      ⟨((c <<< 4) ||| (s >>> 4)) % 256, s, d1, 0, 0, 0⟩
      (((c <<< 4) ||| (s >>> 4)) % 256, s, d1, 0) ?_ hcab ?_ (by omega)
    · unfold tuh_midi_stream_write
      rw [if_pos hct, hfresh, hff, write_voice2 c rt2 rt3 s d1 _ hdepth hs2 hd1]
      rfl
    · rw [content_voice _ _ _ _ _ _ (by rw [hcab]; exact hcr) hs, if_pos h2]
  · have hs3 : (0x80 ≤ s ∧ s ≤ 0xBF) ∨ (0xE0 ≤ s ∧ s ≤ 0xEF) := by rw [shr4] at h2; omega
    have hmsg : channel_voice_message s d1 d2 = [s, d1, d2] := by
      unfold channel_voice_message; rw [if_neg h2]
    rw [hmsg]
    refine round_trip_of_packet p c rt2 rt3 sysex bufsize c [s, d1, d2]
      ⟨((c <<< 4) ||| (s >>> 4)) % 256, s, d1, d2, 0, 0⟩
      (((c <<< 4) ||| (s >>> 4)) % 256, s, d1, d2) ?_ hcab ?_ (by omega)
    · unfold tuh_midi_stream_write
      rw [if_pos hct, hfresh, hff, write_voice3 c rt2 rt3 s d1 d2 _ hdepth hs3 hd1 hd2]
      rfl
    · rw [content_voice _ _ _ _ _ _ (by rw [hcab]; exact hcr) hs, if_neg h2]

theorem channel_voice_round_trip_witness :
    (tuh_midi_stream_write (session_cables 2 2) 1 0 0 (channel_voice_message 0x90 0x40 0x7F)).1
      = (channel_voice_message 0x90 0x40 0x7F).length ∧
    (tuh_midi_stream_write (session_cables 2 2) 1 0 0
      (channel_voice_message 0x90 0x40 0x7F)).2.tx_ff.buf.length = 4 ∧
    (tuh_midi_stream_read
      (loopback (tuh_midi_stream_write (session_cables 2 2) 1 0 0
        (channel_voice_message 0x90 0x40 0x7F)).2) 0 3).p_cable_num = some 1 ∧
    (tuh_midi_stream_read
      (loopback (tuh_midi_stream_write (session_cables 2 2) 1 0 0
        (channel_voice_message 0x90 0x40 0x7F)).2) 0 3).p_buffer
      = channel_voice_message 0x90 0x40 0x7F ∧
    (tuh_midi_stream_read
      (loopback (tuh_midi_stream_write (session_cables 2 2) 1 0 0
        (channel_voice_message 0x90 0x40 0x7F)).2) 0 3).ret
      = (channel_voice_message 0x90 0x40 0x7F).length :=
  channel_voice_round_trip (session_cables 2 2) 1 0x90 0x40 0x7F 0 0 0 3 rfl rfl (by decide)
    (by decide) (by decide) (by decide) (by decide) (by decide) (by decide) (by decide)

/-- C1 (counterexample to the claim as stated). `midih_open` accepts a descriptor block
whose endpoints declare 17 embedded jacks and builds a session with 17 cables in each
direction, so cable 16 is below both cable counts. The note-on message `90 40 7F`
written on cable 16 from the fresh encode state is taken whole, but its packet is
`09 90 40 7F`, whose cable nibble is 0, and `tuh_midi_stream_read` reports cable 0 and
not cable 16. -/
theorem channel_voice_cable_16 :
    midih_open (mem_of block_17_jacks) (fun _ => true) 10 midih_init 1 block_17_jacks.length
      = some (true, session_17_cables) ∧
    16 < session_17_cables.num_cables_tx ∧ 16 < session_17_cables.num_cables_rx ∧
    tuh_midi_stream_write session_17_cables 16 0 0 (channel_voice_message 0x90 0x40 0x7F)
      = (3, { session_17_cables with stream_write := ⟨0x09, 0x90, 0x40, 0x7F, 0, 0⟩,
                                     tx_ff := ⟨64, [0x09, 0x90, 0x40, 0x7F]⟩ }) ∧
    (tuh_midi_stream_read
      (loopback (tuh_midi_stream_write session_17_cables 16 0 0
        (channel_voice_message 0x90 0x40 0x7F)).2) 0 3).p_cable_num = some 0 ∧
    ¬ (tuh_midi_stream_read
      (loopback (tuh_midi_stream_write session_17_cables 16 0 0
        (channel_voice_message 0x90 0x40 0x7F)).2) 0 3).p_cable_num = some 16 := by
  decide

/-! ## Round trip of system messages -/

/-- The content of a system-common or real-time packet of a valid cable. -/
theorem content_system (n h s d1 d2 sysex : Nat) (hc : cable_of h < n) (hs : 0xF1 ≤ s) :
    (packet_content n (h, s, d1, d2) sysex).1 =
      if s = 0xF1 ∨ s = 0xF3 then [s, d1]
      else if s = 0xF2 then [s, d1, d2]
      else if s = 0xF6 ∨ s = 0xF7 then [s]
      else if s < 0xF8 then []
      else [s] := by
  have h1 : ¬ (s ≤ MIDI_MAX_DATA_VAL ∨ s = MIDI_STATUS_SYSEX_START) := by
    unfold MIDI_MAX_DATA_VAL MIDI_STATUS_SYSEX_START; omega
  have h2 : ¬ s < MIDI_STATUS_SYSEX_START := by unfold MIDI_STATUS_SYSEX_START; omega
  unfold cable_of at hc
  unfold packet_content read_packet
  simp only [midi_stream_t.load, hc, if_true, if_neg h1, if_neg h2,
    MIDI_STATUS_SYSREAL_TIMING_CLOCK, MIDI_STATUS_SYSCOM_TIME_CODE_QUARTER_FRAME,
    MIDI_STATUS_SYSCOM_SONG_SELECT, MIDI_STATUS_SYSCOM_SONG_POSITION_POINTER,
    MIDI_STATUS_SYSCOM_TUNE_REQUEST, MIDI_STATUS_SYSEX_END]
  split_ifs <;> simp <;> omega

theorem write_system2 (c rt2 rt3 s d D : Nat) (hD : 4 ≤ D) (hs : s = 0xF1 ∨ s = 0xF3)
    (hd : d ≤ 0x7F) :
    write_loop c rt2 rt3 [s, d] 0 midi_stream_t.zero ⟨D, []⟩ =
      (2, ⟨MIDI_CIN_SYSCOM_2BYTE, s, d, 0, 0, 0⟩, ⟨D, [MIDI_CIN_SYSCOM_2BYTE, s, d, 0]⟩) := by
  have hrem : 4 ≤ tu_fifo_remaining ⟨D, []⟩ := by simpa [tu_fifo_remaining] using hD
  have h0 : s ≠ 0xF0 := by omega
  rw [write_loop_cons_ok _ _ _ _ _ _ _ _ (by decide) hrem,
    enc_step_system _ _ _ _ _ rfl (by decide) (by omega)]
  simp only [if_neg h0, if_pos hs, List.append_nil]
  rw [write_loop_cons_ok _ _ _ _ _ _ _ _ (by unfold stream_ok; simp) hrem,
    enc_step_at2 _ _ _ _ _ rfl (by simp) (by omega)]
  simp only [MIDI_CIN_SYSEX_START, MIDI_CIN_SYSCOM_2BYTE, Nat.reduceEqDiff, false_and, if_false,
    if_true, List.nil_append]
  rfl

theorem write_system3 (c rt2 rt3 d1 d2 D : Nat) (hD : 4 ≤ D) (hd1 : d1 ≤ 0x7F)
    (hd2 : d2 ≤ 0x7F) :
    write_loop c rt2 rt3 [0xF2, d1, d2] 0 midi_stream_t.zero ⟨D, []⟩ =
      (3, ⟨MIDI_CIN_SYSCOM_3BYTE, 0xF2, d1, d2, 0, 0⟩,
        ⟨D, [MIDI_CIN_SYSCOM_3BYTE, 0xF2, d1, d2]⟩) := by
  have hrem : 4 ≤ tu_fifo_remaining ⟨D, []⟩ := by simpa [tu_fifo_remaining] using hD
  rw [write_loop_cons_ok _ _ _ _ _ _ _ _ (by decide) hrem,
    enc_step_system _ _ _ _ _ rfl (by decide) (by omega)]
  simp only [Nat.reduceEqDiff, if_false, if_true, false_or, List.append_nil]
  rw [write_loop_cons_ok _ _ _ _ _ _ _ _ (by unfold stream_ok; simp) hrem,
    enc_step_at2 _ _ _ _ _ rfl (by simp) (by omega)]
  simp only [MIDI_CIN_SYSEX_START, MIDI_CIN_SYSCOM_3BYTE, Nat.reduceEqDiff, false_and, if_false,
    List.append_nil]
  rw [write_loop_cons_ok _ _ _ _ _ _ _ _ (by unfold stream_ok; simp) hrem,
    enc_step_at3 _ _ _ _ _ rfl rfl (by omega)]
  simp only [Nat.reduceEqDiff, false_and, if_false, List.nil_append]
  rfl

theorem write_tune_request (c rt2 rt3 D : Nat) (hD : 4 ≤ D) :
    write_loop c rt2 rt3 [0xF6] 0 midi_stream_t.zero ⟨D, []⟩ =
      (1, ⟨MIDI_CIN_SYSEX_END_1BYTE, 0xF6, 0, 0, 0, 0⟩,
        ⟨D, [MIDI_CIN_SYSEX_END_1BYTE, 0xF6, 0, 0]⟩) := by
  have hrem : 4 ≤ tu_fifo_remaining ⟨D, []⟩ := by simpa [tu_fifo_remaining] using hD
  rw [write_loop_cons_ok _ _ _ _ _ _ _ _ (by decide) hrem,
    enc_step_system _ _ _ _ _ rfl (by decide) (by omega)]
  simp only [Nat.reduceEqDiff, if_false, false_or, List.nil_append]
  rfl

theorem write_realtime (c rt2 rt3 r D : Nat) (hD : 4 ≤ D) (hr : 0xF8 ≤ r) :
    write_loop c rt2 rt3 [r] 0 midi_stream_t.zero ⟨D, []⟩ =
      (1, midi_stream_t.zero, ⟨D, [MIDI_CIN_SYSEX_END_1BYTE, r, rt2, rt3]⟩) := by
  have hrem : 4 ≤ tu_fifo_remaining ⟨D, []⟩ := by simpa [tu_fifo_remaining] using hD
  rw [write_loop_cons_ok _ _ _ _ _ _ _ _ (by decide) hrem,
    enc_step_realtime _ _ _ _ _ (by decide) hr]
  rfl

/-- C8 (system-message round trip). For every cable `c` below both cable counts, each of
the messages `[0xF1, d]`, `[0xF3, d]`, `[0xF2, d1, d2]` (data bytes at most 0x7F),
`[0xF6]` and each single real-time byte `r ≥ 0xF8`, written with
`tuh_midi_stream_write` on cable `c` from a fresh encode state and an empty outgoing
queue, is taken whole and queued as exactly one packet, and `tuh_midi_stream_read` of
that packet with capacity at least 3 stores and counts exactly the original bytes. -/
theorem system_round_trip (p : midih_interface_t) (c rt2 rt3 sysex bufsize : Nat)
    (msg : List Nat)
    (hfresh : p.stream_write = midi_stream_t.zero) (hempty : p.tx_ff.buf = [])
    (hdepth : 4 ≤ p.tx_ff.depth)
    (hct : c < p.num_cables_tx) (hcr : c < p.num_cables_rx)
    (hmsg : system_message msg) (hcap : 3 ≤ bufsize) :
    (tuh_midi_stream_write p c rt2 rt3 msg).1 = msg.length ∧
    (tuh_midi_stream_write p c rt2 rt3 msg).2.tx_ff.buf.length = 4 ∧
    (tuh_midi_stream_read (loopback (tuh_midi_stream_write p c rt2 rt3 msg).2)
      sysex bufsize).p_buffer = msg ∧
    (tuh_midi_stream_read (loopback (tuh_midi_stream_write p c rt2 rt3 msg).2)
      sysex bufsize).ret = msg.length := by
  have hff : p.tx_ff = ⟨p.tx_ff.depth, []⟩ := by rw [← hempty]
  have h0 : 0 < p.num_cables_rx := by omega
  have hc2 : cable_of MIDI_CIN_SYSCOM_2BYTE = 0 := by decide
  have hc3 : cable_of MIDI_CIN_SYSCOM_3BYTE = 0 := by decide
  have hc5 : cable_of MIDI_CIN_SYSEX_END_1BYTE = 0 := by decide
  have fin : ∀ (st : midi_stream_t) (pk : packet),
      tuh_midi_stream_write p c rt2 rt3 msg
        = (msg.length, { p with stream_write := st,
                                tx_ff := ⟨p.tx_ff.depth, [pk.1, pk.2.1, pk.2.2.1, pk.2.2.2]⟩ }) →
      cable_of pk.1 = 0 → (packet_content p.num_cables_rx pk sysex).1 = msg →
      (tuh_midi_stream_write p c rt2 rt3 msg).1 = msg.length ∧
      (tuh_midi_stream_write p c rt2 rt3 msg).2.tx_ff.buf.length = 4 ∧
      (tuh_midi_stream_read (loopback (tuh_midi_stream_write p c rt2 rt3 msg).2)
        sysex bufsize).p_buffer = msg ∧
      (tuh_midi_stream_read (loopback (tuh_midi_stream_write p c rt2 rt3 msg).2)
        sysex bufsize).ret = msg.length := by
    intro st pk hw ha hcont
    have := round_trip_of_packet p c rt2 rt3 sysex bufsize 0 msg st pk hw ha hcont (by omega)
    exact ⟨this.1, this.2.1, this.2.2.2.1, this.2.2.2.2⟩
  rcases hmsg with ⟨d, hd, rfl⟩ | ⟨d, hd, rfl⟩ | ⟨d1, d2, hd1, hd2, rfl⟩ | rfl | ⟨r, hr, rfl⟩
  · refine fin ⟨MIDI_CIN_SYSCOM_2BYTE, 0xF1, d, 0, 0, 0⟩ (MIDI_CIN_SYSCOM_2BYTE, 0xF1, d, 0)
      ?_ hc2 ?_
    · unfold tuh_midi_stream_write
      rw [if_pos hct, hfresh, hff, write_system2 c rt2 rt3 0xF1 d _ hdepth (by simp) hd]
      rfl
    · rw [content_system _ _ _ _ _ _ (by rw [hc2]; exact h0) (by omega)]
      simp
  · refine fin ⟨MIDI_CIN_SYSCOM_2BYTE, 0xF3, d, 0, 0, 0⟩ (MIDI_CIN_SYSCOM_2BYTE, 0xF3, d, 0)
      ?_ hc2 ?_
    · unfold tuh_midi_stream_write
      rw [if_pos hct, hfresh, hff, write_system2 c rt2 rt3 0xF3 d _ hdepth (by simp) hd]
      rfl
    · rw [content_system _ _ _ _ _ _ (by rw [hc2]; exact h0) (by omega)]
      simp
  · refine fin ⟨MIDI_CIN_SYSCOM_3BYTE, 0xF2, d1, d2, 0, 0⟩
      (MIDI_CIN_SYSCOM_3BYTE, 0xF2, d1, d2) ?_ hc3 ?_
    · unfold tuh_midi_stream_write
      rw [if_pos hct, hfresh, hff, write_system3 c rt2 rt3 d1 d2 _ hdepth hd1 hd2]
      rfl
    · rw [content_system _ _ _ _ _ _ (by rw [hc3]; exact h0) (by omega)]
      simp
  · refine fin ⟨MIDI_CIN_SYSEX_END_1BYTE, 0xF6, 0, 0, 0, 0⟩
      (MIDI_CIN_SYSEX_END_1BYTE, 0xF6, 0, 0) ?_ hc5 ?_
    · unfold tuh_midi_stream_write
      rw [if_pos hct, hfresh, hff, write_tune_request c rt2 rt3 _ hdepth]
      rfl
    · rw [content_system _ _ _ _ _ _ (by rw [hc5]; exact h0) (by omega)]
      simp
  · refine fin midi_stream_t.zero (MIDI_CIN_SYSEX_END_1BYTE, r, rt2, rt3) ?_ hc5 ?_
    · unfold tuh_midi_stream_write
      rw [if_pos hct, hfresh, hff, write_realtime c rt2 rt3 r _ hdepth hr]
      rfl
    · rw [content_system _ _ _ _ _ _ (by rw [hc5]; exact h0) (by omega)]
      have h1 : ¬ (r = 0xF1 ∨ r = 0xF3) := by omega
      have h2 : ¬ (r = 0xF2) := by omega
      have h3 : ¬ (r = 0xF6 ∨ r = 0xF7) := by omega
      have h4 : ¬ (r < 0xF8) := by omega
      rw [if_neg h1, if_neg h2, if_neg h3, if_neg h4]

theorem system_round_trip_witness :
    (tuh_midi_stream_write (session_cables 2 2) 1 0xAA 0xBB [0xF8]).1 = [0xF8].length ∧
    (tuh_midi_stream_write (session_cables 2 2) 1 0xAA 0xBB [0xF8]).2.tx_ff.buf.length = 4 ∧
    (tuh_midi_stream_read (loopback (tuh_midi_stream_write (session_cables 2 2) 1 0xAA 0xBB
      [0xF8]).2) 0 3).p_buffer = [0xF8] ∧
    (tuh_midi_stream_read (loopback (tuh_midi_stream_write (session_cables 2 2) 1 0xAA 0xBB
      [0xF8]).2) 0 3).ret = [0xF8].length :=
  system_round_trip (session_cables 2 2) 1 0xAA 0xBB 0 3 [0xF8] rfl rfl (by decide)
    (by decide) (by decide) (Or.inr (Or.inr (Or.inr (Or.inr ⟨0xF8, by decide, rfl⟩))))
    (by decide)

/-! ## Real-time bytes inside a message -/

theorem header_ne_sysex (c s : Nat) (hs : 0x80 ≤ s ∧ s ≤ 0xEF) :
    ((c <<< 4) ||| (s >>> 4)) % 256 ≠ 4 := by
  have hm : s >>> 4 < 16 := by rw [shr4]; omega
  intro h
  have h1 := header_low c (s >>> 4) hm
  rw [h, shr4] at h1
  omega

theorem write_voice3_idle (c rt2 rt3 s d1 d2 i : Nat) (st : midi_stream_t) (ff : tu_fifo_t)
    (hidle : st.index = 0 ∧ st.total = 0 ∧ st.b0 ≠ MIDI_CIN_SYSEX_START)
    (hrem : 4 ≤ tu_fifo_remaining ff)
    (hs : (0x80 ≤ s ∧ s ≤ 0xBF) ∨ (0xE0 ≤ s ∧ s ≤ 0xEF)) (hd1 : d1 ≤ 0x7F) (hd2 : d2 ≤ 0x7F) :
    write_loop c rt2 rt3 [s, d1, d2] i st ff =
      (i + 3, ⟨((c <<< 4) ||| (s >>> 4)) % 256, s, d1, d2, 0, 0⟩,
        ⟨ff.depth, ff.buf ++ [((c <<< 4) ||| (s >>> 4)) % 256, s, d1, d2]⟩) := by
  have hne := header_ne_sysex c s (by omega)
  have hrem' : 4 ≤ tu_fifo_remaining ⟨ff.depth, ff.buf⟩ := hrem
  obtain ⟨b0, b1, b2, b3, index, total⟩ := st
  obtain ⟨h0, ht, hb⟩ := hidle
  simp only at h0 ht hb
  subst h0 ht
  rw [write_loop_cons_ok _ _ _ _ _ _ _ _ (by unfold stream_ok; simp) hrem,
    enc_step_voice3 _ _ _ _ _ rfl hb hs]
  simp only [List.append_nil]
  rw [write_loop_cons_ok _ _ _ _ _ _ _ _ (by unfold stream_ok; simp) hrem',
    enc_step_at2 _ _ _ _ _ rfl (by simp) (by omega)]
  simp only [MIDI_CIN_SYSEX_START, hne, false_and, if_false, List.append_nil]
  simp only [Nat.reduceEqDiff, if_false, List.append_nil]
  rw [write_loop_cons_ok _ _ _ _ _ _ _ _ (by unfold stream_ok; simp) hrem',
    enc_step_at3 _ _ _ _ _ rfl rfl (by omega)]
  simp only [MIDI_CIN_SYSEX_START, hne, false_and, if_false]
  rfl

theorem write_voice3_realtime (c rt2 rt3 s r d1 d2 i : Nat) (st : midi_stream_t)
    (ff : tu_fifo_t)
    (hidle : st.index = 0 ∧ st.total = 0 ∧ st.b0 ≠ MIDI_CIN_SYSEX_START)
    (hrem : 8 ≤ tu_fifo_remaining ff) (hr : 0xF8 ≤ r)
    (hs : (0x80 ≤ s ∧ s ≤ 0xBF) ∨ (0xE0 ≤ s ∧ s ≤ 0xEF)) (hd1 : d1 ≤ 0x7F) (hd2 : d2 ≤ 0x7F) :
    write_loop c rt2 rt3 [s, r, d1, d2] i st ff =
      (i + 4, ⟨((c <<< 4) ||| (s >>> 4)) % 256, s, d1, d2, 0, 0⟩,
        ⟨ff.depth, ff.buf ++ ([MIDI_CIN_SYSEX_END_1BYTE, r, rt2, rt3] ++
          [((c <<< 4) ||| (s >>> 4)) % 256, s, d1, d2])⟩) := by
  have hne := header_ne_sysex c s (by omega)
  have hrem1 : 4 ≤ tu_fifo_remaining ff := by omega
  have hrem2 : 4 ≤ tu_fifo_remaining ⟨ff.depth, ff.buf⟩ := hrem1
  have hrem3 : 4 ≤ tu_fifo_remaining
      ⟨ff.depth, ff.buf ++ [MIDI_CIN_SYSEX_END_1BYTE, r, rt2, rt3]⟩ := by
    unfold tu_fifo_remaining at hrem ⊢
    simp only [List.length_append, List.length_cons, List.length_nil]
    omega
  obtain ⟨b0, b1, b2, b3, index, total⟩ := st
  obtain ⟨h0, ht, hb⟩ := hidle
  simp only at h0 ht hb
  subst h0 ht
  rw [write_loop_cons_ok _ _ _ _ _ _ _ _ (by unfold stream_ok; simp) hrem1,
    enc_step_voice3 _ _ _ _ _ rfl hb hs]
  simp only [List.append_nil]
  rw [write_loop_cons_ok _ _ _ _ _ _ _ _ (by unfold stream_ok; simp) hrem2,
    enc_step_realtime _ _ _ _ _ (by unfold stream_ok; simp) hr]
  simp only []
  rw [write_loop_cons_ok _ _ _ _ _ _ _ _ (by unfold stream_ok; simp) hrem3,
    enc_step_at2 _ _ _ _ _ rfl (by simp) (by omega)]
  simp only [MIDI_CIN_SYSEX_START, hne, false_and, if_false, List.append_nil]
  simp only [Nat.reduceEqDiff, if_false, List.append_nil]
  rw [write_loop_cons_ok _ _ _ _ _ _ _ _ (by unfold stream_ok; simp)
      (by simpa [MIDI_CIN_SYSEX_END_1BYTE] using hrem3),
    enc_step_at3 _ _ _ _ _ rfl rfl (by omega)]
  simp only [MIDI_CIN_SYSEX_START, hne, false_and, if_false, List.append_assoc]
  rfl

/-- C9 (real-time transparency of the encoder). (1) For every session `p` whose encode
state holds a packet in progress (fill index 2 or 3, below the expected total) and
every real-time byte `r ≥ 0xF8`, with at least 4 bytes free in the outgoing queue,
writing `r` returns 1, appends exactly the one packet `05 r ..` carrying `r` and leaves
everything else, the encode state included, unchanged. (2) For every session `q` whose
encoder is idle and does not continue a SysEx, with 8 bytes free, and every 3-byte
channel-voice message `[s, d1, d2]`: writing `[s, r, d1, d2]` queues the real-time
packet first and then exactly the packet `pkt` that writing `[s, d1, d2]` queues, and
ends in the same encode state. -/
theorem write_realtime_transparent (p q : midih_interface_t) (c rt2 rt3 r s d1 d2 : Nat)
    (hc : c < p.num_cables_tx)
    (hprog : (p.stream_write.index = 2 ∨ p.stream_write.index = 3)
      ∧ p.stream_write.index < p.stream_write.total)
    (hr : 0xF8 ≤ r) (hroom : 4 ≤ tu_fifo_remaining p.tx_ff)
    (hcq : c < q.num_cables_tx)
    (hidle : q.stream_write.index = 0 ∧ q.stream_write.total = 0
      ∧ q.stream_write.b0 ≠ MIDI_CIN_SYSEX_START)
    (hroomq : 8 ≤ tu_fifo_remaining q.tx_ff)
    (hs : (0x80 ≤ s ∧ s ≤ 0xBF) ∨ (0xE0 ≤ s ∧ s ≤ 0xEF)) (hd1 : d1 ≤ 0x7F) (hd2 : d2 ≤ 0x7F) :
    tuh_midi_stream_write p c rt2 rt3 [r]
      = (1, { p with tx_ff := ⟨p.tx_ff.depth,
                p.tx_ff.buf ++ [MIDI_CIN_SYSEX_END_1BYTE, r, rt2, rt3]⟩ }) ∧
    ∃ (pkt : List Nat) (st : midi_stream_t), pkt.length = 4 ∧
      tuh_midi_stream_write q c rt2 rt3 [s, d1, d2]
        = (3, { q with stream_write := st, tx_ff := ⟨q.tx_ff.depth, q.tx_ff.buf ++ pkt⟩ }) ∧
      tuh_midi_stream_write q c rt2 rt3 [s, r, d1, d2]
        = (4, { q with stream_write := st,
                       tx_ff := ⟨q.tx_ff.depth,
                         q.tx_ff.buf ++ ([MIDI_CIN_SYSEX_END_1BYTE, r, rt2, rt3] ++ pkt)⟩ }) := by
  constructor
  · have hno : ¬ (p.stream_write.index ≥ 2 ∧ p.stream_write.index = p.stream_write.total) := by
      omega
    have h1 : r ≥ MIDI_STATUS_SYSREAL_TIMING_CLOCK := hr
    unfold tuh_midi_stream_write
    simp only [if_pos hc, write_loop, ge_iff_le, hroom, if_true, write_body, if_pos h1,
      fifo_write4 _ _ _ _ _ hroom, send_out_skip _ _ hno]
  · refine ⟨[((c <<< 4) ||| (s >>> 4)) % 256, s, d1, d2],
      ⟨((c <<< 4) ||| (s >>> 4)) % 256, s, d1, d2, 0, 0⟩, rfl, ?_, ?_⟩
    · unfold tuh_midi_stream_write
      rw [if_pos hcq, write_voice3_idle c rt2 rt3 s d1 d2 0 _ _ hidle (by omega) hs hd1 hd2]
    · unfold tuh_midi_stream_write
      rw [if_pos hcq,
        write_voice3_realtime c rt2 rt3 s r d1 d2 0 _ _ hidle hroomq hr hs hd1 hd2]

theorem write_realtime_transparent_witness :
    tuh_midi_stream_write
        { session_tx 1 with stream_write := ⟨0x09, 0x90, 0, 0, 2, 4⟩ } 0 0 0 [0xF8]
      = (1, { session_tx 1 with stream_write := ⟨0x09, 0x90, 0, 0, 2, 4⟩,
                                tx_ff := ⟨64, [0x05, 0xF8, 0, 0]⟩ }) ∧
    ∃ (pkt : List Nat) (st : midi_stream_t), pkt.length = 4 ∧
      tuh_midi_stream_write (session_tx 1) 0 0 0 [0x90, 0x40, 0x7F]
        = (3, { session_tx 1 with stream_write := st,
                                  tx_ff := ⟨(session_tx 1).tx_ff.depth,
                                    (session_tx 1).tx_ff.buf ++ pkt⟩ }) ∧
      tuh_midi_stream_write (session_tx 1) 0 0 0 [0x90, 0xF8, 0x40, 0x7F]
        = (4, { session_tx 1 with stream_write := st,
                                  tx_ff := ⟨(session_tx 1).tx_ff.depth,
                                    (session_tx 1).tx_ff.buf
                                      ++ ([MIDI_CIN_SYSEX_END_1BYTE, 0xF8, 0, 0] ++ pkt)⟩ }) :=
  write_realtime_transparent { session_tx 1 with stream_write := ⟨0x09, 0x90, 0, 0, 2, 4⟩ }
    (session_tx 1) 0 0 0 0xF8 0x90 0x40 0x7F (by decide) (by decide) (by decide) (by decide)
    (by decide) (by decide) (by decide) (by decide) (by decide) (by decide)

/-! ## SysEx messages -/

theorem sx_at2 (c rt2 rt3 x a b2 b3 : Nat) (hx : x ≤ 0x7F) :
    enc_step c rt2 rt3 x ⟨4, a, b2, b3, 2, 4⟩ = (⟨4, a, x, b3, 3, 4⟩, []) := by
  have hne : ¬ x = 0xF7 := by omega
  rw [enc_step_at2 c rt2 rt3 x ⟨4, a, b2, b3, 2, 4⟩ rfl (Or.inr rfl) (by omega)]
  simp only [hne, and_false, if_false, Nat.reduceEqDiff]

theorem sx_at2_end (c rt2 rt3 a b2 b3 : Nat) :
    enc_step c rt2 rt3 0xF7 ⟨4, a, b2, b3, 2, 4⟩ = (⟨6, a, 0xF7, 0, 0, 0⟩, [6, a, 0xF7, 0]) := by
  rw [enc_step_at2 c rt2 rt3 0xF7 ⟨4, a, b2, b3, 2, 4⟩ rfl (Or.inr rfl) (by omega)]
  simp only [MIDI_CIN_SYSEX_START, and_self, if_true]

theorem sx_at3 (c rt2 rt3 x a b b3 : Nat) (hx : x ≤ 0x7F) :
    enc_step c rt2 rt3 x ⟨4, a, b, b3, 3, 4⟩ = (⟨4, a, b, x, 0, 0⟩, [4, a, b, x]) := by
  have hne : ¬ x = 0xF7 := by omega
  rw [enc_step_at3 c rt2 rt3 x ⟨4, a, b, b3, 3, 4⟩ rfl rfl (by omega)]
  simp only [hne, and_false, if_false]

theorem sx_at3_end (c rt2 rt3 a b b3 : Nat) :
    enc_step c rt2 rt3 0xF7 ⟨4, a, b, b3, 3, 4⟩ = (⟨7, a, b, 0xF7, 0, 0⟩, [7, a, b, 0xF7]) := by
  rw [enc_step_at3 c rt2 rt3 0xF7 ⟨4, a, b, b3, 3, 4⟩ rfl rfl (by omega)]
  simp only [MIDI_CIN_SYSEX_START, and_self, if_true]

theorem sx_idle (c rt2 rt3 x b1 b2 b3 : Nat) (hx : x ≤ 0x7F) :
    enc_step c rt2 rt3 x ⟨4, b1, b2, b3, 0, 0⟩ = (⟨4, x, b2, b3, 2, 4⟩, []) := by
  have hne : ¬ x = 0xF7 := by omega
  rw [enc_step_sysex_idle c rt2 rt3 x ⟨4, b1, b2, b3, 0, 0⟩ rfl rfl (by omega)]
  simp only [hne, if_false]

theorem sx_idle_end (c rt2 rt3 b1 b2 b3 : Nat) :
    enc_step c rt2 rt3 0xF7 ⟨4, b1, b2, b3, 0, 0⟩
      = (⟨5, 0xF7, 0, 0, 0, 0⟩, [5, 0xF7, 0, 0]) := by
  rw [enc_step_sysex_idle c rt2 rt3 0xF7 ⟨4, b1, b2, b3, 0, 0⟩ rfl rfl (by omega)]
  simp only [MIDI_CIN_SYSEX_END_1BYTE, if_true]

/-- From an encoder that holds the first two bytes of a SysEx packet, the data bytes
`ds` and the closing 0xF7 are queued as the packets of the wire format. -/
theorem enc_sysex_from2 (c rt2 rt3 : Nat) :
    ∀ (ds : List Nat), (∀ d ∈ ds, d ≤ 0x7F) → ∀ a b2 b3 : Nat,
      (enc c rt2 rt3 ⟨4, a, b2, b3, 2, 4⟩ (ds ++ [0xF7])).2
        = packets_bytes (sysex_packets (a :: ds)) ∧
      stream_ok (enc c rt2 rt3 ⟨4, a, b2, b3, 2, 4⟩ (ds ++ [0xF7])).1
  | [], _, a, b2, b3 => by
    simp only [List.nil_append, enc, sx_at2_end, List.append_nil, sysex_packets, packets_bytes]
    exact ⟨trivial, by unfold stream_ok; simp⟩
  | [b], h, a, b2, b3 => by
    have hb1 : b ≤ 0x7F := h b (by simp)
    simp only [List.cons_append, List.nil_append, enc, sx_at2 c rt2 rt3 b a b2 b3 hb1,
      sx_at3_end, List.append_nil, sysex_packets, packets_bytes]
    exact ⟨trivial, by unfold stream_ok; simp⟩
  | [b, b'], h, a, b2, b3 => by
    have hb1 : b ≤ 0x7F := h b (by simp)
    have hb2 : b' ≤ 0x7F := h b' (by simp)
    simp only [List.cons_append, List.nil_append, enc, sx_at2 c rt2 rt3 b a b2 b3 hb1,
      sx_at3 c rt2 rt3 b' a b b3 hb2, sx_idle_end, List.append_nil, sysex_packets,
      packets_bytes]
    exact ⟨trivial, by unfold stream_ok; simp⟩
  | b :: b' :: d :: ds, h, a, b2, b3 => by
    have hb1 : b ≤ 0x7F := h b (by simp)
    have hb2 : b' ≤ 0x7F := h b' (by simp)
    have hd : d ≤ 0x7F := h d (by simp)
    have ih := enc_sysex_from2 c rt2 rt3 ds (fun x hx => h x (by simp [hx])) d b b'
    simp only [List.cons_append, enc, sx_at2 c rt2 rt3 b a b2 b3 hb1,
      sx_at3 c rt2 rt3 b' a b b3 hb2, sx_idle c rt2 rt3 d a b b' hd, List.nil_append,
      sysex_packets, packets_bytes, List.append_eq]
    exact ⟨by rw [ih.1], ih.2⟩

/-- A whole SysEx message met by an idle encoder that does not continue a SysEx. -/
theorem enc_sysex (c rt2 rt3 : Nat) (ds : List Nat) (hds : ∀ d ∈ ds, d ≤ 0x7F)
    (st : midi_stream_t) (h0 : st.index = 0) (hb : st.b0 ≠ MIDI_CIN_SYSEX_START) :
    (enc c rt2 rt3 st (0xF0 :: ds ++ [0xF7])).2 = packets_bytes (sysex_packets (0xF0 :: ds)) := by
  have ih := enc_sysex_from2 c rt2 rt3 ds hds 0xF0 st.b2 st.b3
  simp only [List.cons_append, enc, enc_step_system c rt2 rt3 0xF0 st h0 hb (by omega),
    if_true, List.nil_append]
  exact ih.1

theorem or_one_and_one (s : Nat) : (s ||| 1) &&& 1 ≠ 0 := by
  rw [Nat.and_one_is_mod]
  have h : (s ||| 1).testBit 0 = true := by simp
  rw [Nat.testBit_zero] at h
  intro h0
  rw [h0] at h
  simp at h

/-- The SysEx bit of cable 0 after a packet whose status is SysEx start or, with the
bit set, a data byte. -/
theorem sysex_bit_set (a sysex : Nat) (ha : a = 0xF0 ∨ (a ≤ 0x7F ∧ sysex &&& 1 ≠ 0)) :
    (if a = 0xF0 then sysex ||| 1 else sysex) &&& 1 ≠ 0 := by
  rcases ha with ha | ha
  · rw [if_pos ha]; exact or_one_and_one sysex
  · rw [if_neg (by omega)]; exact ha.2

/-- The content of a SysEx start or continue packet (code index 4) with three bytes. -/
theorem content_sysex3 (n a x y sysex : Nat) (h0 : 0 < n)
    (ha : a = 0xF0 ∨ (a ≤ 0x7F ∧ sysex &&& 1 ≠ 0)) (hx : x ≤ 0x7F) (hy : y ≤ 0x7F) :
    (packet_content n (4, a, x, y) sysex).1 = [a, x, y] ∧
    (packet_content n (4, a, x, y) sysex).2 &&& 1 ≠ 0 := by
  have h1 : a ≤ 0x7F ∨ a = 0xF0 := by omega
  have hbit := sysex_bit_set a sysex ha
  have hc : ((4 : Nat) >>> 4) &&& 0x0f = 0 := by decide
  unfold packet_content read_packet
  simp only [midi_stream_t.load, hc, h0, if_true, if_pos h1, Nat.shiftLeft_zero,
    Nat.one_mod_eq_one.mpr (by decide : (65536 : Nat) ≠ 1), hbit, ne_eq, not_false_eq_true,
    sysex_scan_step, MIDI_MAX_DATA_VAL, MIDI_STATUS_SYSEX_START, hx, hy, Bool.false_eq_true,
    if_false]
  exact ⟨rfl, trivial⟩

/-- The content of a SysEx end packet with two bytes (code index 6). -/
theorem content_sysex_end2 (n a sysex : Nat) (h0 : 0 < n)
    (ha : a = 0xF0 ∨ (a ≤ 0x7F ∧ sysex &&& 1 ≠ 0)) :
    (packet_content n (6, a, 0xF7, 0) sysex).1 = [a, 0xF7] := by
  have h1 : a ≤ 0x7F ∨ a = 0xF0 := by omega
  have hbit := sysex_bit_set a sysex ha
  have hc : ((6 : Nat) >>> 4) &&& 0x0f = 0 := by decide
  unfold packet_content read_packet
  simp only [midi_stream_t.load, hc, h0, if_true, if_pos h1, Nat.shiftLeft_zero,
    Nat.one_mod_eq_one.mpr (by decide : (65536 : Nat) ≠ 1), hbit, ne_eq, not_false_eq_true,
    sysex_scan_step, MIDI_MAX_DATA_VAL, MIDI_STATUS_SYSEX_START, MIDI_STATUS_SYSEX_END,
    Bool.false_eq_true, if_false]
  rfl

/-- The content of a SysEx end packet with three bytes (code index 7). -/
theorem content_sysex_end3 (n a x sysex : Nat) (h0 : 0 < n)
    (ha : a = 0xF0 ∨ (a ≤ 0x7F ∧ sysex &&& 1 ≠ 0)) (hx : x ≤ 0x7F) :
    (packet_content n (7, a, x, 0xF7) sysex).1 = [a, x, 0xF7] := by
  have h1 : a ≤ 0x7F ∨ a = 0xF0 := by omega
  have hbit := sysex_bit_set a sysex ha
  have hc : ((7 : Nat) >>> 4) &&& 0x0f = 0 := by decide
  unfold packet_content read_packet
  simp only [midi_stream_t.load, hc, h0, if_true, if_pos h1, Nat.shiftLeft_zero,
    Nat.one_mod_eq_one.mpr (by decide : (65536 : Nat) ≠ 1), hbit, ne_eq, not_false_eq_true,
    sysex_scan_step, MIDI_MAX_DATA_VAL, MIDI_STATUS_SYSEX_START, MIDI_STATUS_SYSEX_END, hx,
    Bool.false_eq_true, if_false]
  rfl

/-- The packets of a SysEx message decode to the message. -/
theorem content_sysex (n : Nat) (h0 : 0 < n) :
    ∀ (ds : List Nat), (∀ d ∈ ds, d ≤ 0x7F) → ∀ a sysex : Nat,
      (a = 0xF0 ∨ (a ≤ 0x7F ∧ sysex &&& 1 ≠ 0)) →
      (packets_content n (sysex_packets (a :: ds)) sysex).1 = a :: ds ++ [0xF7]
  | [], _, a, sysex, ha => by
    simp only [sysex_packets, packets_content, content_sysex_end2 n a sysex h0 ha]
    rfl
  | [b], h, a, sysex, ha => by
    simp only [sysex_packets, packets_content,
      content_sysex_end3 n a b sysex h0 ha (h b (by simp))]
    rfl
  | [b, b'], h, a, sysex, ha => by
    have h5 : cable_of 5 < n := by
      rw [show cable_of 5 = 0 from by decide]; exact h0
    simp only [sysex_packets, packets_content,
      (content_sysex3 n a b b' sysex h0 ha (h b (by simp)) (h b' (by simp))).1,
      content_system n 5 0xF7 0 0 _ h5 (by omega)]
    rfl
  | b :: b' :: d :: ds, h, a, sysex, ha => by
    have hp := content_sysex3 n a b b' sysex h0 ha (h b (by simp)) (h b' (by simp))
    have ih := content_sysex n h0 ds (fun x hx => h x (by simp [hx])) d
      (packet_content n (4, a, b, b') sysex).2 (Or.inr ⟨h d (by simp), hp.2⟩)
    simp only [sysex_packets, packets_content, hp.1, ih]
    rfl

theorem sysex_packets_cable : ∀ (xs : List Nat), ∀ q ∈ sysex_packets xs, cable_of q.1 = 0
  | [], q, hq => by
    simp only [sysex_packets, List.mem_singleton] at hq
    subst hq; decide
  | [_], q, hq => by
    simp only [sysex_packets, List.mem_singleton] at hq
    subst hq; show cable_of 6 = 0; decide
  | [_, _], q, hq => by
    simp only [sysex_packets, List.mem_singleton] at hq
    subst hq; show cable_of 7 = 0; decide
  | _ :: _ :: _ :: xs, q, hq => by
    simp only [sysex_packets, List.mem_cons] at hq
    rcases hq with hq | hq
    · subst hq; show cable_of 4 = 0; decide
    · exact sysex_packets_cable xs q hq

theorem packets_bytes_inj : ∀ (xs ys : List packet), packets_bytes xs = packets_bytes ys → xs = ys
  | [], [], _ => rfl
  | [], _ :: _, h => by simp [packets_bytes] at h
  | _ :: _, [], h => by simp [packets_bytes] at h
  | x :: xs, y :: ys, h => by
    simp only [packets_bytes, List.cons.injEq] at h
    obtain ⟨h1, h2, h3, h4, h5⟩ := h
    rw [packets_bytes_inj xs ys h5]
    congr 1
    exact Prod.ext h1 (Prod.ext h2 (Prod.ext h3 h4))

theorem packets_content_append (n : Nat) (xs ys : List packet) :
    ∀ sysex, packets_content n (xs ++ ys) sysex =
      ((packets_content n xs sysex).1 ++ (packets_content n ys (packets_content n xs sysex).2).1,
        (packets_content n ys (packets_content n xs sysex).2).2) := by
  induction xs with
  | nil => intro sysex; simp [packets_content]
  | cons x xs ih =>
    intro sysex
    rw [List.cons_append]
    simp only [packets_content]
    rw [ih]
    simp only [List.append_assoc]

theorem read_num_cables_rx (p : midih_interface_t) (sysex bufsize : Nat) :
    (tuh_midi_stream_read p sysex bufsize).midi.num_cables_rx = p.num_cables_rx := by
  unfold tuh_midi_stream_read
  split_ifs
  · rfl
  · split
    · rfl
    · simp only []
      split_ifs <;> rfl

/-- Successive reads of batches of packets of one cable store the content of all the
packets, in order. -/
theorem read_batches_content (bufsize a : Nat) :
    ∀ (batches : List (List packet)) (p : midih_interface_t) (sysex : Nat),
      (∀ q ∈ batches.flatten, cable_of q.1 = a) → (∀ b ∈ batches, 3 * b.length ≤ bufsize) →
      read_batches bufsize p sysex batches
        = packets_content p.num_cables_rx batches.flatten sysex
  | [], p, sysex, _, _ => by simp [read_batches, packets_content]
  | [] :: rest, p, sysex, ha, hcap => by
    have ih := read_batches_content bufsize a rest
    have hr : tuh_midi_stream_read { p with rx_ff := { p.rx_ff with buf := packets_bytes [] } }
        sysex bufsize
        = ⟨0, none, [], { p with rx_ff := { p.rx_ff with buf := [] } }, sysex⟩ := by
      unfold tuh_midi_stream_read
      split_ifs
      · rfl
      · rfl
    simp only [read_batches, hr, List.flatten_cons, List.nil_append]
    exact ih _ sysex (fun q hq => ha q (by simpa using hq))
      (fun b hb => hcap b (by simp [hb]))
  | (pk :: pks) :: rest, p, sysex, ha, hcap => by
    have ih := read_batches_content bufsize a rest
    have hc := hcap (pk :: pks) (by simp)
    simp only [List.length_cons] at hc
    have hr := read_run { p with rx_ff := { p.rx_ff with buf := packets_bytes (pk :: pks) } }
      sysex bufsize a pk pks [] (by simp) (by simp)
      (fun q hq => ha q (by
        simp only [List.flatten_cons, List.mem_append]
        exact Or.inl hq))
      (by omega)
    have hn := read_num_cables_rx
      { p with rx_ff := { p.rx_ff with buf := packets_bytes (pk :: pks) } } sysex bufsize
    simp only [read_batches, List.flatten_cons]
    rw [ih _ _ (fun q hq => ha q (by
        simp only [List.flatten_cons, List.mem_append]
        exact Or.inr hq))
      (fun b hb => hcap b (by simp [hb])), packets_content_append, hn, hr.2.1, hr.2.2.2.2]

/-- When every call takes its whole chunk, the bytes that have left the queue followed
by the bytes still queued are the queue at the start followed by the bytes `enc`
gives for the chunks put together. -/
theorem write_chunks_enc (c rt2 rt3 : Nat) :
    ∀ (calls : List (Nat × List Nat)) (p : midih_interface_t),
      stream_ok p.stream_write → c < p.num_cables_tx →
      (write_chunks c rt2 rt3 p calls).1 = calls.map (fun x => x.2.length) →
      (write_chunks c rt2 rt3 p calls).2.1 ++ (write_chunks c rt2 rt3 p calls).2.2.tx_ff.buf
        = p.tx_ff.buf ++ (enc c rt2 rt3 p.stream_write (calls.map Prod.snd).flatten).2 ∧
      (write_chunks c rt2 rt3 p calls).2.2.num_cables_rx = p.num_cables_rx
  | [], p, _, _, _ => by simp [write_chunks, enc]
  | (d, chunk) :: rest, p, hok, hc, hall => by
    obtain ⟨k, hk, he⟩ := write_loop_prefix c rt2 rt3 chunk 0 p.stream_write
      ⟨p.tx_ff.depth, p.tx_ff.buf.drop d⟩ hok
    have hw : tuh_midi_stream_write (drain d p) c rt2 rt3 chunk
        = (k, { p with stream_write := (enc c rt2 rt3 p.stream_write (chunk.take k)).1,
                       tx_ff := ⟨p.tx_ff.depth, p.tx_ff.buf.drop d ++
                         (enc c rt2 rt3 p.stream_write (chunk.take k)).2⟩ }) := by
      unfold tuh_midi_stream_write
      simp only [drain, tu_fifo_read_n, if_pos hc, he, Nat.zero_add]
    simp only [write_chunks, hw, List.map_cons, List.cons.injEq] at hall ⊢
    obtain ⟨hk', hrest⟩ := hall
    subst hk'
    rw [List.take_length] at hrest ⊢
    have ih := write_chunks_enc c rt2 rt3 rest
      { p with stream_write := (enc c rt2 rt3 p.stream_write chunk).1,
               tx_ff := ⟨p.tx_ff.depth, p.tx_ff.buf.drop d ++
                 (enc c rt2 rt3 p.stream_write chunk).2⟩ }
      (enc_ok c rt2 rt3 chunk p.stream_write hok) hc hrest
    simp only [List.flatten_cons, tu_fifo_read_n, List.append_assoc, ih.1, ih.2, and_true]
    rw [enc_append]
    simp only [← List.append_assoc, List.take_append_drop]

/-- With room in the outgoing queue for one packet per input byte, every call takes its
whole chunk, whatever the cut and whatever leaves the queue between the calls. -/
theorem write_chunks_room (c rt2 rt3 : Nat) :
    ∀ (calls : List (Nat × List Nat)) (p : midih_interface_t),
      stream_ok p.stream_write → c < p.num_cables_tx →
      p.tx_ff.buf.length + 4 * (calls.map Prod.snd).flatten.length ≤ p.tx_ff.depth →
      (write_chunks c rt2 rt3 p calls).1 = calls.map (fun x => x.2.length)
  | [], p, _, _, _ => by simp [write_chunks]
  | (d, chunk) :: rest, p, hok, hc, hroom => by
    simp only [List.map_cons, List.flatten_cons, List.length_append] at hroom
    have hl := enc_length c rt2 rt3 chunk p.stream_write hok
    have hw : tuh_midi_stream_write (drain d p) c rt2 rt3 chunk
        = (chunk.length,
            { p with
              stream_write := (enc c rt2 rt3 p.stream_write chunk).1
              tx_ff := ⟨p.tx_ff.depth, p.tx_ff.buf.drop d ++
                (enc c rt2 rt3 p.stream_write chunk).2⟩ }) := by
      unfold tuh_midi_stream_write
      simp only [drain, tu_fifo_read_n, if_pos hc]
      rw [write_loop_room c rt2 rt3 chunk 0 p.stream_write ⟨p.tx_ff.depth, p.tx_ff.buf.drop d⟩
        hok (by simp only [List.length_drop]; omega)]
      simp
    have ih := write_chunks_room c rt2 rt3 rest
      { p with stream_write := (enc c rt2 rt3 p.stream_write chunk).1,
               tx_ff := ⟨p.tx_ff.depth, p.tx_ff.buf.drop d ++
                 (enc c rt2 rt3 p.stream_write chunk).2⟩ }
      (enc_ok c rt2 rt3 chunk p.stream_write hok) hc
      (by simp only [List.length_append, List.length_drop]; omega)
    simp only [write_chunks, hw, List.map_cons, ih]

/-- C2 (SysEx fragmentation round trip). For every SysEx message
`m = 0xF0 :: ds ++ [0xF7]` with data bytes at most 0x7F and every way of cutting `m`
into consecutive chunks passed to successive `tuh_midi_stream_write` calls on one cable
`c` of the session (fresh encode state, empty outgoing queue, any number of bytes
leaving the queue before each call), if the queue is drained so that every call takes
its whole chunk, then the packets queued, fed in order and in any batches to
`tuh_midi_stream_read` with capacity for three bytes per packet of a batch, decode to
exactly the byte sequence `m`. -/
theorem sysex_round_trip (p : midih_interface_t) (c rt2 rt3 sysex bufsize : Nat)
    (ds : List Nat) (calls : List (Nat × List Nat)) (batches : List (List packet))
    (hfresh : p.stream_write = midi_stream_t.zero) (hempty : p.tx_ff.buf = [])
    (hct : c < p.num_cables_tx) (hcr : c < p.num_cables_rx)
    (hds : ∀ d ∈ ds, d ≤ 0x7F)
    (hcut : (calls.map Prod.snd).flatten = 0xF0 :: ds ++ [0xF7])
    (hdrained : (write_chunks c rt2 rt3 p calls).1 = calls.map (fun x => x.2.length))
    (hfed : packets_bytes batches.flatten
      = (write_chunks c rt2 rt3 p calls).2.1 ++ (write_chunks c rt2 rt3 p calls).2.2.tx_ff.buf)
    (hcap : ∀ b ∈ batches, 3 * b.length ≤ bufsize) :
    (read_batches bufsize (write_chunks c rt2 rt3 p calls).2.2 sysex batches).1
      = 0xF0 :: ds ++ [0xF7] := by
  have hok : stream_ok p.stream_write := by rw [hfresh]; decide
  have hw := write_chunks_enc c rt2 rt3 calls p hok hct hdrained
  rw [hw.1, hempty, List.nil_append, hcut, hfresh,
    enc_sysex c rt2 rt3 ds hds midi_stream_t.zero rfl (by decide)] at hfed
  have hb := packets_bytes_inj _ _ hfed
  rw [read_batches_content bufsize 0 batches _ sysex
    (by rw [hb]; exact sysex_packets_cable _) hcap, hb, hw.2]
  exact content_sysex p.num_cables_rx (by omega) ds hds 0xF0 sysex (Or.inl rfl)

theorem sysex_round_trip_witness :
    (read_batches 3
      (write_chunks 0 0 0 (session_cables 1 1)
        [(0, [0xF0, 1]), (4, [2, 3, 4, 5]), (0, [6, 0xF7])]).2.2 0
      [[(4, 0xF0, 1, 2)], [(4, 3, 4, 5)], [(6, 6, 0xF7, 0)]]).1
      = 0xF0 :: [1, 2, 3, 4, 5, 6] ++ [0xF7] :=
  sysex_round_trip (session_cables 1 1) 0 0 0 0 3 [1, 2, 3, 4, 5, 6]
    [(0, [0xF0, 1]), (4, [2, 3, 4, 5]), (0, [6, 0xF7])]
    [[(4, 0xF0, 1, 2)], [(4, 3, 4, 5)], [(6, 6, 0xF7, 0)]]
    rfl rfl (by decide) (by decide) (by decide) (by decide) (by decide) (by decide) (by decide)

/-! ## The descriptor walk on a well-formed block -/

theorem agrees_left (mem : Nat → Nat) (off : Nat) (a b : List Nat)
    (h : agrees mem off (a ++ b)) : agrees mem off a := by
  intro i hi
  rw [h i (by simp only [List.length_append]; omega), List.getD_append _ _ _ _ hi]

theorem agrees_right (mem : Nat → Nat) (off : Nat) (a b : List Nat)
    (h : agrees mem off (a ++ b)) : agrees mem (off + a.length) b := by
  intro i hi
  rw [Nat.add_assoc, h (a.length + i) (by simp only [List.length_append]; omega),
    List.getD_append_right _ _ _ _ (by omega)]
  congr 1
  omega

theorem clamp_eq_min (w : Nat) : (if w > 64 then 64 else w) = min w 64 := by
  split_ifs <;> omega

theorem step_cs_interface (mem : Nat → Nat) (midi : midih_interface_t)
    (off lp prev : Nat) (ind outd : Option Nat) (d : List Nat)
    (hm : agrees mem off d) (hd : (desc_item.cs_interface d).walk_ok) :
    open_step mem ⟨midi, off, lp, prev, ind, outd⟩
      = (true, ⟨midi, off + d.length, (lp + d.length) % 65536, prev, ind, outd⟩) := by
  obtain ⟨⟨h0, hl, h1⟩, h2⟩ := hd
  have m0 : mem off = d.length := by
    have := hm 0 (by omega); rw [Nat.add_zero] at this; rw [this, h0]
  have m1 : mem (off + 1) = 0x24 := by rw [hm 1 (by omega), h1]
  have m2 : mem (off + 2) = d.getD 2 0 := hm 2 (by omega)
  unfold open_step
  simp only [bDescriptorType, bDescriptorSubType, bLength, tu_desc_next, m0, m1, m2,
    TUSB_DESC_CS_INTERFACE, MIDI_CS_INTERFACE_HEADER, MIDI_CS_INTERFACE_IN_JACK,
    MIDI_CS_INTERFACE_OUT_JACK, MIDI_CS_INTERFACE_ELEMENT, true_or, not_true_eq_false,
    if_false, if_true, h2]

theorem step_endpoint_out (mem : Nat → Nat) (midi : midih_interface_t)
    (off lp prev : Nat) (ind outd : Option Nat) (ep : List Nat)
    (hm : agrees mem off ep) (hd : is_endpoint ep) (hdir : ¬ ep_is_in ep)
    (h0 : midi.ep_out = 0) (ht : midi.num_cables_tx = 0) :
    open_step mem ⟨midi, off, lp, prev, ind, outd⟩
      = (true, ⟨{ midi with ep_out := ep.getD 2 0
                            ep_out_max := min (ep.getD 4 0 + 256 * ep.getD 5 0) 64 },
          off + ep.length, (lp + ep.length) % 65536, ep.getD 2 0, ind, some off⟩) := by
  obtain ⟨⟨hl0, hl, h1⟩, h2⟩ := hd
  have m0 : mem off = ep.length := by
    have := hm 0 (by omega); rw [Nat.add_zero] at this; rw [this, hl0]
  have m1 : mem (off + 1) = 0x05 := by rw [hm 1 (by omega), h1]
  have m2 : mem (off + 2) = ep.getD 2 0 := hm 2 (by omega)
  have m4 : mem (off + 4) = ep.getD 4 0 := hm 4 (by omega)
  have m5 : mem (off + 5) = ep.getD 5 0 := hm 5 (by omega)
  have hdir' : tu_edpt_dir (ep.getD 2 0) = TUSB_DIR_OUT := by
    unfold tu_edpt_dir ep_is_in at *; rw [if_neg hdir]
  unfold open_step
  simp only [bDescriptorType, bDescriptorSubType, bLength, tu_desc_next, bEndpointAddress,
    wMaxPacketSize, m0, m1, m2, m4, m5, hdir', h0, ht,
    TUSB_DESC_CS_INTERFACE, TUSB_DESC_CS_ENDPOINT, TUSB_DESC_ENDPOINT,
    CFG_TUH_MIDI_TX_BUFSIZE, clamp_eq_min, Nat.reduceEqDiff, false_and, false_or, or_true,
    not_true_eq_false, ne_eq, if_false, if_true]

theorem step_endpoint_in (mem : Nat → Nat) (midi : midih_interface_t)
    (off lp prev : Nat) (ind outd : Option Nat) (ep : List Nat)
    (hm : agrees mem off ep) (hd : is_endpoint ep) (hdir : ep_is_in ep)
    (h0 : midi.ep_in = 0) (ht : midi.num_cables_rx = 0) :
    open_step mem ⟨midi, off, lp, prev, ind, outd⟩
      = (true, ⟨{ midi with ep_in := ep.getD 2 0
                            ep_in_max := min (ep.getD 4 0 + 256 * ep.getD 5 0) 64 },
          off + ep.length, (lp + ep.length) % 65536, ep.getD 2 0, some off, outd⟩) := by
  obtain ⟨⟨hl0, hl, h1⟩, h2⟩ := hd
  have m0 : mem off = ep.length := by
    have := hm 0 (by omega); rw [Nat.add_zero] at this; rw [this, hl0]
  have m1 : mem (off + 1) = 0x05 := by rw [hm 1 (by omega), h1]
  have m2 : mem (off + 2) = ep.getD 2 0 := hm 2 (by omega)
  have m4 : mem (off + 4) = ep.getD 4 0 := hm 4 (by omega)
  have m5 : mem (off + 5) = ep.getD 5 0 := hm 5 (by omega)
  have hdir' : ¬ tu_edpt_dir (ep.getD 2 0) = TUSB_DIR_OUT := by
    unfold tu_edpt_dir ep_is_in at *; rw [if_pos hdir]; decide
  unfold open_step
  simp only [bDescriptorType, bDescriptorSubType, bLength, tu_desc_next, bEndpointAddress,
    wMaxPacketSize, m0, m1, m2, m4, m5, hdir', h0, ht,
    TUSB_DESC_CS_INTERFACE, TUSB_DESC_CS_ENDPOINT, TUSB_DESC_ENDPOINT,
    CFG_TUH_MIDI_RX_BUFSIZE, clamp_eq_min, Nat.reduceEqDiff, false_and, false_or, or_true,
    not_true_eq_false, ne_eq, if_false, if_true]

theorem step_cs_endpoint_out (mem : Nat → Nat) (midi : midih_interface_t)
    (off lp prev : Nat) (ind outd : Option Nat) (cs : List Nat)
    (hm : agrees mem off cs) (hd : is_cs_endpoint cs) (hp : prev ≠ 0)
    (hdir : prev &&& 0x80 = 0) (h0 : midi.ep_out = prev) (ht : midi.num_cables_tx = 0) :
    open_step mem ⟨midi, off, lp, prev, ind, outd⟩
      = (true, ⟨{ midi with num_cables_tx := cs.getD 3 0 },
          off + cs.length, (lp + cs.length) % 65536, 0, ind, outd⟩) := by
  obtain ⟨⟨hl0, hl, h1⟩, h2⟩ := hd
  have m0 : mem off = cs.length := by
    have := hm 0 (by omega); rw [Nat.add_zero] at this; rw [this, hl0]
  have m1 : mem (off + 1) = 0x25 := by rw [hm 1 (by omega), h1]
  have m2 : mem (off + 2) = 1 := by rw [hm 2 (by omega), h2]
  have m3 : mem (off + 3) = cs.getD 3 0 := hm 3 (by omega)
  have hdir' : tu_edpt_dir prev = TUSB_DIR_OUT := by
    unfold tu_edpt_dir; rw [hdir]; rfl
  unfold open_step
  simp only [bDescriptorType, bDescriptorSubType, bLength, tu_desc_next, bNumEmbMIDIJack,
    m0, m1, m2, m3, hdir', h0, ht, hp,
    TUSB_DESC_CS_INTERFACE, TUSB_DESC_CS_ENDPOINT, TUSB_DESC_ENDPOINT,
    MIDI_MS_ENDPOINT_GENERAL, Nat.reduceEqDiff, and_self, true_or, or_true, false_or,
    not_true_eq_false, ne_eq, if_false, if_true]

theorem step_cs_endpoint_in (mem : Nat → Nat) (midi : midih_interface_t)
    (off lp prev : Nat) (ind outd : Option Nat) (cs : List Nat)
    (hm : agrees mem off cs) (hd : is_cs_endpoint cs)
    (hdir : prev &&& 0x80 ≠ 0) (h0 : midi.ep_in = prev) (ht : midi.num_cables_rx = 0) :
    open_step mem ⟨midi, off, lp, prev, ind, outd⟩
      = (true, ⟨{ midi with num_cables_rx := cs.getD 3 0 },
          off + cs.length, (lp + cs.length) % 65536, 0, ind, outd⟩) := by
  obtain ⟨⟨hl0, hl, h1⟩, h2⟩ := hd
  have hp : prev ≠ 0 := by
    intro h; rw [h] at hdir; exact hdir (by decide)
  have m0 : mem off = cs.length := by
    have := hm 0 (by omega); rw [Nat.add_zero] at this; rw [this, hl0]
  have m1 : mem (off + 1) = 0x25 := by rw [hm 1 (by omega), h1]
  have m2 : mem (off + 2) = 1 := by rw [hm 2 (by omega), h2]
  have m3 : mem (off + 3) = cs.getD 3 0 := hm 3 (by omega)
  have hdir' : ¬ tu_edpt_dir prev = TUSB_DIR_OUT := by
    unfold tu_edpt_dir; rw [if_pos hdir]; decide
  unfold open_step
  simp only [bDescriptorType, bDescriptorSubType, bLength, tu_desc_next, bNumEmbMIDIJack,
    m0, m1, m2, m3, hdir', h0, ht, hp,
    TUSB_DESC_CS_INTERFACE, TUSB_DESC_CS_ENDPOINT, TUSB_DESC_ENDPOINT,
    MIDI_MS_ENDPOINT_GENERAL, Nat.reduceEqDiff, and_self, true_or, or_true, false_or,
    not_true_eq_false, ne_eq, if_false, if_true]

theorem open_loop_succ (mem : Nat → Nat) (max_len fuel : Nat) (s s' : open_state)
    (hlt : s.len_parsed < max_len) (hstep : open_step mem s = (true, s')) :
    open_loop mem max_len (fuel + 1) s = open_loop mem max_len fuel s' := by
  simp only [open_loop, hlt, if_true, hstep]

theorem open_loop_done (mem : Nat → Nat) (max_len fuel : Nat) (s : open_state)
    (hge : ¬ s.len_parsed < max_len) : open_loop mem max_len fuel s = some (true, s) := by
  cases fuel <;> simp only [open_loop, hge, if_false]

/-- The descriptor walk over a run of accepted elements that ends at `max_len`, with at
most one endpoint pair per direction and nothing recorded yet for the directions that
occur: the walk ends with success and has recorded each element. -/
theorem open_loop_items (mem : Nat → Nat) (max_len : Nat) (hmax : max_len < 65536) :
    ∀ (items : List desc_item) (fuel : Nat) (midi : midih_interface_t) (off : Nat)
      (ind outd : Option Nat),
      (∀ it ∈ items, it.walk_ok) → agrees mem off (items_bytes items) →
      off + (items_bytes items).length = max_len →
      count_in items ≤ 1 → count_out items ≤ 1 →
      (1 ≤ count_in items → midi.ep_in = 0 ∧ midi.num_cables_rx = 0) →
      (1 ≤ count_out items → midi.ep_out = 0 ∧ midi.num_cables_tx = 0) →
      2 * items.length ≤ fuel →
      ∃ ind' outd', open_loop mem max_len fuel ⟨midi, off, off, 0, ind, outd⟩
        = some (true, ⟨items.foldl record_item midi, max_len, max_len, 0, ind', outd'⟩)
  | [], fuel, midi, off, ind, outd, _, _, hlen, _, _, _, _, _ => by
    simp only [items_bytes, List.length_nil, Nat.add_zero] at hlen
    subst hlen
    exact ⟨ind, outd, open_loop_done mem off fuel _ (by simp)⟩
  | desc_item.cs_interface d :: rest, fuel, midi, off, ind, outd, hok, hm, hlen, hci, hco,
      hin, hout, hfuel => by
    have hd := hok (desc_item.cs_interface d) (by simp)
    simp only [items_bytes, desc_item.bytes, List.length_append] at hm hlen
    simp only [List.length_cons] at hfuel
    have hdl : 3 ≤ d.length := hd.1.2.1
    obtain ⟨f, rfl⟩ : ∃ f, fuel = f + 1 := ⟨fuel - 1, by omega⟩
    rw [open_loop_succ mem max_len f _ _ (by simp only; omega)
      (step_cs_interface mem midi off off 0 ind outd d (agrees_left _ _ _ _ hm) hd),
      Nat.mod_eq_of_lt (by omega)]
    exact open_loop_items mem max_len hmax rest f midi (off + d.length) ind outd
      (fun it h => hok it (by simp [h])) (agrees_right _ _ _ _ hm) (by omega)
      hci hco hin hout (by omega)
  | desc_item.endpoint ep cs :: rest, fuel, midi, off, ind, outd, hok, hm, hlen, hci, hco,
      hin, hout, hfuel => by
    have hd := hok (desc_item.endpoint ep cs) (by simp)
    simp only [items_bytes, desc_item.bytes, List.length_append, List.append_assoc] at hm hlen
    simp only [List.length_cons] at hfuel
    have hel : 7 ≤ ep.length := hd.1.1.2.1
    have hcl : 4 ≤ cs.length := hd.2.1.2.1
    have hmcs := agrees_left _ _ _ _ (agrees_right _ _ _ _ hm)
    have hmrest := agrees_right _ _ _ _ (agrees_right _ _ _ _ hm)
    obtain ⟨f, rfl⟩ : ∃ f, fuel = f + 2 := ⟨fuel - 2, by omega⟩
    simp only [count_in, count_out] at hci hco hin hout
    by_cases hdir : ep_is_in ep
    · simp only [if_pos hdir] at hci hco hin hout
      have h0 := hin (by omega)
      rw [open_loop_succ mem max_len (f + 1) _ _ (by simp only; omega)
        (step_endpoint_in mem midi off off 0 ind outd ep (agrees_left _ _ _ _ hm) hd.1 hdir
          h0.1 h0.2),
        Nat.mod_eq_of_lt (by omega),
        open_loop_succ mem max_len f _ _ (by simp only; omega)
          (step_cs_endpoint_in mem
            { midi with ep_in := ep.getD 2 0
                        ep_in_max := min (ep.getD 4 0 + 256 * ep.getD 5 0) 64 }
            (off + ep.length) (off + ep.length) (ep.getD 2 0)
            (some off) outd cs hmcs hd.2 hdir rfl h0.2),
        Nat.mod_eq_of_lt (by omega)]
      have ih := open_loop_items mem max_len hmax rest f
        (record_item midi (desc_item.endpoint ep cs)) (off + ep.length + cs.length)
        (some off) outd (fun it h => hok it (by simp [h])) hmrest (by omega)
        (by omega) (by omega) (fun h => by omega)
        (fun h => by
          have := hout (by omega)
          simp only [record_item, if_pos hdir]
          exact this)
        (by omega)
      simp only [record_item, if_pos hdir] at ih
      simp only [List.foldl_cons, record_item, if_pos hdir]
      exact ih
    · simp only [if_neg hdir] at hci hco hin hout
      have h0 := hout (by omega)
      have hz : ep.getD 2 0 &&& 0x80 = 0 := by
        unfold ep_is_in at hdir
        exact Decidable.not_not.mp hdir
      rw [open_loop_succ mem max_len (f + 1) _ _ (by simp only; omega)
        (step_endpoint_out mem midi off off 0 ind outd ep (agrees_left _ _ _ _ hm) hd.1 hdir
          h0.1 h0.2),
        Nat.mod_eq_of_lt (by omega),
        open_loop_succ mem max_len f _ _ (by simp only; omega)
          (step_cs_endpoint_out mem
            { midi with ep_out := ep.getD 2 0
                        ep_out_max := min (ep.getD 4 0 + 256 * ep.getD 5 0) 64 }
            (off + ep.length) (off + ep.length) (ep.getD 2 0)
            ind (some off) cs hmcs hd.2 hd.1.2 hz rfl h0.2),
        Nat.mod_eq_of_lt (by omega)]
      have ih := open_loop_items mem max_len hmax rest f
        (record_item midi (desc_item.endpoint ep cs)) (off + ep.length + cs.length)
        ind (some off) (fun it h => hok it (by simp [h])) hmrest (by omega)
        (by omega) (by omega)
        (fun h => by
          have := hin (by omega)
          simp only [record_item, if_neg hdir]
          exact this)
        (fun h => by omega)
        (by omega)
      simp only [record_item, if_neg hdir] at ih
      simp only [List.foldl_cons, record_item, if_neg hdir]
      exact ih

theorem fold_no_in : ∀ (items : List desc_item) (p : midih_interface_t),
    count_in items = 0 →
      (items.foldl record_item p).ep_in = p.ep_in ∧
      (items.foldl record_item p).ep_in_max = p.ep_in_max ∧
      (items.foldl record_item p).num_cables_rx = p.num_cables_rx
  | [], _, _ => ⟨rfl, rfl, rfl⟩
  | desc_item.cs_interface _ :: rest, p, h => fold_no_in rest p h
  | desc_item.endpoint ep cs :: rest, p, h => by
    simp only [count_in] at h
    have hdir : ¬ ep_is_in ep := by
      intro hd; rw [if_pos hd] at h; omega
    rw [if_neg hdir] at h
    have ih := fold_no_in rest (record_item p (desc_item.endpoint ep cs)) (by omega)
    simp only [List.foldl_cons]
    simp only [record_item, if_neg hdir] at ih ⊢
    exact ih

theorem fold_no_out : ∀ (items : List desc_item) (p : midih_interface_t),
    count_out items = 0 →
      (items.foldl record_item p).ep_out = p.ep_out ∧
      (items.foldl record_item p).ep_out_max = p.ep_out_max ∧
      (items.foldl record_item p).num_cables_tx = p.num_cables_tx
  | [], _, _ => ⟨rfl, rfl, rfl⟩
  | desc_item.cs_interface _ :: rest, p, h => fold_no_out rest p h
  | desc_item.endpoint ep cs :: rest, p, h => by
    simp only [count_out] at h
    have hdir : ep_is_in ep := by
      by_contra hd; rw [if_neg hd] at h; omega
    rw [if_pos hdir] at h
    have ih := fold_no_out rest (record_item p (desc_item.endpoint ep cs)) (by omega)
    simp only [List.foldl_cons]
    simp only [record_item, if_pos hdir] at ih ⊢
    exact ih

theorem fold_itf_num : ∀ (items : List desc_item) (p : midih_interface_t),
    (items.foldl record_item p).itf_num = p.itf_num
  | [], _ => rfl
  | desc_item.cs_interface _ :: rest, p => fold_itf_num rest p
  | desc_item.endpoint ep cs :: rest, p => by
    have ih := fold_itf_num rest (record_item p (desc_item.endpoint ep cs))
    simp only [List.foldl_cons]
    rw [ih]
    simp only [record_item]
    split_ifs <;> rfl

/-- With at most one IN pair, the session records the data of the IN pair. -/
theorem fold_in : ∀ (items : List desc_item) (p : midih_interface_t) (ep cs : List Nat),
    count_in items ≤ 1 → desc_item.endpoint ep cs ∈ items → ep_is_in ep →
      (items.foldl record_item p).ep_in = ep.getD 2 0 ∧
      (items.foldl record_item p).ep_in_max = min (ep.getD 4 0 + 256 * ep.getD 5 0) 64 ∧
      (items.foldl record_item p).num_cables_rx = cs.getD 3 0
  | [], _, _, _, _, hmem, _ => by simp at hmem
  | desc_item.cs_interface _ :: rest, p, ep, cs, hc, hmem, hdir => by
    simp only [List.mem_cons, reduceCtorEq, false_or] at hmem
    exact fold_in rest p ep cs hc hmem hdir
  | desc_item.endpoint ep' cs' :: rest, p, ep, cs, hc, hmem, hdir => by
    simp only [count_in] at hc
    simp only [List.mem_cons, desc_item.endpoint.injEq] at hmem
    simp only [List.foldl_cons]
    rcases hmem with ⟨rfl, rfl⟩ | hmem
    · rw [if_pos hdir] at hc
      have ih := fold_no_in rest (record_item p (desc_item.endpoint ep cs)) (by omega)
      simp only [record_item, if_pos hdir] at ih ⊢
      exact ih
    · exact fold_in rest _ ep cs (by omega) hmem hdir

/-- With at most one OUT pair, the session records the data of the OUT pair. -/
theorem fold_out : ∀ (items : List desc_item) (p : midih_interface_t) (ep cs : List Nat),
    count_out items ≤ 1 → desc_item.endpoint ep cs ∈ items → ¬ ep_is_in ep →
      (items.foldl record_item p).ep_out = ep.getD 2 0 ∧
      (items.foldl record_item p).ep_out_max = min (ep.getD 4 0 + 256 * ep.getD 5 0) 64 ∧
      (items.foldl record_item p).num_cables_tx = cs.getD 3 0
  | [], _, _, _, _, hmem, _ => by simp at hmem
  | desc_item.cs_interface _ :: rest, p, ep, cs, hc, hmem, hdir => by
    simp only [List.mem_cons, reduceCtorEq, false_or] at hmem
    exact fold_out rest p ep cs hc hmem hdir
  | desc_item.endpoint ep' cs' :: rest, p, ep, cs, hc, hmem, hdir => by
    simp only [count_out] at hc
    simp only [List.mem_cons, desc_item.endpoint.injEq] at hmem
    simp only [List.foldl_cons]
    rcases hmem with ⟨rfl, rfl⟩ | hmem
    · rw [if_neg hdir] at hc
      have ih := fold_no_out rest (record_item p (desc_item.endpoint ep cs)) (by omega)
      simp only [record_item, if_neg hdir] at ih ⊢
      exact ih
    · exact fold_out rest _ ep cs (by omega) hmem hdir

/-- C10 (descriptor acceptance). For a session with no endpoint and no cable recorded
(a zeroed session) and a descriptor block of exactly `max_len` bytes made of a
MIDI-streaming interface descriptor, a class-specific MS interface header, and any
number of jack descriptors and endpoint pairs (a standard endpoint descriptor
immediately followed by its class-specific endpoint descriptor), with at most one pair
per direction and at least one pair with a non-zero jack count: when the endpoint
opens of the transport succeed, `midih_open` ends, returns `true`, and the session
records the device address, the interface number and, per direction, the endpoint
address, the maximum packet size `min wMaxPacketSize 64` and a cable count equal to
that endpoint's `bNumEmbMIDIJack`. -/
theorem midih_open_accepts (mem : Nat → Nat) (usbh_edpt_open : Nat → Bool) (fuel : Nat)
    (p : midih_interface_t) (dev_addr max_len : Nat) (itf hdr : List Nat)
    (items : List desc_item)
    (hzero : p.ep_in = 0 ∧ p.ep_out = 0 ∧ p.num_cables_rx = 0 ∧ p.num_cables_tx = 0)
    (hmem : agrees mem 0 (itf ++ (hdr ++ items_bytes items)))
    (hlen : max_len = (itf ++ (hdr ++ items_bytes items)).length) (hmax : max_len < 65536)
    (hitf : is_midi_itf itf) (hhdr : is_ms_header hdr)
    (hitems : ∀ it ∈ items, it.well_formed)
    (hin : count_in items ≤ 1) (hout : count_out items ≤ 1)
    (hjack : ∃ ep cs, desc_item.endpoint ep cs ∈ items ∧ cs.getD 3 0 ≠ 0)
    (hopen : ∀ d, usbh_edpt_open d = true)
    (hfuel : 2 * items.length + 2 ≤ fuel) :
    ∃ p', midih_open mem usbh_edpt_open fuel p dev_addr max_len = some (true, p') ∧
      p'.dev_addr = dev_addr ∧ p'.itf_num = itf.getD 2 0 ∧
      ∀ ep cs, desc_item.endpoint ep cs ∈ items →
        (ep_is_in ep →
          p'.ep_in = ep.getD 2 0 ∧
          p'.ep_in_max = min (ep.getD 4 0 + 256 * ep.getD 5 0) 64 ∧
          p'.num_cables_rx = cs.getD 3 0) ∧
        (¬ ep_is_in ep →
          p'.ep_out = ep.getD 2 0 ∧
          p'.ep_out_max = min (ep.getD 4 0 + 256 * ep.getD 5 0) 64 ∧
          p'.num_cables_tx = cs.getD 3 0) := by
  obtain ⟨⟨hi0, hil, hi1⟩, hi5, hi6⟩ := hitf
  obtain ⟨⟨hh0, hhl, hh1⟩, hh2⟩ := hhdr
  have ami := agrees_left _ _ _ _ hmem
  have amh := agrees_left _ _ _ _ (agrees_right _ _ _ _ hmem)
  have amr := agrees_right _ _ _ _ hmem
  rw [Nat.zero_add] at amh amr
  have m0 : mem 0 = itf.length := by
    have := ami 0 (by omega); rw [Nat.add_zero] at this; rw [this, hi0]
  have m2 : mem 2 = itf.getD 2 0 := by
    have := ami 2 (by omega); rw [Nat.zero_add] at this; exact this
  have m5 : mem 5 = 1 := by
    have := ami 5 (by omega); rw [Nat.zero_add] at this; rw [this, hi5]
  have m6 : mem 6 = 3 := by
    have := ami 6 (by omega); rw [Nat.zero_add] at this; rw [this, hi6]
  have mh1 : mem (itf.length + 1) = 0x24 := by rw [amh 1 (by omega), hh1]
  have mh2 : mem (itf.length + 2) = 1 := by rw [amh 2 (by omega), hh2]
  have hwalk : ∀ it ∈ desc_item.cs_interface hdr :: items, it.walk_ok := by
    intro it hit
    simp only [List.mem_cons] at hit
    rcases hit with rfl | hit
    · exact ⟨⟨hh0, by omega, hh1⟩, Or.inl hh2⟩
    · have := hitems it hit
      cases it with
      | cs_interface d =>
        obtain ⟨⟨a, b, c⟩, e⟩ := this
        exact ⟨⟨a, by omega, c⟩, by omega⟩
      | endpoint ep cs => exact this
  simp only [List.length_append] at hlen
  obtain ⟨ind', outd', hloop⟩ := open_loop_items mem max_len hmax
    (desc_item.cs_interface hdr :: items) fuel { p with itf_num := itf.getD 2 0 } itf.length
    none none hwalk amr
    (by simp only [items_bytes, desc_item.bytes, List.length_append]; omega)
    hin hout (fun _ => ⟨hzero.1, hzero.2.2.1⟩) (fun _ => ⟨hzero.2.1, hzero.2.2.2⟩)
    (by simp only [List.length_cons]; omega)
  have hrec : ∀ ep cs, desc_item.endpoint ep cs ∈ items →
      (ep_is_in ep →
        (items.foldl record_item { p with itf_num := itf.getD 2 0 }).ep_in = ep.getD 2 0 ∧
        (items.foldl record_item { p with itf_num := itf.getD 2 0 }).ep_in_max
          = min (ep.getD 4 0 + 256 * ep.getD 5 0) 64 ∧
        (items.foldl record_item { p with itf_num := itf.getD 2 0 }).num_cables_rx
          = cs.getD 3 0) ∧
      (¬ ep_is_in ep →
        (items.foldl record_item { p with itf_num := itf.getD 2 0 }).ep_out = ep.getD 2 0 ∧
        (items.foldl record_item { p with itf_num := itf.getD 2 0 }).ep_out_max
          = min (ep.getD 4 0 + 256 * ep.getD 5 0) 64 ∧
        (items.foldl record_item { p with itf_num := itf.getD 2 0 }).num_cables_tx
          = cs.getD 3 0) :=
    fun ep cs h => ⟨fold_in items _ ep cs hin h, fold_out items _ ep cs hout h⟩
  have hfinal : (((items.foldl record_item { p with itf_num := itf.getD 2 0 }).ep_out ≠ 0
        ∧ (items.foldl record_item { p with itf_num := itf.getD 2 0 }).num_cables_tx ≠ 0)
      ∨ ((items.foldl record_item { p with itf_num := itf.getD 2 0 }).ep_in ≠ 0
        ∧ (items.foldl record_item { p with itf_num := itf.getD 2 0 }).num_cables_rx ≠ 0)) := by
    obtain ⟨ep, cs, hm, hj⟩ := hjack
    have hwf := hitems _ hm
    have hne : ep.getD 2 0 ≠ 0 := hwf.1.2
    by_cases hdir : ep_is_in ep
    · obtain ⟨h1, _, h3⟩ := (hrec ep cs hm).1 hdir
      right; rw [h1, h3]; exact ⟨hne, hj⟩
    · obtain ⟨h1, _, h3⟩ := (hrec ep cs hm).2 hdir
      left; rw [h1, h3]; exact ⟨hne, hj⟩
  refine ⟨{ (items.foldl record_item { p with itf_num := itf.getD 2 0 }) with
            dev_addr := dev_addr }, ?_, rfl, ?_, ?_⟩
  · unfold midih_open
    simp only [bInterfaceClass, bInterfaceSubClass, bLength, bDescriptorType,
      bDescriptorSubType, bInterfaceNumber, tu_desc_next, Nat.zero_add, m0, m2, m5, m6, mh1,
      mh2, TUSB_CLASS_AUDIO, AUDIO_SUBCLASS_CONTROL, AUDIO_SUBCLASS_MIDI_STREAMING,
      TUSB_DESC_CS_INTERFACE, MIDI_CS_INTERFACE_HEADER, ne_eq, not_true_eq_false, if_false,
      Nat.reduceEqDiff, and_self, true_or, Nat.mod_eq_of_lt (by omega : itf.length < 65536),
      hloop, List.foldl_cons, record_item]
    unfold open_finish
    simp only [hfinal, not_true_eq_false, if_false, hopen, Bool.not_true, Option.any]
    cases ind' <;> cases outd' <;> simp
  · exact fold_itf_num items _
  · exact hrec

theorem midih_open_accepts_witness :
    midih_open (mem_of sample_block) (fun _ => true) 10 midih_init 1 sample_block.length
      = some (true, { midih_init with
                      dev_addr := 1, itf_num := 1, ep_in := 0x81, ep_out := 0x01,
                      ep_in_max := 64, ep_out_max := 64,
                      num_cables_rx := 2, num_cables_tx := 1 }) ∧
    ∃ p', midih_open (mem_of sample_block) (fun _ => true) 10 midih_init 1 sample_block.length
        = some (true, p') ∧
      p'.dev_addr = 1 ∧ p'.itf_num = sample_itf.getD 2 0 ∧
      ∀ ep cs, desc_item.endpoint ep cs ∈ sample_items →
        (ep_is_in ep →
          p'.ep_in = ep.getD 2 0 ∧
          p'.ep_in_max = min (ep.getD 4 0 + 256 * ep.getD 5 0) 64 ∧
          p'.num_cables_rx = cs.getD 3 0) ∧
        (¬ ep_is_in ep →
          p'.ep_out = ep.getD 2 0 ∧
          p'.ep_out_max = min (ep.getD 4 0 + 256 * ep.getD 5 0) 64 ∧
          p'.num_cables_tx = cs.getD 3 0) :=
  ⟨by decide,
    midih_open_accepts (mem_of sample_block) (fun _ => true) 10 midih_init 1
      sample_block.length sample_itf sample_header sample_items (by decide)
      (fun i _ => by rw [Nat.zero_add]; rfl) rfl (by decide) (by decide) (by decide)
      (by decide) (by decide) (by decide)
      ⟨[9, 5, 0x81, 2, 0, 2, 0, 0, 0], [6, 0x25, 1, 2, 3, 4], by decide, by decide⟩
      (fun _ => rfl) (by decide)⟩

/-! ## The encode state between calls -/

theorem write_keeps_ok (p : midih_interface_t) (c rt2 rt3 : Nat) (buffer : List Nat)
    (h : stream_ok p.stream_write) :
    stream_ok (tuh_midi_stream_write p c rt2 rt3 buffer).2.stream_write := by
  unfold tuh_midi_stream_write
  by_cases hc : c < p.num_cables_tx
  · obtain ⟨k, _, hk⟩ := write_loop_prefix c rt2 rt3 buffer 0 p.stream_write p.tx_ff h
    simp only [if_pos hc, hk]
    exact enc_ok c rt2 rt3 _ _ h
  · simp only [if_neg hc]
    exact h

theorem write_calls_ok :
    ∀ (calls : List (Nat × Nat × Nat × Nat × List Nat)) (p : midih_interface_t),
      stream_ok p.stream_write → stream_ok (write_calls p calls).stream_write
  | [], _, h => h
  | (d, c, rt2, rt3, buffer) :: rest, p, h => by
    simp only [write_calls]
    exact write_calls_ok rest _ (write_keeps_ok (drain d p) c rt2 rt3 buffer h)

/-- C20: from a session whose encode state is zeroed, after any sequence of calls of
`tuh_midi_stream_write` (any cable, any bytes, any fill level of the queue) the encode
state is idle (index 0, total 0) or in progress with index 2 or 3 below total; so index
is at most total, total is one of 0, 2, 3, 4, index is below 4, and the next loop
iteration, run with room in the queue, does not fail its assertions. -/
theorem encode_state_invariant (p : midih_interface_t)
    (calls : List (Nat × Nat × Nat × Nat × List Nat))
    (hzero : p.stream_write = midi_stream_t.zero) :
    let st := (write_calls p calls).stream_write
    ((st.index = 0 ∧ st.total = 0) ∨ ((st.index = 2 ∨ st.index = 3) ∧ st.index < st.total)) ∧
    st.index ≤ st.total ∧
    (st.total = 0 ∨ st.total = 2 ∨ st.total = 3 ∨ st.total = 4) ∧
    st.index < 4 ∧
    ∀ (cable_num rt2 rt3 data : Nat) (ff : tu_fifo_t), 4 ≤ tu_fifo_remaining ff →
      (write_body cable_num rt2 rt3 data st ff).1 = true := by
  intro st
  have hok : stream_ok st :=
    write_calls_ok calls p (by rw [hzero]; exact Or.inl ⟨rfl, rfl⟩)
  have hok' := hok
  unfold stream_ok at hok'
  refine ⟨?_, ?_, ?_, ?_, ?_⟩
  · rcases hok' with h | ⟨h1, h2, _⟩
    · exact Or.inl h
    · exact Or.inr ⟨h1, h2⟩
  · omega
  · omega
  · omega
  · intro c rt2 rt3 data ff hrem
    rw [body_eq c rt2 rt3 data st ff hok hrem]

theorem encode_state_invariant_witness :
    (session_tx 2).stream_write = midi_stream_t.zero ∧
    (write_calls (session_tx 2)
        [(0, 1, 0, 0, [0x90, 0x40, 0x7F]), (4, 0, 0, 0, [0xF0, 1, 2, 3, 4]), (0, 5, 0, 0, [0x80])]
      ).stream_write = ⟨0x04, 3, 4, 2, 3, 4⟩ ∧
    (let st := (write_calls (session_tx 2)
        [(0, 1, 0, 0, [0x90, 0x40, 0x7F]), (4, 0, 0, 0, [0xF0, 1, 2, 3, 4]), (0, 5, 0, 0, [0x80])]
      ).stream_write
    ((st.index = 0 ∧ st.total = 0) ∨ ((st.index = 2 ∨ st.index = 3) ∧ st.index < st.total)) ∧
    st.index ≤ st.total ∧
    (st.total = 0 ∨ st.total = 2 ∨ st.total = 3 ∨ st.total = 4) ∧
    st.index < 4 ∧
    ∀ (cable_num rt2 rt3 data : Nat) (ff : tu_fifo_t), 4 ≤ tu_fifo_remaining ff →
      (write_body cable_num rt2 rt3 data st ff).1 = true) :=
  ⟨rfl, by decide,
    encode_state_invariant (session_tx 2)
      [(0, 1, 0, 0, [0x90, 0x40, 0x7F]), (4, 0, 0, 0, [0xF0, 1, 2, 3, 4]), (0, 5, 0, 0, [0x80])]
      rfl⟩

/-! ## The shape of `midih_open` -/

/-- From the interface descriptor on, `midih_open` is three checks, the main loop from
`open_entry`, and `open_return`. -/
theorem midih_open_from (mem : Nat → Nat) (usbh_edpt_open : Nat → Bool) (fuel : Nat)
    (p : midih_interface_t) (dev_addr max_len q l : Nat)
    (hclass : bInterfaceClass mem 0 = TUSB_CLASS_AUDIO)
    (hstart : open_start mem max_len fuel q l) :
    midih_open mem usbh_edpt_open fuel p dev_addr max_len =
      if bInterfaceClass mem q ≠ TUSB_CLASS_AUDIO
          ∨ bInterfaceSubClass mem q ≠ AUDIO_SUBCLASS_MIDI_STREAMING
          ∨ ¬ open_first_ok mem (tu_desc_next mem q) then some (false, p)
      else open_return usbh_edpt_open dev_addr
        (open_loop mem max_len fuel (open_entry mem p q l)) := by
  have h1 : ¬ ( TUSB_CLASS_AUDIO ≠ bInterfaceClass mem 0) := fun h => h hclass.symm
  rcases hstart with ⟨hs, rfl, rfl⟩ | ⟨hs, hscan⟩
  · have h2 : ¬ ( AUDIO_SUBCLASS_CONTROL = bInterfaceSubClass mem 0) := fun h => hs h.symm
    by_cases h3 : AUDIO_SUBCLASS_MIDI_STREAMING ≠ bInterfaceSubClass mem 0
    · have h3' : bInterfaceSubClass mem 0 ≠ AUDIO_SUBCLASS_MIDI_STREAMING := fun h => h3 h.symm
      simp only [midih_open, if_neg h1, if_neg h2, if_pos h3]
      rw [if_pos (Or.inr (Or.inl h3'))]
    · have h3' : ¬ bInterfaceSubClass mem 0 ≠ AUDIO_SUBCLASS_MIDI_STREAMING :=
        fun h => h3 (fun e => h e.symm)
      by_cases h4 : open_first_ok mem (tu_desc_next mem 0)
      · have h4' := h4
        unfold open_first_ok at h4'
        have hc : ¬ (bInterfaceClass mem 0 ≠ TUSB_CLASS_AUDIO
            ∨ bInterfaceSubClass mem 0 ≠ AUDIO_SUBCLASS_MIDI_STREAMING
            ∨ ¬ open_first_ok mem (tu_desc_next mem 0)) := by
          rintro (h | h | h)
          · exact h hclass
          · exact h3' h
          · exact h h4
        simp only [midih_open, if_neg h1, if_neg h2, if_neg h3, not_not.mpr h4', if_false]
        rw [if_neg hc]
        unfold open_return open_entry
        rfl
      · have h4' := h4
        unfold open_first_ok at h4'
        simp only [midih_open, if_neg h1, if_neg h2, if_neg h3, if_pos h4']
        rw [if_pos (Or.inr (Or.inr h4))]
  · have h2 : AUDIO_SUBCLASS_CONTROL = bInterfaceSubClass mem 0 := hs.symm
    by_cases hq : TUSB_CLASS_AUDIO = bInterfaceClass mem q
    · have hd : decide ( TUSB_CLASS_AUDIO = bInterfaceClass mem q) = true := decide_eq_true hq
      by_cases h3 : AUDIO_SUBCLASS_MIDI_STREAMING ≠ bInterfaceSubClass mem q
      · have h3' : bInterfaceSubClass mem q ≠ AUDIO_SUBCLASS_MIDI_STREAMING :=
          fun h => h3 h.symm
        simp only [midih_open, if_neg h1, if_pos h2, hscan, Option.map_some', hd, if_pos h3]
        rw [if_pos (Or.inr (Or.inl h3'))]
      · have h3' : ¬ bInterfaceSubClass mem q ≠ AUDIO_SUBCLASS_MIDI_STREAMING :=
          fun h => h3 (fun e => h e.symm)
        by_cases h4 : open_first_ok mem (tu_desc_next mem q)
        · have h4' := h4
          unfold open_first_ok at h4'
          have hc : ¬ (bInterfaceClass mem q ≠ TUSB_CLASS_AUDIO
              ∨ bInterfaceSubClass mem q ≠ AUDIO_SUBCLASS_MIDI_STREAMING
              ∨ ¬ open_first_ok mem (tu_desc_next mem q)) := by
            rintro (h | h | h)
            · exact h hq.symm
            · exact h3' h
            · exact h h4
          simp only [midih_open, if_neg h1, if_pos h2, hscan, Option.map_some', hd, if_neg h3,
            not_not.mpr h4', if_false]
          rw [if_neg hc]
          unfold open_return open_entry
          rfl
        · have h4' := h4
          unfold open_first_ok at h4'
          simp only [midih_open, if_neg h1, if_pos h2, hscan, Option.map_some', hd, if_neg h3,
            if_pos h4']
          rw [if_pos (Or.inr (Or.inr h4))]
    · have hd : decide ( TUSB_CLASS_AUDIO = bInterfaceClass mem q) = false :=
        decide_eq_false hq
      simp only [midih_open, if_neg h1, if_pos h2, hscan, Option.map_some', hd]
      rw [if_pos (Or.inl (fun h => hq h.symm))]

/-- Either `midih_open` does not end, or it returns `false` before it has touched the
session, or it runs its main loop from `open_entry`. -/
theorem midih_open_shape (mem : Nat → Nat) (usbh_edpt_open : Nat → Bool) (fuel : Nat)
    (p : midih_interface_t) (dev_addr max_len : Nat) :
    midih_open mem usbh_edpt_open fuel p dev_addr max_len = none ∨
    midih_open mem usbh_edpt_open fuel p dev_addr max_len = some (false, p) ∨
    ∃ q l, midih_open mem usbh_edpt_open fuel p dev_addr max_len =
      open_return usbh_edpt_open dev_addr (open_loop mem max_len fuel (open_entry mem p q l)) := by
  by_cases hclass : bInterfaceClass mem 0 = TUSB_CLASS_AUDIO
  · have key : ∀ q l, open_start mem max_len fuel q l →
        midih_open mem usbh_edpt_open fuel p dev_addr max_len = some (false, p) ∨
        ∃ q l, midih_open mem usbh_edpt_open fuel p dev_addr max_len =
          open_return usbh_edpt_open dev_addr
            (open_loop mem max_len fuel (open_entry mem p q l)) := by
      intro q l hstart
      rw [midih_open_from mem usbh_edpt_open fuel p dev_addr max_len q l hclass hstart]
      by_cases hc : bInterfaceClass mem q ≠ TUSB_CLASS_AUDIO
          ∨ bInterfaceSubClass mem q ≠ AUDIO_SUBCLASS_MIDI_STREAMING
          ∨ ¬ open_first_ok mem (tu_desc_next mem q)
      · exact Or.inl (by rw [if_pos hc])
      · exact Or.inr ⟨q, l, by rw [if_neg hc]⟩
    by_cases hs : bInterfaceSubClass mem 0 = AUDIO_SUBCLASS_CONTROL
    · cases hscan : open_scan mem max_len fuel 0 0 with
      | none =>
        left
        have h1 : ¬ ( TUSB_CLASS_AUDIO ≠ bInterfaceClass mem 0) := fun h => h hclass.symm
        simp only [midih_open, if_neg h1, if_pos hs.symm, hscan, Option.map_none']
      | some r => exact Or.inr (key r.1 r.2 (Or.inr ⟨hs, hscan⟩))
    · exact Or.inr (key 0 0 (Or.inl ⟨hs, rfl, rfl⟩))
  · right; left
    have h1 : TUSB_CLASS_AUDIO ≠ bInterfaceClass mem 0 := fun h => hclass h.symm
    simp only [midih_open, if_pos h1]

/-! ## What one iteration of the main loop can do -/

theorem open_step_false (mem : Nat → Nat) (s s' : open_state)
    (h : open_step mem s = (false, s')) : s' = s := by
  unfold open_step at h
  dsimp only at h
  repeat' split at h
  all_goals cases h
  all_goals rfl

/-- An iteration that passes its checks moves on by `bLength`, and has seen a
class-specific interface descriptor (nothing else changes), a class-specific endpoint
descriptor with `prev_ep_addr` set (a cable count is recorded, `prev_ep_addr` cleared),
or a standard endpoint descriptor (an endpoint is recorded for a direction without
cable count). -/
theorem open_step_true (mem : Nat → Nat) (s s' : open_state)
    (h : open_step mem s = (true, s')) :
    s'.p_desc = s.p_desc + mem s.p_desc ∧
    s'.len_parsed = (s.len_parsed + mem s.p_desc) % 65536 ∧
    ((bDescriptorType mem s.p_desc = TUSB_DESC_CS_INTERFACE ∧
        s'.prev_ep_addr = s.prev_ep_addr ∧ s'.midi = s.midi) ∨
     (bDescriptorType mem s.p_desc = TUSB_DESC_CS_ENDPOINT ∧ s.prev_ep_addr ≠ 0 ∧
        s'.prev_ep_addr = 0 ∧
        ((s.midi.ep_out = s.prev_ep_addr ∧
            s'.midi = { s.midi with num_cables_tx := bNumEmbMIDIJack mem s.p_desc }) ∨
         (s.midi.ep_in = s.prev_ep_addr ∧
            s'.midi = { s.midi with num_cables_rx := bNumEmbMIDIJack mem s.p_desc }))) ∨
     (bDescriptorType mem s.p_desc = TUSB_DESC_ENDPOINT ∧
        ((s.midi.num_cables_tx = 0 ∧
            ∃ a m, s'.midi = { s.midi with ep_out := a, ep_out_max := m }) ∨
         (s.midi.num_cables_rx = 0 ∧
            ∃ a m, s'.midi = { s.midi with ep_in := a, ep_in_max := m })))) := by
  unfold open_step at h
  dsimp only at h
  repeat' split at h
  all_goals cases h
  all_goals first
    | exact ⟨rfl, rfl, Or.inl ⟨by assumption, rfl, rfl⟩⟩
    | exact ⟨rfl, rfl, Or.inr (Or.inl ⟨by assumption, by assumption, rfl,
        Or.inl ⟨Decidable.not_not.mp (by assumption), rfl⟩⟩)⟩
    | exact ⟨rfl, rfl, Or.inr (Or.inl ⟨by assumption, by assumption, rfl,
        Or.inr ⟨Decidable.not_not.mp (by assumption), rfl⟩⟩)⟩
    | exact ⟨rfl, rfl, Or.inr (Or.inr ⟨by assumption,
        Or.inl ⟨Decidable.not_not.mp (by assumption), _, _, rfl⟩⟩)⟩
    | exact ⟨rfl, rfl, Or.inr (Or.inr ⟨by assumption,
        Or.inr ⟨Decidable.not_not.mp (by assumption), _, _, rfl⟩⟩)⟩
    | (exfalso; tauto)

/-! ## Properties the main loop keeps -/

/-- A property of the loop state kept by every iteration that passes its checks holds
when the loop ends, with either outcome. -/
theorem open_loop_keeps (mem : Nat → Nat) (max_len : Nat) (P : open_state → Prop)
    (hP : ∀ s s', P s → open_step mem s = (true, s') → P s') :
    ∀ (fuel : Nat) (s : open_state) (r : Bool × open_state),
      P s → open_loop mem max_len fuel s = some r → P r.2
  | 0, s, r, hs, h => by
    simp only [open_loop] at h
    split at h
    · cases h
    · cases h; exact hs
  | fuel + 1, s, r, hs, h => by
    simp only [open_loop] at h
    split at h
    · cases hr : open_step mem s with
      | mk b s1 =>
        rw [hr] at h
        cases b with
        | false =>
          simp only [Bool.false_eq_true, if_false] at h
          cases h
          rw [open_step_false mem s s1 hr]
          exact hs
        | true =>
          simp only [if_true] at h
          exact open_loop_keeps mem max_len P hP fuel s1 r (hP s s1 hs hr) h
    · cases h; exact hs

theorem open_step_frame (mem : Nat → Nat) (p : midih_interface_t) (s s' : open_state)
    (hs : open_frame p s.midi) (h : open_step mem s = (true, s')) : open_frame p s'.midi := by
  obtain ⟨_, _, hc⟩ := open_step_true mem s s' h
  rcases hc with ⟨_, _, e⟩ | ⟨_, _, _, ⟨_, e⟩ | ⟨_, e⟩⟩ | ⟨_, ⟨_, _, _, e⟩ | ⟨_, _, _, e⟩⟩ <;>
    rw [e] <;> exact hs

theorem open_step_counted (mem : Nat → Nat) (s s' : open_state)
    (hs : open_counted s.midi) (h : open_step mem s = (true, s')) : open_counted s'.midi := by
  obtain ⟨_, _, hc⟩ := open_step_true mem s s' h
  obtain ⟨hrx, htx⟩ := hs
  rcases hc with ⟨_, _, e⟩ | ⟨_, hp, _, ⟨ho, e⟩ | ⟨hi, e⟩⟩ | ⟨_, ⟨ht, _, _, e⟩ | ⟨ht, _, _, e⟩⟩ <;>
    rw [e]
  · exact ⟨hrx, htx⟩
  · exact ⟨hrx, fun _ => by show s.midi.ep_out ≠ 0; rw [ho]; exact hp⟩
  · exact ⟨fun _ => by show s.midi.ep_in ≠ 0; rw [hi]; exact hp, htx⟩
  · exact ⟨hrx, fun hn => absurd ht hn⟩
  · exact ⟨fun hn => absurd ht hn, htx⟩

/-! ## The session after `midih_open` -/

theorem open_finish_false (usbh_edpt_open : Nat → Bool) (dev_addr : Nat) (s : open_state)
    (p' : midih_interface_t) (h : open_finish usbh_edpt_open dev_addr s = (false, p')) :
    p' = s.midi := by
  unfold open_finish at h
  repeat' split at h
  all_goals cases h
  all_goals rfl

theorem open_finish_true (usbh_edpt_open : Nat → Bool) (dev_addr : Nat) (s : open_state)
    (p' : midih_interface_t) (h : open_finish usbh_edpt_open dev_addr s = (true, p')) :
    p' = { s.midi with dev_addr := dev_addr } ∧
    ((s.midi.ep_out ≠ 0 ∧ s.midi.num_cables_tx ≠ 0)
      ∨ (s.midi.ep_in ≠ 0 ∧ s.midi.num_cables_rx ≠ 0)) := by
  unfold open_finish at h
  repeat' split at h
  all_goals cases h
  exact ⟨rfl, Decidable.not_not.mp (by assumption)⟩

/-- When `midih_open` has run its main loop and returned, the session it leaves is the
one of the final loop state, but for the device address on success. -/
theorem open_return_session (mem : Nat → Nat) (usbh_edpt_open : Nat → Bool)
    (fuel dev_addr max_len : Nat) (s0 : open_state) (b : Bool) (p' : midih_interface_t)
    (h : open_return usbh_edpt_open dev_addr (open_loop mem max_len fuel s0) = some (b, p')) :
    ∃ r : Bool × open_state, open_loop mem max_len fuel s0 = some r ∧
      ((b = false ∧ p' = r.2.midi) ∨
       (b = true ∧ p' = { r.2.midi with dev_addr := dev_addr } ∧
          ((r.2.midi.ep_out ≠ 0 ∧ r.2.midi.num_cables_tx ≠ 0)
            ∨ (r.2.midi.ep_in ≠ 0 ∧ r.2.midi.num_cables_rx ≠ 0)))) := by
  cases hl : open_loop mem max_len fuel s0 with
  | none => rw [hl] at h; cases h
  | some r =>
    refine ⟨r, rfl, ?_⟩
    rw [hl] at h
    obtain ⟨ok, s⟩ := r
    cases ok with
    | false =>
      simp only [open_return, Option.some.injEq, Prod.mk.injEq] at h
      exact Or.inl ⟨h.1.symm, h.2.symm⟩
    | true =>
      simp only [open_return, Option.some.injEq] at h
      cases b with
      | false => exact Or.inl ⟨rfl, open_finish_false usbh_edpt_open dev_addr s p' h⟩
      | true => exact Or.inr ⟨rfl, open_finish_true usbh_edpt_open dev_addr s p' h⟩

/-- C12 (amended). Whenever `midih_open` returns `false`, the device handle, the
configured flag, the codec state and the queues of the session are what they were
before the call; the whole session record is what it was when the failing check is one
made before the descriptor walk: the class of the interface passed in, or the class,
the subclass or the first following descriptor of the interface descriptor settled on.
(A check that fails later leaves in the session what the walk has recorded so far.) -/
theorem open_failure_keeps (mem : Nat → Nat) (usbh_edpt_open : Nat → Bool) (fuel : Nat)
    (p : midih_interface_t) (dev_addr max_len : Nat) (p' : midih_interface_t)
    (h : midih_open mem usbh_edpt_open fuel p dev_addr max_len = some (false, p')) :
    (p'.dev_addr = p.dev_addr ∧ p'.configured = p.configured ∧
      p'.stream_write = p.stream_write ∧ p'.stream_read = p.stream_read ∧
      p'.rx_ff = p.rx_ff ∧ p'.tx_ff = p.tx_ff) ∧
    (bInterfaceClass mem 0 ≠ TUSB_CLASS_AUDIO → p' = p) ∧
    (∀ q l, open_start mem max_len fuel q l →
      (bInterfaceClass mem q ≠ TUSB_CLASS_AUDIO
        ∨ bInterfaceSubClass mem q ≠ AUDIO_SUBCLASS_MIDI_STREAMING
        ∨ ¬ open_first_ok mem (tu_desc_next mem q)) → p' = p) := by
  have hsame : midih_open mem usbh_edpt_open fuel p dev_addr max_len = some (false, p) →
      p' = p := by
    intro e
    rw [e] at h
    simp only [Option.some.injEq, Prod.mk.injEq, true_and] at h
    exact h.symm
  refine ⟨?_, ?_, ?_⟩
  · rcases midih_open_shape mem usbh_edpt_open fuel p dev_addr max_len with e | e | ⟨q, l, e⟩
    · rw [e] at h; cases h
    · rw [hsame e]; exact ⟨rfl, rfl, rfl, rfl, rfl, rfl⟩
    · rw [e] at h
      obtain ⟨r, hl, hr⟩ := open_return_session mem usbh_edpt_open fuel dev_addr max_len
        (open_entry mem p q l) false p' h
      have hf : open_frame p r.2.midi :=
        open_loop_keeps mem max_len (fun s => open_frame p s.midi)
          (fun s s' => open_step_frame mem p s s') fuel (open_entry mem p q l) r
          ⟨rfl, rfl, rfl, rfl, rfl, rfl⟩ hl
      rcases hr with ⟨_, e'⟩ | ⟨e', _⟩
      · rw [e']; exact hf
      · cases e'
  · intro hc
    apply hsame
    have h1 : TUSB_CLASS_AUDIO ≠ bInterfaceClass mem 0 := fun e => hc e.symm
    simp only [midih_open, if_pos h1]
  · intro q l hstart hc
    apply hsame
    by_cases hclass : bInterfaceClass mem 0 = TUSB_CLASS_AUDIO
    · rw [midih_open_from mem usbh_edpt_open fuel p dev_addr max_len q l hclass hstart,
        if_pos hc]
    · have h1 : TUSB_CLASS_AUDIO ≠ bInterfaceClass mem 0 := fun e => hclass e.symm
      simp only [midih_open, if_pos h1]

theorem open_failure_keeps_witness :
    midih_open (mem_of block_unfinished) (fun _ => true) 10 (session_rx 1 [0x09, 0x90, 60, 100])
        1 block_unfinished.length
      = some (false, { session_rx 1 [0x09, 0x90, 60, 100] with
                       itf_num := 1, ep_out := 1, ep_out_max := 64 }) ∧
    (({ session_rx 1 [0x09, 0x90, 60, 100] with
          itf_num := 1, ep_out := 1, ep_out_max := 64 } : midih_interface_t).rx_ff
        = (session_rx 1 [0x09, 0x90, 60, 100]).rx_ff) :=
  ⟨by decide,
    (open_failure_keeps (mem_of block_unfinished) (fun _ => true) 10
      (session_rx 1 [0x09, 0x90, 60, 100]) 1 block_unfinished.length _ (by decide)).1.2.2.2.2.1⟩

/-- C12 as stated fails: on a block whose OUT endpoint descriptor is followed by an
unexpected descriptor, `midih_open` returns `false` and leaves the interface number,
the OUT endpoint address and its maximum packet size in a session that was zeroed. -/
theorem open_failure_changes_session :
    midih_open (mem_of block_unfinished) (fun _ => true) 10 midih_init 1 block_unfinished.length
      = some (false, { midih_init with itf_num := 1, ep_out := 1, ep_out_max := 64 }) ∧
    ({ midih_init with itf_num := 1, ep_out := 1, ep_out_max := 64 } : midih_interface_t)
      ≠ midih_init := by
  decide

/-- C18 (amended). For every descriptor block on which `midih_open` succeeds from a
zeroed session, at least one direction has a non-zero endpoint address together with a
non-zero cable count, and a cable count is non-zero only if the endpoint address of
the same direction is non-zero. -/
theorem open_success_invariant (mem : Nat → Nat) (usbh_edpt_open : Nat → Bool) (fuel : Nat)
    (p : midih_interface_t) (dev_addr max_len : Nat) (p' : midih_interface_t)
    (hzero : p.ep_in = 0 ∧ p.ep_out = 0 ∧ p.num_cables_rx = 0 ∧ p.num_cables_tx = 0)
    (h : midih_open mem usbh_edpt_open fuel p dev_addr max_len = some (true, p')) :
    ((p'.ep_out ≠ 0 ∧ p'.num_cables_tx ≠ 0) ∨ (p'.ep_in ≠ 0 ∧ p'.num_cables_rx ≠ 0)) ∧
    (p'.num_cables_rx ≠ 0 → p'.ep_in ≠ 0) ∧ (p'.num_cables_tx ≠ 0 → p'.ep_out ≠ 0) := by
  rcases midih_open_shape mem usbh_edpt_open fuel p dev_addr max_len with e | e | ⟨q, l, e⟩
  · rw [e] at h; cases h
  · rw [e] at h; cases h
  · rw [e] at h
    obtain ⟨r, hl, hr⟩ := open_return_session mem usbh_edpt_open fuel dev_addr max_len
      (open_entry mem p q l) true p' h
    have hc : open_counted r.2.midi :=
      open_loop_keeps mem max_len (fun s => open_counted s.midi)
        (fun s s' => open_step_counted mem s s') fuel (open_entry mem p q l) r
        ⟨fun hn => absurd hzero.2.2.1 hn, fun hn => absurd hzero.2.2.2 hn⟩ hl
    rcases hr with ⟨e', _⟩ | ⟨_, e', hfin⟩
    · cases e'
    · rw [e']
      exact ⟨hfin, hc.1, hc.2⟩

theorem open_success_invariant_witness :
    midih_open (mem_of block_out_uncounted) (fun _ => true) 10 midih_init 1
        block_out_uncounted.length
      = some (true, { midih_init with
                      dev_addr := 1, itf_num := 1, ep_in := 0x81, ep_out := 0x01,
                      ep_in_max := 64, ep_out_max := 64, num_cables_rx := 17 }) ∧
    (((0x01 : Nat) ≠ 0 ∧ (0 : Nat) ≠ 0) ∨ ((0x81 : Nat) ≠ 0 ∧ (17 : Nat) ≠ 0)) ∧
    ((17 : Nat) ≠ 0 → (0x81 : Nat) ≠ 0) ∧ ((0 : Nat) ≠ 0 → (0x01 : Nat) ≠ 0) :=
  ⟨by decide,
    open_success_invariant (mem_of block_out_uncounted) (fun _ => true) 10 midih_init 1
      block_out_uncounted.length
      { midih_init with
        dev_addr := 1, itf_num := 1, ep_in := 0x81, ep_out := 0x01,
        ep_in_max := 64, ep_out_max := 64, num_cables_rx := 17 }
      (by decide) (by decide)⟩

/-- C18 as stated fails: `midih_open` succeeds from a zeroed session on a block whose
OUT endpoint has no class-specific endpoint descriptor and whose IN endpoint declares
17 embedded jacks; the session then has 17 input cables, and a non-zero OUT endpoint
address with an output cable count of 0. -/
theorem open_success_outside_bounds :
    ∃ p', midih_open (mem_of block_out_uncounted) (fun _ => true) 10 midih_init 1
        block_out_uncounted.length = some (true, p') ∧
      p'.num_cables_rx = 17 ∧ p'.ep_out = 1 ∧ p'.num_cables_tx = 0 ∧
      ¬ (p'.num_cables_rx ≤ 16 ∧ p'.num_cables_tx ≤ 16 ∧
          (p'.ep_in ≠ 0 → p'.num_cables_rx ≠ 0) ∧ (p'.ep_out ≠ 0 → p'.num_cables_tx ≠ 0)) :=
  ⟨{ midih_init with
      dev_addr := 1, itf_num := 1, ep_in := 0x81, ep_out := 0x01,
      ep_in_max := 64, ep_out_max := 64, num_cables_rx := 17 },
    by decide, rfl, rfl, rfl, by decide⟩

/-! ## A descriptor of length 0 -/

theorem open_loop_stuck (mem : Nat → Nat) (max_len : Nat) (s : open_state)
    (hlt : s.len_parsed < max_len) (hstep : open_step mem s = (true, s)) :
    ∀ fuel, open_loop mem max_len fuel s = none
  | 0 => by simp only [open_loop, hlt, if_true]
  | fuel + 1 => by
    rw [open_loop_succ mem max_len fuel s s hlt hstep]
    exact open_loop_stuck mem max_len s hlt hstep fuel

/-- C19 fails at a block whose MS header declares `bLength = 0`: the main loop of
`midih_open` stays on that descriptor with `len_parsed` unchanged, so that no number of
iterations ends it. -/
theorem open_zero_length_never_ends (fuel : Nat) :
    midih_open (mem_of block_zero_length) (fun _ => true) fuel midih_init 1
      block_zero_length.length = none := by
  have hclass : bInterfaceClass (mem_of block_zero_length) 0 = TUSB_CLASS_AUDIO := by decide
  have hstart : open_start (mem_of block_zero_length) block_zero_length.length fuel 0 0 :=
    Or.inl ⟨by decide, rfl, rfl⟩
  have hc : ¬ (bInterfaceClass (mem_of block_zero_length) 0 ≠ TUSB_CLASS_AUDIO
      ∨ bInterfaceSubClass (mem_of block_zero_length) 0 ≠ AUDIO_SUBCLASS_MIDI_STREAMING
      ∨ ¬ open_first_ok (mem_of block_zero_length)
          (tu_desc_next (mem_of block_zero_length) 0)) := by decide
  rw [midih_open_from _ _ fuel midih_init 1 _ 0 0 hclass hstart, if_neg hc,
    open_loop_stuck (mem_of block_zero_length) block_zero_length.length
      (open_entry (mem_of block_zero_length) midih_init 0 0) (by decide) (by decide) fuel]
  rfl

/-! ## Class-specific endpoint descriptors without an endpoint descriptor -/

theorem open_loop_fail (mem : Nat → Nat) (max_len fuel : Nat) (s s' : open_state)
    (hlt : s.len_parsed < max_len) (hstep : open_step mem s = (false, s')) :
    open_loop mem max_len (fuel + 1) s = some (false, s') := by
  simp only [open_loop, hlt, if_true, hstep, Bool.false_eq_true, if_false]

/-- A class-specific endpoint descriptor met while `prev_ep_addr` is 0 fails a check. -/
theorem open_step_no_endpoint (mem : Nat → Nat) (s : open_state)
    (ht : bDescriptorType mem s.p_desc = TUSB_DESC_CS_ENDPOINT) (hp : s.prev_ep_addr = 0) :
    open_step mem s = (false, s) := by
  cases hr : open_step mem s with
  | mk b s' =>
    cases b with
    | false => rw [open_step_false mem s s' hr]
    | true =>
      exfalso
      obtain ⟨_, _, hc⟩ := open_step_true mem s s' hr
      rcases hc with ⟨h, _⟩ | ⟨_, h, _⟩ | ⟨h, _⟩
      · rw [ht] at h; exact absurd h (by decide)
      · exact h hp
      · rw [ht] at h; exact absurd h (by decide)

/-- The main loop over a run of descriptors that lies before `max_len`: a check fails,
or the loop arrives behind the run, with `prev_ep_addr = 0` when no endpoint descriptor
of the run is left waiting. -/
theorem open_loop_walk (mem : Nat → Nat) (max_len : Nat) (hmax : max_len < 65536) :
    ∀ (descs : List (List Nat)) (k : Nat) (s : open_state) (b : Bool),
      agrees mem s.p_desc (descs_bytes descs) →
      (∀ d ∈ descs, d.getD 0 0 = d.length ∧ 2 ≤ d.length) →
      s.len_parsed + (descs_bytes descs).length < max_len →
      (b = false → s.prev_ep_addr = 0) →
      (∃ s', open_loop mem max_len (descs.length + k) s = some (false, s')) ∨
      (∃ s', open_loop mem max_len (descs.length + k) s = open_loop mem max_len k s' ∧
          s'.p_desc = s.p_desc + (descs_bytes descs).length ∧
          s'.len_parsed = s.len_parsed + (descs_bytes descs).length ∧
          (endpoint_pending b descs = false → s'.prev_ep_addr = 0))
  | [], k, s, b, _, _, _, hb => by
    refine Or.inr ⟨s, ?_, ?_, ?_, ?_⟩
    · rw [List.length_nil, Nat.zero_add]
    · simp only [descs_bytes, List.length_nil, Nat.add_zero]
    · simp only [descs_bytes, List.length_nil, Nat.add_zero]
    · exact hb
  | d :: rest, k, s, b, hm, hd, hlen, hb => by
    obtain ⟨hd0, hdl⟩ := hd d (by simp)
    simp only [descs_bytes, List.length_append] at hm hlen
    have hmd := agrees_left _ _ _ _ hm
    have m0 : mem s.p_desc = d.length := by
      have := hmd 0 (by omega); rw [Nat.add_zero] at this; rw [this, hd0]
    have m1 : bDescriptorType mem s.p_desc = d.getD 1 0 := hmd 1 (by omega)
    have hlt : s.len_parsed < max_len := by omega
    have hfuel : (d :: rest).length + k = (rest.length + k) + 1 := by
      simp only [List.length_cons]; omega
    rw [hfuel]
    cases hr : open_step mem s with
    | mk ok s1 =>
      cases ok with
      | false => exact Or.inl ⟨s1, open_loop_fail mem max_len _ s s1 hlt hr⟩
      | true =>
        rw [open_loop_succ mem max_len _ s s1 hlt hr]
        obtain ⟨hp1, hl1, hc⟩ := open_step_true mem s s1 hr
        rw [m0] at hp1 hl1
        rw [Nat.mod_eq_of_lt (by omega)] at hl1
        rw [m1] at hc
        have hb1 : (if d.getD 1 0 = TUSB_DESC_ENDPOINT then true
            else if d.getD 1 0 = TUSB_DESC_CS_ENDPOINT then false else b) = false →
            s1.prev_ep_addr = 0 := by
          rcases hc with ⟨ht, hp, _⟩ | ⟨_, _, hp, _⟩ | ⟨ht, _⟩
          · rw [ht]
            simp only [TUSB_DESC_CS_INTERFACE, TUSB_DESC_ENDPOINT, TUSB_DESC_CS_ENDPOINT,
              Nat.reduceEqDiff, if_false]
            intro hbf
            rw [hp]
            exact hb hbf
          · exact fun _ => hp
          · rw [ht]
            simp only [if_true]
            intro hbf
            cases hbf
        rcases open_loop_walk mem max_len hmax rest k s1 _
            (by rw [hp1]; exact agrees_right _ _ _ _ hm)
            (fun d' h' => hd d' (by simp [h'])) (by omega) hb1 with ⟨s', h'⟩ | ⟨s', h', e1, e2, e3⟩
        · exact Or.inl ⟨s', h'⟩
        · refine Or.inr ⟨s', h', ?_, ?_, ?_⟩
          · simp only [descs_bytes, List.length_append]; omega
          · simp only [descs_bytes, List.length_append]; omega
          · simpa only [endpoint_pending] using e3

/-- C11 (amended). For every descriptor block in which, after the interface descriptor
that `midih_open` settles on, a class-specific endpoint descriptor lies before `max_len`
with no standard endpoint descriptor waiting for it (it comes first, or follows another
class-specific endpoint descriptor, with or without class-specific interface
descriptors in between), `midih_open` returns `false`. -/
theorem cs_endpoint_unpaired_rejected (mem : Nat → Nat) (usbh_edpt_open : Nat → Bool)
    (fuel : Nat) (p : midih_interface_t) (dev_addr max_len q l : Nat) (itf : List Nat)
    (descs : List (List Nat)) (cs : List Nat)
    (hstart : open_start mem max_len fuel q l)
    (hmem : agrees mem q (itf ++ (descs_bytes descs ++ cs)))
    (hitf : itf.getD 0 0 = itf.length ∧ 1 ≤ itf.length)
    (hdescs : ∀ d ∈ descs, d.getD 0 0 = d.length ∧ 2 ≤ d.length)
    (hcs : 2 ≤ cs.length ∧ cs.getD 1 0 = TUSB_DESC_CS_ENDPOINT)
    (hpend : endpoint_pending false descs = false)
    (hlen : l + (itf ++ descs_bytes descs).length < max_len) (hmax : max_len < 65536)
    (hfuel : descs.length + 1 ≤ fuel) :
    ∃ p', midih_open mem usbh_edpt_open fuel p dev_addr max_len = some (false, p') := by
  by_cases hclass : bInterfaceClass mem 0 = TUSB_CLASS_AUDIO
  swap
  · have h1 : TUSB_CLASS_AUDIO ≠ bInterfaceClass mem 0 := fun e => hclass e.symm
    exact ⟨p, by simp only [midih_open, if_pos h1]⟩
  rw [midih_open_from mem usbh_edpt_open fuel p dev_addr max_len q l hclass hstart]
  by_cases hc : bInterfaceClass mem q ≠ TUSB_CLASS_AUDIO
      ∨ bInterfaceSubClass mem q ≠ AUDIO_SUBCLASS_MIDI_STREAMING
      ∨ ¬ open_first_ok mem (tu_desc_next mem q)
  · exact ⟨p, by rw [if_pos hc]⟩
  rw [if_neg hc]
  simp only [List.length_append] at hlen
  have m0 : mem q = itf.length := by
    have := agrees_left _ _ _ _ hmem 0 (by omega)
    rw [Nat.add_zero] at this; rw [this, hitf.1]
  have hrest := agrees_right _ _ _ _ hmem
  have ep : (open_entry mem p q l).p_desc = q + itf.length := by
    simp only [open_entry, tu_desc_next, bLength, m0]
  have el : (open_entry mem p q l).len_parsed = l + itf.length := by
    simp only [open_entry, bLength, m0]
    exact Nat.mod_eq_of_lt (by omega)
  obtain ⟨k, rfl⟩ : ∃ k, fuel = descs.length + (k + 1) := ⟨fuel - descs.length - 1, by omega⟩
  have hfail : ∀ s', open_loop mem max_len (descs.length + (k + 1)) (open_entry mem p q l)
      = some (false, s') → ∃ p', open_return usbh_edpt_open dev_addr
        (open_loop mem max_len (descs.length + (k + 1)) (open_entry mem p q l))
          = some (false, p') := by
    intro s' h
    rw [h]
    exact ⟨s'.midi, rfl⟩
  rcases open_loop_walk mem max_len hmax descs (k + 1) (open_entry mem p q l) false
      (by rw [ep]; exact agrees_left _ _ _ _ hrest) hdescs (by rw [el]; omega)
      (fun _ => rfl) with ⟨s', h'⟩ | ⟨s', h', e1, e2, e3⟩
  · exact hfail s' h'
  · apply hfail s'
    rw [h']
    have hcsm := agrees_right _ _ _ _ hrest
    have ht : bDescriptorType mem s'.p_desc = TUSB_DESC_CS_ENDPOINT := by
      rw [e1, ep]
      have := hcsm 1 (by omega)
      rw [← hcs.2, ← this]
      rfl
    exact open_loop_fail mem max_len k s' s' (by rw [e2, el]; omega)
      (open_step_no_endpoint mem s' ht (e3 hpend))

theorem cs_endpoint_unpaired_rejected_witness :
    endpoint_pending false [sample_header, [9, 5, 0x01, 2, 0x40, 0, 0, 0, 0],
      [5, 0x25, 1, 1, 1]] = false ∧
    ∃ p', midih_open (mem_of block_cs_endpoint_twice) (fun _ => true) 10 midih_init 1
      block_cs_endpoint_twice.length = some (false, p') :=
  ⟨by decide,
    cs_endpoint_unpaired_rejected (mem_of block_cs_endpoint_twice) (fun _ => true) 10
      midih_init 1 block_cs_endpoint_twice.length 0 0 sample_itf
      [sample_header, [9, 5, 0x01, 2, 0x40, 0, 0, 0, 0], [5, 0x25, 1, 1, 1]]
      [5, 0x25, 1, 1, 2]
      (Or.inl ⟨by decide, rfl, rfl⟩) (fun i _ => by rw [Nat.zero_add]; rfl) (by decide)
      (by decide) (by decide) (by decide) (by decide) (by decide) (by decide)⟩

/-- C11 as stated fails: where a jack descriptor stands between the OUT endpoint
descriptor and its class-specific endpoint descriptor, `midih_open` returns `true` and
records the cable count for the OUT endpoint. -/
theorem open_accepts_jack_between :
    midih_open (mem_of block_jack_between) (fun _ => true) 10 midih_init 1
        block_jack_between.length
      = some (true, { midih_init with
                      dev_addr := 1, itf_num := 1, ep_out := 0x01, ep_out_max := 64,
                      num_cables_tx := 1 }) := by
  decide

/-! ## Polling and flushing -/

/-- C13 fails for a device in a slot other than the first: with every endpoint idle,
`tuh_midi_read_poll` for the device at address 2 submits the inbound transfer on that
session's input endpoint, but with the transfer buffer of slot 0 and the length
`ep_in_max` of slot 0 (here 0, not the 64 of the session of the device). -/
theorem read_poll_uses_first_slot :
    tuh_midi_read_poll usbh_idle [midih_init, session_attached 2] 2
      = some (true, [usbh_call.xfer 2 0x81 (xfer_buffer.epin_buf 0) 0]) ∧
    usbh_call.xfer 2 0x81 (xfer_buffer.epin_buf 0) 0
      ≠ usbh_call.xfer 2 0x81 (xfer_buffer.epin_buf 1) (session_attached 2).ep_in_max := by
  decide

theorem take_min_length (n : Nat) (l : List Nat) : l.take (min l.length n) = l.take n := by
  by_cases h : l.length ≤ n
  · rw [Nat.min_eq_left h, List.take_of_length_le h, List.take_of_length_le (Nat.le_refl _)]
  · rw [Nat.min_eq_right (by omega)]

theorem drop_min_length (n : Nat) (l : List Nat) : l.drop (min l.length n) = l.drop n := by
  by_cases h : l.length ≤ n
  · rw [Nat.min_eq_left h, List.drop_of_length_le h, List.drop_of_length_le (Nat.le_refl _)]
  · rw [Nat.min_eq_right (by omega)]

/-- C14 (amended). `tuh_midi_stream_flush` returns 0, submits nothing and leaves the
queue as it is when the outgoing queue is empty, when the output endpoint is busy, when
a control endpoint is busy, or when the session has input cables and the input endpoint
is busy. Otherwise, when the queue is non-empty, all these endpoints are idle, the
output endpoint can be claimed, `ep_out_max` is not 0 (at most 65535) and the
transport accepts the transfer, it removes the first `min (queued bytes) ep_out_max`
bytes from the outgoing queue, submits exactly those bytes as one transfer on the
output endpoint and returns that count. -/
theorem stream_flush_outcome (usbh : usbh_t) (dev_addr : Nat) (p : midih_interface_t) :
    ((tu_fifo_count p.tx_ff = 0 ∨ usbh.usbh_edpt_busy p.dev_addr p.ep_out = true
        ∨ usbh.usbh_edpt_busy dev_addr 0 = true ∨ usbh.usbh_edpt_busy dev_addr 0x80 = true
        ∨ (p.num_cables_rx > 0 ∧ usbh.usbh_edpt_busy dev_addr p.ep_in = true)) →
      tuh_midi_stream_flush usbh dev_addr p = (0, p, [])) ∧
    (tu_fifo_count p.tx_ff ≠ 0 → usbh.usbh_edpt_busy p.dev_addr p.ep_out = false →
      usbh.usbh_edpt_busy dev_addr 0 = false → usbh.usbh_edpt_busy dev_addr 0x80 = false →
      (p.num_cables_rx > 0 → usbh.usbh_edpt_busy dev_addr p.ep_in = false) →
      usbh.usbh_edpt_claim dev_addr p.ep_out = true →
      0 < p.ep_out_max → p.ep_out_max < 65536 →
      usbh.usbh_edpt_xfer dev_addr p.ep_out = true →
      tuh_midi_stream_flush usbh dev_addr p =
        (min (tu_fifo_count p.tx_ff) p.ep_out_max,
          { p with tx_ff := { p.tx_ff with
              buf := p.tx_ff.buf.drop (min (tu_fifo_count p.tx_ff) p.ep_out_max) } },
          [usbh_call.xfer dev_addr p.ep_out
            (xfer_buffer.epout_buf
              (p.tx_ff.buf.take (min (tu_fifo_count p.tx_ff) p.ep_out_max)))
            (min (tu_fifo_count p.tx_ff) p.ep_out_max)])) := by
  constructor
  · intro h
    unfold tuh_midi_stream_flush
    rcases h with h | h | h | h | ⟨h1, h2⟩
    · by_cases hc : ((!usbh.usbh_edpt_busy dev_addr 0 && !usbh.usbh_edpt_busy dev_addr 0x80)
          && (if p.num_cables_rx > 0 then !usbh.usbh_edpt_busy dev_addr p.ep_in else true)
          && !usbh.usbh_edpt_busy p.dev_addr p.ep_out) = true
      · simp only [hc, if_true, write_flush, h]
      · simp only [hc, Bool.false_eq_true, if_false]
    · simp only [h, Bool.not_true, Bool.and_false, Bool.false_eq_true, if_false]
    · simp only [h, Bool.not_true, Bool.false_and, Bool.false_eq_true, if_false]
    · simp only [h, Bool.not_true, Bool.and_false, Bool.false_and, Bool.false_eq_true,
        if_false]
    · simp only [h1, h2, if_true, Bool.not_true, Bool.and_false, Bool.false_and,
        Bool.false_eq_true, if_false]
  · intro hq hout hc0 hc80 hin hclaim hmax hmax16 hxfer
    have hin' : (if p.num_cables_rx > 0 then !usbh.usbh_edpt_busy dev_addr p.ep_in
        else true) = true := by
      by_cases hrx : p.num_cables_rx > 0
      · rw [if_pos hrx, hin hrx]; rfl
      · rw [if_neg hrx]
    have hcount : (List.take p.ep_out_max p.tx_ff.buf).length % 65536
        = min (tu_fifo_count p.tx_ff) p.ep_out_max := by
      unfold tu_fifo_count
      rw [List.length_take, Nat.min_comm]
      exact Nat.mod_eq_of_lt (by omega)
    have hne : min (tu_fifo_count p.tx_ff) p.ep_out_max ≠ 0 := by
      unfold tu_fifo_count at hq ⊢
      omega
    unfold tu_fifo_count at hq
    simp only [tuh_midi_stream_flush, hout, hc0, hc80, hin', Bool.not_false, Bool.and_self,
      if_true, write_flush, tu_fifo_count, hq, if_false, hclaim, not_true_eq_false,
      tu_fifo_read_n, hxfer]
    unfold tu_fifo_count at hcount hne
    rw [hcount]
    simp only [ne_eq, hne, not_false_eq_true, if_true]
    rw [take_min_length, drop_min_length]

theorem stream_flush_outcome_witness :
    tuh_midi_stream_flush usbh_idle 1
        { session_attached 1 with tx_ff := ⟨64, [0x09, 0x90, 60, 100]⟩ }
      = (4, { session_attached 1 with tx_ff := ⟨64, []⟩ },
          [usbh_call.xfer 1 0x01 (xfer_buffer.epout_buf [0x09, 0x90, 60, 100]) 4]) :=
  (stream_flush_outcome usbh_idle 1
    { session_attached 1 with tx_ff := ⟨64, [0x09, 0x90, 60, 100]⟩ }).2
    (by decide) rfl rfl rfl (fun _ => rfl) rfl (by decide) (by decide) rfl

/-- C14 as stated fails: with a non-empty outgoing queue and a free output endpoint,
`tuh_midi_stream_flush` returns 0, submits nothing and removes nothing while the control
endpoint is busy. -/
theorem stream_flush_waits_for_control :
    tu_fifo_count
      ({ session_attached 1 with tx_ff := ⟨64, [0x09, 0x90, 60, 100]⟩ } : midih_interface_t).tx_ff
      = 4 ∧
    usbh_control_busy.usbh_edpt_busy 1 0x01 = false ∧
    usbh_control_busy.usbh_edpt_claim 1 0x01 = true ∧
    tuh_midi_stream_flush usbh_control_busy 1
        { session_attached 1 with tx_ff := ⟨64, [0x09, 0x90, 60, 100]⟩ }
      = (0, { session_attached 1 with tx_ff := ⟨64, [0x09, 0x90, 60, 100]⟩ }, []) := by
  decide

/-! ## Invalid device addresses -/

theorem get_midi_host_zero (n : Nat) : get_midi_host n 0 = none := by
  simp [get_midi_host]

theorem get_midi_host_above (n k : Nat) : get_midi_host n (n + 1 + k) = none := by
  have h : ¬ (n + 1 + k > 0 ∧ n + 1 + k ≤ n) := by omega
  simp only [get_midi_host, h, if_false]

/-- C15 fails: for the device address 0 and for every device address above the number
of sessions, `get_midi_host` returns the null pointer, and `tuh_midi_stream_write`,
`tuh_midi_stream_read` (called with a non-zero capacity), `tuh_midi_stream_flush`,
`tuh_midi_read_poll`, `tuh_midi_configured` and the two cable-count queries dereference
it, where the claim has them return 0 or `false`. -/
theorem invalid_handle_dereferences_null (usbh : usbh_t) (hosts : List midih_interface_t)
    (k cable_num rt2 rt3 sysex bufsize : Nat) (buffer : List Nat) :
    (tuh_midi_stream_write_dev hosts 0 cable_num rt2 rt3 buffer = none ∧
      tuh_midi_stream_read_dev hosts sysex 0 (bufsize + 1) = none ∧
      tuh_midi_stream_flush_dev usbh hosts 0 = none ∧
      tuh_midi_read_poll usbh hosts 0 = none ∧
      tuh_midi_configured hosts 0 = none ∧
      tuh_midih_get_num_tx_cables hosts 0 = none ∧
      tuh_midih_get_num_rx_cables hosts 0 = none) ∧
    (tuh_midi_stream_write_dev hosts (hosts.length + 1 + k) cable_num rt2 rt3 buffer = none ∧
      tuh_midi_stream_read_dev hosts sysex (hosts.length + 1 + k) (bufsize + 1) = none ∧
      tuh_midi_stream_flush_dev usbh hosts (hosts.length + 1 + k) = none ∧
      tuh_midi_read_poll usbh hosts (hosts.length + 1 + k) = none ∧
      tuh_midi_configured hosts (hosts.length + 1 + k) = none ∧
      tuh_midih_get_num_tx_cables hosts (hosts.length + 1 + k) = none ∧
      tuh_midih_get_num_rx_cables hosts (hosts.length + 1 + k) = none) := by
  have hb : ¬ (bufsize + 1 = 0) := by omega
  constructor
  · simp only [tuh_midi_stream_write_dev, tuh_midi_stream_read_dev, tuh_midi_stream_flush_dev,
      tuh_midi_read_poll, tuh_midi_configured, tuh_midih_get_num_tx_cables,
      tuh_midih_get_num_rx_cables, get_midi_host_zero, Option.map_none', hb, if_false,
      and_self]
  · simp only [tuh_midi_stream_write_dev, tuh_midi_stream_read_dev, tuh_midi_stream_flush_dev,
      tuh_midi_read_poll, tuh_midi_configured, tuh_midih_get_num_tx_cables,
      tuh_midih_get_num_rx_cables, get_midi_host_above, Option.map_none', hb, if_false,
      and_self]

/-! ## Clearing a session -/

/-- C16 fails where a device is detached in the middle of a SysEx message. The read of
a SysEx-start packet on cable 0 sets bit 0 of the static `cable_sysex_in_progress`;
`midih_close` then resets every field of the session (endpoint addresses, packet sizes,
interface number and cable counts 0, device address 255, not configured, empty queues,
zeroed codec buffers), and the bit stays set: after a new attach at the same slot, a
packet of three data bytes decodes to these three bytes, whereas a fresh session
decodes it to nothing. -/
theorem close_keeps_sysex_indicator :
    (tuh_midi_stream_read
        { session_attached 1 with rx_ff := ⟨64, [0x04, 0xF0, 1, 2]⟩ } 0 64
      ).cable_sysex_in_progress = 1 ∧
    midih_close (tuh_midi_stream_read
        { session_attached 1 with rx_ff := ⟨64, [0x04, 0xF0, 1, 2]⟩ } 0 64).midi
      = { midih_init with dev_addr := 255 } ∧
    midih_open (mem_of sample_block) (fun _ => true) 10
        (midih_close (tuh_midi_stream_read
          { session_attached 1 with rx_ff := ⟨64, [0x04, 0xF0, 1, 2]⟩ } 0 64).midi)
        1 sample_block.length
      = some (true, { midih_init with
                      dev_addr := 1, itf_num := 1, ep_in := 0x81, ep_out := 0x01,
                      ep_in_max := 64, ep_out_max := 64,
                      num_cables_rx := 2, num_cables_tx := 1 }) ∧
    (tuh_midi_stream_read
        { midih_init with
          dev_addr := 1, itf_num := 1, ep_in := 0x81, ep_out := 0x01,
          ep_in_max := 64, ep_out_max := 64, num_cables_rx := 2, num_cables_tx := 1,
          rx_ff := ⟨64, [0x04, 5, 6, 7]⟩ }
        (tuh_midi_stream_read
          { session_attached 1 with rx_ff := ⟨64, [0x04, 0xF0, 1, 2]⟩ } 0 64
        ).cable_sysex_in_progress 64).p_buffer = [5, 6, 7] ∧
    (tuh_midi_stream_read
        { midih_init with
          dev_addr := 1, itf_num := 1, ep_in := 0x81, ep_out := 0x01,
          ep_in_max := 64, ep_out_max := 64, num_cables_rx := 2, num_cables_tx := 1,
          rx_ff := ⟨64, [0x04, 5, 6, 7]⟩ }
        0 64).p_buffer = [] := by
  decide

/-! ## The SysEx-in-progress indicator -/

theorem cable_mask_eq (c : Nat) (hc : c < 16) : (1 <<< c) % 65536 = 2 ^ c := by
  rw [Nat.one_shiftLeft]
  exact Nat.mod_eq_of_lt
    (by have := Nat.pow_lt_pow_right (by decide : 1 < 2) hc; simpa using this)

theorem cable_of_lt (b0 : Nat) : cable_of b0 < 16 := by
  unfold cable_of
  have : (b0 >>> 4) &&& 0x0f = (b0 >>> 4) % 16 := Nat.and_pow_two_sub_one_eq_mod _ 4
  rw [this]
  exact Nat.mod_lt _ (by decide)

theorem mask_test (x c : Nat) : x &&& 2 ^ c ≠ 0 ↔ x.testBit c = true := by
  rw [Nat.and_two_pow]
  have hp : 0 < 2 ^ c := Nat.two_pow_pos c
  cases h : x.testBit c
  · simp
  · simp only [Bool.toNat_true, Nat.one_mul, ne_eq, iff_true]
    omega

theorem bit_after_set (x c j : Nat) : (x ||| 2 ^ c).testBit j = (x.testBit j || decide (c = j)) := by
  rw [Nat.testBit_or, Nat.testBit_two_pow]

theorem bit_after_clear (x c j : Nat) (hj : j < 16) :
    (sysex_clear x (2 ^ c)).testBit j = (x.testBit j && !decide (c = j)) := by
  unfold sysex_clear
  rw [Nat.testBit_and, Nat.testBit_xor, Nat.testBit_two_pow,
    show (0xFFFF : Nat) = 2 ^ 16 - 1 from rfl, Nat.testBit_two_pow_sub_one]
  simp only [hj, decide_True]
  cases decide (c = j) <;> simp

theorem sysex_scan_state (m b2 b3 s : Nat) :
    (sysex_scan_step m b3 (sysex_scan_step m b2 (1, s, false))).2.1
      = if b2 = 0xF7 ∨ b3 = 0xF7 then sysex_clear s m else s := by
  unfold sysex_scan_step
  simp only [MIDI_MAX_DATA_VAL, MIDI_STATUS_SYSEX_END]
  split_ifs <;> first | rfl | (exfalso; omega) | simp_all

/-- The value of `cable_sysex_in_progress` after the loop body has handled one packet. -/
theorem packet_state (n b0 s b2 b3 x : Nat) :
    (packet_content n (b0, s, b2, b3) x).2 =
      if cable_of b0 < n then
        if s ≤ 0x7F ∨ s = 0xF0 then
          if (if s = 0xF0 then x ||| (1 <<< cable_of b0) % 65536 else x)
              &&& (1 <<< cable_of b0) % 65536 ≠ 0 then
            if b2 = 0xF7 ∨ b3 = 0xF7 then
              sysex_clear (if s = 0xF0 then x ||| (1 <<< cable_of b0) % 65536 else x)
                ((1 <<< cable_of b0) % 65536)
            else (if s = 0xF0 then x ||| (1 <<< cable_of b0) % 65536 else x)
          else (if s = 0xF0 then x ||| (1 <<< cable_of b0) % 65536 else x)
        else if s < 0xF0 then sysex_clear x ((1 <<< cable_of b0) % 65536)
        else x
      else x := by
  have hstate : (packet_content n (b0, s, b2, b3) x).2
      = (read_packet n ⟨b0, s, b2, b3, 0, 0⟩ (cable_of b0) x).2 := rfl
  rw [hstate]
  unfold read_packet
  simp only [MIDI_MAX_DATA_VAL, MIDI_STATUS_SYSEX_START, MIDI_STATUS_SYSREAL_TIMING_CLOCK,
    sysex_scan_state]
  split_ifs <;> rfl

/-- The indicator of cable `c` after one packet: set when the packet starts a SysEx
message on `c` or the indicator was set, unless the packet ends the message. -/
theorem packet_bit (n c : Nat) (hc : c < n) (hc16 : c < 16) (pk : packet) (x : Nat)
    (hcommon : cable_of pk.1 = c → ¬ (0xF1 ≤ pk.2.1 ∧ pk.2.1 ≤ 0xF7)) :
    sysex_bit (packet_content n pk x).2 c = true ↔
      (sysex_starts c pk ∧ ¬ sysex_stops c pk) ∨
        (sysex_bit x c = true ∧ ¬ sysex_stops c pk) := by
  obtain ⟨b0, s, b2, b3⟩ := pk
  simp only at hcommon
  rw [packet_state, cable_mask_eq _ (cable_of_lt b0)]
  unfold sysex_bit sysex_starts sysex_stops
  simp only []
  by_cases hcab : cable_of b0 = c
  · have hcm := hcommon hcab
    rw [hcab]
    simp only [hc, if_true, true_and]
    by_cases hs : s = 0xF0
    · subst hs
      have hset : (x ||| 2 ^ c) &&& 2 ^ c ≠ 0 := by
        rw [mask_test, bit_after_set]; simp
      simp only [or_true, if_true, hset, ne_eq, not_false_eq_true]
      by_cases h7 : b2 = 0xF7 ∨ b3 = 0xF7
      · simp only [h7, if_true, bit_after_clear _ _ _ hc16]
        simp
      · simp only [h7, if_false, bit_after_set]
        simp
    · by_cases hd : s ≤ 0x7F
      · simp only [hd, true_or, if_true, hs, if_false, or_false]
        by_cases hb : x.testBit c = true
        · have hm : x &&& 2 ^ c ≠ 0 := (mask_test x c).mpr hb
          simp only [hm, ne_eq, not_false_eq_true, if_true]
          by_cases h7 : b2 = 0xF7 ∨ b3 = 0xF7
          · simp only [h7, if_true, bit_after_clear _ _ _ hc16]
            simp
          · simp only [h7, if_false, hb]
            have : ¬ (0x80 ≤ s ∧ s < 0xF0) := by omega
            simp [this]
        · have hm : ¬ (x &&& 2 ^ c ≠ 0) := fun h => hb ((mask_test x c).mp h)
          simp only [hm, if_false, hb]
          simp
      · have h1 : ¬ (s ≤ 0x7F ∨ s = 0xF0) := by omega
        simp only [h1, hd, if_false, hs, false_and, false_or]
        by_cases hv : s < 0xF0
        · simp only [hv, if_true, bit_after_clear _ _ _ hc16]
          have : 0x80 ≤ s := by omega
          simp [this]
        · simp only [hv, if_false, and_false, or_false, not_false_eq_true, and_true]
  · have hne : ¬ (c = cable_of b0) := fun h => hcab h.symm
    have hkeep : ∀ y, (sysex_clear y (2 ^ cable_of b0)).testBit c = y.testBit c := by
      intro y
      rw [bit_after_clear _ _ _ hc16]
      simp [hcab]
    have hkeep' : (x ||| 2 ^ cable_of b0).testBit c = x.testBit c := by
      rw [bit_after_set]
      simp [hcab]
    simp only [hcab, false_and, not_false_eq_true, and_true, false_or]
    split_ifs <;> simp only [hkeep, hkeep']

theorem sysex_pending_nil (c : Nat) : ¬ sysex_pending c [] := by
  rintro ⟨pre, pk, post, he, _⟩
  cases pre <;> cases he

theorem sysex_pending_cons (c : Nat) (pk : packet) (rest : List packet) :
    sysex_pending c (pk :: rest) ↔
      (sysex_starts c pk ∧ ¬ sysex_stops c pk ∧ ∀ q ∈ rest, ¬ sysex_stops c q)
        ∨ sysex_pending c rest := by
  constructor
  · rintro ⟨pre, p, post, he, hs, hn, ha⟩
    cases pre with
    | nil =>
      simp only [List.nil_append, List.cons.injEq] at he
      obtain ⟨rfl, rfl⟩ := he
      exact Or.inl ⟨hs, hn, ha⟩
    | cons a pre' =>
      simp only [List.cons_append, List.cons.injEq] at he
      exact Or.inr ⟨pre', p, post, he.2, hs, hn, ha⟩
  · rintro (⟨hs, hn, ha⟩ | ⟨pre, p, post, he, hs, hn, ha⟩)
    · exact ⟨[], pk, rest, rfl, hs, hn, ha⟩
    · exact ⟨pk :: pre, p, post, by rw [he]; rfl, hs, hn, ha⟩

/-- The indicator of cable `c` after a run of packets, from any value of the static
variable. -/
theorem indicator_after (n c : Nat) (hc : c < n) (hc16 : c < 16) :
    ∀ (pks : List packet) (x : Nat),
      (∀ pk ∈ pks, cable_of pk.1 = c → ¬ (0xF1 ≤ pk.2.1 ∧ pk.2.1 ≤ 0xF7)) →
      (sysex_bit (packets_content n pks x).2 c = true ↔
        sysex_pending c pks ∨ (sysex_bit x c = true ∧ ∀ q ∈ pks, ¬ sysex_stops c q))
  | [], x, _ => by
    simp only [packets_content, List.not_mem_nil, false_imp_iff, implies_true, and_true]
    exact ⟨fun h => Or.inr h, fun h => h.resolve_left (sysex_pending_nil c)⟩
  | pk :: rest, x, h => by
    have ih := indicator_after n c hc hc16 rest (packet_content n pk x).2
      (fun q hq => h q (List.mem_cons_of_mem _ hq))
    have hb := packet_bit n c hc hc16 pk x (h pk (List.mem_cons_self _ _))
    simp only [packets_content]
    rw [ih, hb, sysex_pending_cons]
    simp only [List.forall_mem_cons]
    tauto

/-- The indicator of cable 0 along the packets of an encoded SysEx message whose closing
0xF7 is a trailing byte of the last packet. -/
theorem sysex_message_bit (n : Nat) (h0 : 0 < n) :
    ∀ (ds : List Nat), (∀ d ∈ ds, d ≤ 0x7F) → ∀ a x : Nat,
      (a = 0xF0 ∨ (a ≤ 0x7F ∧ sysex_bit x 0 = true)) → (ds.length + 1) % 3 ≠ 0 →
      (∀ k, 0 < k → k < (sysex_packets (a :: ds)).length →
        sysex_bit (packets_content n ((sysex_packets (a :: ds)).take k) x).2 0 = true) ∧
      sysex_bit (packets_content n (sysex_packets (a :: ds)) x).2 0 = false
  | [], _, a, x, ha, _ => by
    have hb := packet_bit n 0 h0 (by decide) (6, a, 0xF7, 0) x (fun _ => by simp only; omega)
    have hstop : sysex_stops 0 (6, a, 0xF7, 0) :=
      ⟨show cable_of 6 = 0 by decide, Or.inl ⟨by simp only; omega, Or.inl rfl⟩⟩
    refine ⟨fun k h1 h2 => ?_, ?_⟩
    · simp only [sysex_packets, List.length_singleton] at h2; omega
    · simp only [sysex_packets, packets_content]
      cases hv : sysex_bit (packet_content n (6, a, 0xF7, 0) x).2 0 with
      | false => rfl
      | true =>
        rcases hb.mp hv with ⟨_, h⟩ | ⟨_, h⟩ <;> exact absurd hstop h
  | [b], _, a, x, ha, _ => by
    have hb := packet_bit n 0 h0 (by decide) (7, a, b, 0xF7) x (fun _ => by simp only; omega)
    have hstop : sysex_stops 0 (7, a, b, 0xF7) :=
      ⟨show cable_of 7 = 0 by decide, Or.inl ⟨by simp only; omega, Or.inr rfl⟩⟩
    refine ⟨fun k h1 h2 => ?_, ?_⟩
    · simp only [sysex_packets, List.length_singleton] at h2; omega
    · simp only [sysex_packets, packets_content]
      cases hv : sysex_bit (packet_content n (7, a, b, 0xF7) x).2 0 with
      | false => rfl
      | true =>
        rcases hb.mp hv with ⟨_, h⟩ | ⟨_, h⟩ <;> exact absurd hstop h
  | [_, _], _, _, _, _, hl => by
    simp only [List.length_cons, List.length_nil] at hl
    omega
  | b :: b' :: d :: ds, h, a, x, ha, hl => by
    have hbb : b ≤ 0x7F := h b (by simp)
    have hbb' : b' ≤ 0x7F := h b' (by simp)
    have hb := packet_bit n 0 h0 (by decide) (4, a, b, b') x (fun _ => by simp only; omega)
    have hnostop : ¬ sysex_stops 0 (4, a, b, b') := by
      rintro ⟨_, ⟨_, h7⟩ | h8⟩
      · simp only at h7; omega
      · simp only at h8; omega
    have hx1 : sysex_bit (packet_content n (4, a, b, b') x).2 0 = true := by
      rw [hb]
      rcases ha with ha | ha
      · exact Or.inl ⟨⟨show cable_of 4 = 0 by decide, ha⟩, hnostop⟩
      · exact Or.inr ⟨ha.2, hnostop⟩
    have ih := sysex_message_bit n h0 ds (fun y hy => h y (by simp [hy])) d
      (packet_content n (4, a, b, b') x).2 (Or.inr ⟨h d (by simp), hx1⟩)
      (by simp only [List.length_cons] at hl; omega)
    refine ⟨fun k h1 h2 => ?_, ?_⟩
    · obtain ⟨k', rfl⟩ : ∃ k', k = k' + 1 := ⟨k - 1, by omega⟩
      simp only [sysex_packets, List.take_succ_cons, packets_content]
      cases k' with
      | zero => simpa only [List.take_zero, packets_content] using hx1
      | succ j =>
        apply ih.1 (j + 1) (by omega)
        simp only [sysex_packets, List.length_cons] at h2
        omega
    · simp only [sysex_packets, packets_content]
      exact ih.2

/-- C17 (amended). For a cable `c` below `num_cables_rx` (and below 16) whose indicator
is clear at the start, and packets among which those of cable `c` carry no
system-common status (0xF1 .. 0xF7) as first MIDI byte: after the loop body of
`tuh_midi_stream_read` has processed the packets in order, within one call or over
several, the SysEx-in-progress bit of `c` is set if and only if a SysEx-start status
(0xF0) has been seen on `c` and since then neither 0xF7 as a trailing payload byte of a
SysEx packet nor a channel-voice status has been seen on `c`. In particular, for every
encoded SysEx message whose closing 0xF7 is a trailing byte of its last packet, the bit
is set after every packet but the last and clear after the last; and a packet whose
status is a real-time byte (0xF8 and above) changes no bit. -/
theorem sysex_indicator_invariant (n c : Nat) (hc : c < n) (hc16 : c < 16) :
    (∀ (pks : List packet) (x : Nat), sysex_bit x c = false →
      (∀ pk ∈ pks, cable_of pk.1 = c → ¬ (0xF1 ≤ pk.2.1 ∧ pk.2.1 ≤ 0xF7)) →
      (sysex_bit (packets_content n pks x).2 c = true ↔ sysex_pending c pks)) ∧
    (∀ (p : midih_interface_t) (x bufsize a : Nat) (pk : packet) (pks : List packet)
      (rest : List Nat), p.num_cables_rx = n → sysex_bit x c = false →
      p.rx_ff.buf = packets_bytes (pk :: pks) ++ rest →
      (∀ b ∈ rest.head?, cable_of b ≠ a) → (∀ q ∈ pk :: pks, cable_of q.1 = a) →
      3 * pks.length < bufsize →
      (∀ q ∈ pk :: pks, cable_of q.1 = c → ¬ (0xF1 ≤ q.2.1 ∧ q.2.1 ≤ 0xF7)) →
      (sysex_bit (tuh_midi_stream_read p x bufsize).cable_sysex_in_progress c = true ↔
        sysex_pending c (pk :: pks))) ∧
    (∀ (ds : List Nat) (x : Nat), (∀ d ∈ ds, d ≤ 0x7F) → (ds.length + 1) % 3 ≠ 0 →
      (∀ k, 0 < k → k < (sysex_packets (0xF0 :: ds)).length →
        sysex_bit (packets_content n ((sysex_packets (0xF0 :: ds)).take k) x).2 0 = true) ∧
      sysex_bit (packets_content n (sysex_packets (0xF0 :: ds)) x).2 0 = false) ∧
    (∀ (pk : packet) (x : Nat), 0xF8 ≤ pk.2.1 → (packet_content n pk x).2 = x) := by
  have hA : ∀ (pks : List packet) (x : Nat), sysex_bit x c = false →
      (∀ pk ∈ pks, cable_of pk.1 = c → ¬ (0xF1 ≤ pk.2.1 ∧ pk.2.1 ≤ 0xF7)) →
      (sysex_bit (packets_content n pks x).2 c = true ↔ sysex_pending c pks) := by
    intro pks x hx hcommon
    rw [indicator_after n c hc hc16 pks x hcommon, hx]
    simp
  refine ⟨hA, ?_, ?_, ?_⟩
  · intro p x bufsize a pk pks rest hn hx hq hrest ha hcap hcommon
    rw [(read_run p x bufsize a pk pks rest hq hrest ha hcap).2.2.2.2, hn]
    exact hA (pk :: pks) x hx hcommon
  · intro ds x hds hl
    exact sysex_message_bit n (by omega) ds hds 0xF0 x (Or.inl rfl) hl
  · intro pk x hrt
    obtain ⟨b0, s, b2, b3⟩ := pk
    simp only at hrt
    rw [packet_state]
    have h1 : ¬ (s ≤ 0x7F ∨ s = 0xF0) := by omega
    have h2 : ¬ s < 0xF0 := by omega
    simp only [h1, h2, if_false, ite_self]

theorem sysex_indicator_invariant_witness :
    (sysex_bit (packets_content 1 [(0x04, 0xF0, 1, 2), (0x0F, 0xF8, 0, 0), (0x04, 3, 4, 5)] 0).2 0
        = true ↔
      sysex_pending 0 [(0x04, 0xF0, 1, 2), (0x0F, 0xF8, 0, 0), (0x04, 3, 4, 5)]) ∧
    sysex_bit (packets_content 1 [(0x04, 0xF0, 1, 2), (0x0F, 0xF8, 0, 0), (0x04, 3, 4, 5)] 0).2 0
      = true ∧
    sysex_bit (packets_content 1 (sysex_packets [0xF0, 1, 2, 3, 4]) 0).2 0 = false :=
  ⟨(sysex_indicator_invariant 1 0 (by decide) (by decide)).1
      [(0x04, 0xF0, 1, 2), (0x0F, 0xF8, 0, 0), (0x04, 3, 4, 5)] 0 rfl (by decide),
    by decide,
    ((sysex_indicator_invariant 1 0 (by decide) (by decide)).2.2.1 [1, 2, 3, 4] 0
      (by decide) (by decide)).2⟩

/-- C17 as stated fails. By the design of the decoder a packet with a channel-voice
status clears the bit of its cable: after a SysEx-start packet and a note-on packet on
cable 0 the bit is clear, with 0xF0 seen and no 0xF7 since. And a packet whose first
MIDI byte is 0xF7 leaves the bit as it is: after the two packets of the encoded message
F0 01 02 F7 the bit of cable 0 is still set. -/
theorem sysex_indicator_not_as_stated :
    sysex_bit (tuh_midi_stream_read
        (session_rx 1 [0x04, 0xF0, 1, 2, 0x09, 0x90, 60, 100]) 0 64).cable_sysex_in_progress 0
      = false ∧
    (tuh_midi_stream_write (session_tx 1) 0 0 0 [0xF0, 1, 2, 0xF7]).2.tx_ff.buf
      = [0x04, 0xF0, 1, 2, 0x05, 0xF7, 0, 0] ∧
    sysex_bit (tuh_midi_stream_read
        (session_rx 1 [0x04, 0xF0, 1, 2, 0x05, 0xF7, 0, 0]) 0 64).cable_sysex_in_progress 0
      = true := by
  decide

/-! ## The classification of a leading byte by the encoder -/

/-- The expected total the branch "New event packet" chooses for a byte below 0xF8 when
the encoder does not continue a SysEx message. -/
theorem new_event_total (c b : Nat) (st : midi_stream_t)
    (hb0 : st.b0 ≠ MIDI_CIN_SYSEX_START) (hb : b < 0xF8) :
    (write_new_event c b st).total =
      if (0x80 ≤ b ∧ b ≤ 0xBF) ∨ (0xE0 ≤ b ∧ b ≤ 0xEF) then 4
      else if 0xC0 ≤ b ∧ b ≤ 0xDF then 3
      else if b = 0xF0 ∨ b = 0xF2 then 4
      else if b = 0xF1 ∨ b = 0xF3 then 3
      else 2 := by
  unfold write_new_event
  simp only [shr4, MIDI_CIN_SYSEX_START, MIDI_STATUS_SYSEX_START, MIDI_STATUS_SYSEX_END,
    MIDI_STATUS_SYSCOM_TIME_CODE_QUARTER_FRAME, MIDI_STATUS_SYSCOM_SONG_SELECT,
    MIDI_STATUS_SYSCOM_SONG_POSITION_POINTER] at hb0 ⊢
  simp only [hb0, if_false]
  split_ifs <;> first | rfl | (exfalso; omega)

/-- C21 (amended). For an idle encoder that does not continue a SysEx message, the
expected total packet length chosen for a leading byte `b` below 0xF8 is: 4 when the
high nibble of `b` is 0x8 .. 0xB or 0xE; 3 when it is 0xC or 0xD; for system bytes, 4
for SysEx start (0xF0) and song position (0xF2), 3 for time code (0xF1) and song select
(0xF3), 2 for tune request (0xF6), SysEx end alone (0xF7) and any other system byte;
and 2 for any byte below 0x80. This is the total with which the loop body goes on to
its part "Send out packet". -/
theorem encoder_classification (c rt2 rt3 b : Nat) (st : midi_stream_t) (ff : tu_fifo_t)
    (hidle : st.index = 0) (hb0 : st.b0 ≠ MIDI_CIN_SYSEX_START) (hb : b < 0xF8) :
    write_body c rt2 rt3 b st ff = write_send_out (write_new_event c b st) ff ∧
    (write_new_event c b st).index = 2 ∧
    (((b >>> 4 ≥ 0x8 ∧ b >>> 4 ≤ 0xB) ∨ b >>> 4 = 0xE) → (write_new_event c b st).total = 4) ∧
    ((b >>> 4 = 0xC ∨ b >>> 4 = 0xD) → (write_new_event c b st).total = 3) ∧
    ((b = 0xF0 ∨ b = 0xF2) → (write_new_event c b st).total = 4) ∧
    ((b = 0xF1 ∨ b = 0xF3) → (write_new_event c b st).total = 3) ∧
    ((0xF4 ≤ b ∧ b ≤ 0xF7) → (write_new_event c b st).total = 2) ∧
    (b < 0x80 → (write_new_event c b st).total = 2) := by
  have ht := new_event_total c b st hb0 hb
  refine ⟨?_, ?_, ?_, ?_, ?_, ?_, ?_, ?_⟩
  · have h1 : ¬ (b ≥ MIDI_STATUS_SYSREAL_TIMING_CLOCK) := by
      unfold MIDI_STATUS_SYSREAL_TIMING_CLOCK; omega
    simp only [write_body, h1, if_false, hidle, if_true]
  · unfold write_new_event
    simp only []
    split_ifs <;> rfl
  · intro h
    rw [shr4] at h
    rw [ht, if_pos (by omega)]
  · intro h
    rw [shr4] at h
    rw [ht, if_neg (by omega), if_pos (by omega)]
  · intro h
    rw [ht, if_neg (by omega), if_neg (by omega), if_pos h]
  · intro h
    rw [ht, if_neg (by omega), if_neg (by omega), if_neg (by omega), if_pos h]
  · intro h
    rw [ht, if_neg (by omega), if_neg (by omega), if_neg (by omega), if_neg (by omega)]
  · intro h
    rw [ht, if_neg (by omega), if_neg (by omega), if_neg (by omega), if_neg (by omega)]

theorem encoder_classification_witness :
    (write_new_event 0 0xF2 midi_stream_t.zero).total = 4 ∧
    (write_new_event 0 0xF1 midi_stream_t.zero).total = 3 ∧
    (write_new_event 0 0xF6 midi_stream_t.zero).total = 2 :=
  ⟨(encoder_classification 0 0 0 0xF2 midi_stream_t.zero ⟨64, []⟩ rfl (by decide)
      (by decide)).2.2.2.2.1 (Or.inr rfl),
    (encoder_classification 0 0 0 0xF1 midi_stream_t.zero ⟨64, []⟩ rfl (by decide)
      (by decide)).2.2.2.2.2.1 (Or.inl rfl),
    (encoder_classification 0 0 0 0xF6 midi_stream_t.zero ⟨64, []⟩ rfl (by decide)
      (by decide)).2.2.2.2.2.2.1 (by decide)⟩

/-- C21 as stated fails for song position: the expected total chosen for the leading
byte 0xF2 is 4 (the status and two data bytes of the message), not 3, and the message
`F2 01 02` is queued as the one packet `03 F2 01 02`. -/
theorem song_position_total_is_4 :
    (write_new_event 0 0xF2 midi_stream_t.zero).total = 4 ∧
    (write_new_event 0 0xF2 midi_stream_t.zero).total ≠ 3 ∧
    (tuh_midi_stream_write (session_tx 1) 0 0 0 [0xF2, 1, 2]).2.tx_ff.buf
      = [0x03, 0xF2, 1, 2] := by
  decide

/-! ## The padding of a real-time packet -/

/-- C22 fails: the packet queued for the real-time byte 0xF8 is `05 F8` followed by the
two bytes `streamrt.buffer[2]` and `streamrt.buffer[3]`, which the code never writes;
whatever the stack holds there (`rt2`, `rt3`) is queued, for instance `AA 55`, where
the claim has 0 in both places. The message `F5`, sent through the part "Send out
packet", is padded with zeroes. -/
theorem realtime_padding_uninitialised (rt2 rt3 : Nat) :
    (tuh_midi_stream_write (session_tx 1) 0 rt2 rt3 [0xF8]).2.tx_ff.buf
      = [0x05, 0xF8, rt2, rt3] ∧
    (tuh_midi_stream_write (session_tx 1) 0 0xAA 0x55 [0xF8]).2.tx_ff.buf
      = [0x05, 0xF8, 0xAA, 0x55] ∧
    (tuh_midi_stream_write (session_tx 1) 0 0xAA 0x55 [0xF5]).2.tx_ff.buf
      = [0x05, 0xF5, 0, 0] := by
  refine ⟨?_, by decide, by decide⟩
  have h := write_realtime 0 rt2 rt3 0xF8 64 (by decide) (by decide)
  have hc : (0 : Nat) < (session_tx 1).num_cables_tx := by decide
  simp only [tuh_midi_stream_write, if_pos hc]
  show (write_loop 0 rt2 rt3 [0xF8] 0 midi_stream_t.zero ⟨64, []⟩).2.2.buf = _
  rw [h]
  rfl

/-! ## The decoder does not look at the code index -/

theorem differ_length : ∀ {q q' : List Nat}, differ_in_code_index q q' → q.length = q'.length
  | _, _, differ_in_code_index.nil => rfl
  | _, _, differ_in_code_index.short _ _ _ _ _ => rfl
  | _, _, differ_in_code_index.packet _ _ _ _ _ _ _ _ h => by
    simp only [List.length_cons, differ_length h]

theorem alike_cable (buf buf' : midi_stream_t) (h : buffer_alike buf buf') :
    (buf'.b0 >>> 4) &&& 0x0f = (buf.b0 >>> 4) &&& 0x0f := by
  rw [h.1]

theorem alike_read_packet (n : Nat) (buf buf' : midi_stream_t) (c sysex : Nat)
    (h : buffer_alike buf buf') : read_packet n buf' c sysex = read_packet n buf c sysex := by
  obtain ⟨_, h1, h2, h3⟩ := h
  unfold read_packet
  simp only [h1, h2, h3]

theorem read_loop_short (n bufsize a : Nat) (t : List Nat) (ht : t.length < 3)
    (buf : midi_stream_t) (cab sysex : Nat) (out : List Nat) (bb : Nat) :
    read_loop n bufsize (a :: t) buf cab sysex out bb =
      if bb < bufsize then
        if (a >>> 4) &&& 0xf = (buf.b0 >>> 4) &&& 0x0f then
          ⟨bb + (read_packet n buf ((buf.b0 >>> 4) &&& 0x0f) sysex).1,
            (buf.b0 >>> 4) &&& 0x0f,
            out ++ [buf.b1, buf.b2, buf.b3].take
              (read_packet n buf ((buf.b0 >>> 4) &&& 0x0f) sysex).1,
            [], buf.load (a :: t), (read_packet n buf ((buf.b0 >>> 4) &&& 0x0f) sysex).2⟩
        else
          ⟨bb + (read_packet n buf ((buf.b0 >>> 4) &&& 0x0f) sysex).1,
            (buf.b0 >>> 4) &&& 0x0f,
            out ++ [buf.b1, buf.b2, buf.b3].take
              (read_packet n buf ((buf.b0 >>> 4) &&& 0x0f) sysex).1,
            a :: t, buf, (read_packet n buf ((buf.b0 >>> 4) &&& 0x0f) sysex).2⟩
      else ⟨bb, cab, out, a :: t, buf, sysex⟩ := by
  match t, ht with
  | [], _ => rfl
  | [_], _ => rfl
  | [_, _], _ => rfl
  | _ :: _ :: _ :: _, h => simp only [List.length_cons] at h; omega

theorem alike_load_short (buf buf' : midi_stream_t) (a a' : Nat) (t : List Nat)
    (ht : t.length < 3) (h : buffer_alike buf buf') (ha : a >>> 4 = a' >>> 4) :
    buffer_alike (buf.load (a :: t)) (buf'.load (a' :: t)) := by
  obtain ⟨_, h1, h2, h3⟩ := h
  match t, ht with
  | [], _ => exact ⟨ha, h1, h2, h3⟩
  | [_], _ => exact ⟨ha, rfl, h2, h3⟩
  | [_, _], _ => exact ⟨ha, rfl, rfl, h3⟩
  | _ :: _ :: _ :: _, h => simp only [List.length_cons] at h; omega

/-- The loop of `tuh_midi_stream_read` on two queues that differ at most in code-index
nibbles, from packet buffers that do: the outcomes are alike. -/
theorem read_loop_alike (n bufsize : Nat) :
    ∀ {q q' : List Nat}, differ_in_code_index q q' →
      ∀ (buf buf' : midi_stream_t) (cab sysex : Nat) (out : List Nat) (bb : Nat),
        buffer_alike buf buf' →
        read_state_alike (read_loop n bufsize q buf cab sysex out bb)
          (read_loop n bufsize q' buf' cab sysex out bb)
  | _, _, differ_in_code_index.nil, buf, buf', cab, sysex, out, bb, hb => by
    rw [read_loop_nil, read_loop_nil, alike_cable buf buf' hb,
      alike_read_packet n buf buf' _ sysex hb, ← hb.2.1, ← hb.2.2.1, ← hb.2.2.2]
    by_cases hbb : bb < bufsize
    · simp only [hbb, if_true]
      exact ⟨rfl, rfl, rfl, rfl, differ_in_code_index.nil, hb⟩
    · simp only [hbb, if_false]
      exact ⟨rfl, rfl, rfl, rfl, differ_in_code_index.nil, hb⟩
  | _, _, differ_in_code_index.short a a' t ha ht, buf, buf', cab, sysex, out, bb, hb => by
    rw [read_loop_short n bufsize a t ht, read_loop_short n bufsize a' t ht,
      alike_cable buf buf' hb, alike_read_packet n buf buf' _ sysex hb,
      ← hb.2.1, ← hb.2.2.1, ← hb.2.2.2, ← ha]
    by_cases hbb : bb < bufsize
    · simp only [hbb, if_true]
      by_cases hc : (a >>> 4) &&& 0xf = (buf.b0 >>> 4) &&& 0x0f
      · simp only [hc, if_true]
        exact ⟨rfl, rfl, rfl, rfl, differ_in_code_index.nil,
          alike_load_short buf buf' a a' t ht hb ha⟩
      · simp only [hc, if_false]
        exact ⟨rfl, rfl, rfl, rfl, differ_in_code_index.short a a' t ha ht, hb⟩
    · simp only [hbb, if_false]
      exact ⟨rfl, rfl, rfl, rfl, differ_in_code_index.short a a' t ha ht, hb⟩
  | _, _, differ_in_code_index.packet a a' b c d q q' ha hq, buf, buf', cab, sysex, out, bb,
      hb => by
    rw [read_loop_cons4, read_loop_cons4, alike_cable buf buf' hb,
      alike_read_packet n buf buf' _ sysex hb, ← hb.2.1, ← hb.2.2.1, ← hb.2.2.2, ← ha]
    by_cases hbb : bb < bufsize
    · simp only [hbb, if_true]
      by_cases hc : (a >>> 4) &&& 0xf = (buf.b0 >>> 4) &&& 0x0f
      · simp only [hc, if_true]
        exact read_loop_alike n bufsize hq _ _ _ _ _ _ ⟨ha, rfl, rfl, rfl⟩
      · simp only [hc, if_false]
        exact ⟨rfl, rfl, rfl, rfl, differ_in_code_index.packet a a' b c d q q' ha hq, hb⟩
    · simp only [hbb, if_false]
      exact ⟨rfl, rfl, rfl, rfl, differ_in_code_index.packet a a' b c d q q' ha hq, hb⟩

/-- C23 (code-index independence of the decoder). For every session and value of the
SysEx bits, and every two incoming queues that differ only in the low nibble (the code
index) of the first byte of some packets, `tuh_midi_stream_read` stores the same cable
number and the same bytes, returns the same count, leaves the same SysEx bits and the
same number of bytes in the queue; the bytes left in the two queues again differ only
in code-index nibbles. -/
theorem read_code_index_independent (p : midih_interface_t) (sysex bufsize : Nat)
    (q q' : List Nat) (h : differ_in_code_index q q') :
    (tuh_midi_stream_read { p with rx_ff := { p.rx_ff with buf := q } } sysex bufsize).p_cable_num
      = (tuh_midi_stream_read { p with rx_ff := { p.rx_ff with buf := q' } } sysex
          bufsize).p_cable_num ∧
    (tuh_midi_stream_read { p with rx_ff := { p.rx_ff with buf := q } } sysex bufsize).p_buffer
      = (tuh_midi_stream_read { p with rx_ff := { p.rx_ff with buf := q' } } sysex
          bufsize).p_buffer ∧
    (tuh_midi_stream_read { p with rx_ff := { p.rx_ff with buf := q } } sysex bufsize).ret
      = (tuh_midi_stream_read { p with rx_ff := { p.rx_ff with buf := q' } } sysex
          bufsize).ret ∧
    (tuh_midi_stream_read { p with rx_ff := { p.rx_ff with buf := q } } sysex
        bufsize).cable_sysex_in_progress
      = (tuh_midi_stream_read { p with rx_ff := { p.rx_ff with buf := q' } } sysex
          bufsize).cable_sysex_in_progress ∧
    (tuh_midi_stream_read { p with rx_ff := { p.rx_ff with buf := q } } sysex
        bufsize).midi.rx_ff.buf.length
      = (tuh_midi_stream_read { p with rx_ff := { p.rx_ff with buf := q' } } sysex
          bufsize).midi.rx_ff.buf.length ∧
    differ_in_code_index
      (tuh_midi_stream_read { p with rx_ff := { p.rx_ff with buf := q } } sysex
        bufsize).midi.rx_ff.buf
      (tuh_midi_stream_read { p with rx_ff := { p.rx_ff with buf := q' } } sysex
        bufsize).midi.rx_ff.buf := by
  by_cases h0 : bufsize = 0
  · simp only [tuh_midi_stream_read, h0, if_true, true_and]
    exact ⟨differ_length h, h⟩
  cases h with
  | nil =>
    refine ⟨rfl, rfl, rfl, rfl, rfl, ?_⟩
    simp only [tuh_midi_stream_read, h0, if_false, tu_fifo_peek, List.head?_nil]
    exact differ_in_code_index.nil
  | short a a' t ha ht =>
    have hl : ¬ (List.take 4 (a :: t)).length = 4 := by
      simp only [List.length_take, List.length_cons]; omega
    have hl' : ¬ (List.take 4 (a' :: t)).length = 4 := by
      simp only [List.length_take, List.length_cons]; omega
    have hd : List.drop 4 (a :: t) = [] :=
      List.drop_of_length_le (by simp only [List.length_cons]; omega)
    have hd' : List.drop 4 (a' :: t) = [] :=
      List.drop_of_length_le (by simp only [List.length_cons]; omega)
    refine ⟨?_, ?_, ?_, ?_, ?_, ?_⟩
    all_goals simp only [tuh_midi_stream_read, h0, if_false, tu_fifo_peek, List.head?_cons,
      tu_fifo_read_n, hl, hl', hd, hd', ha]
    exact differ_in_code_index.nil
  | packet a a' b c d r r' ha hr =>
    have hloop := read_loop_alike p.num_cables_rx bufsize hr
      (p.stream_read.load [a, b, c, d]) (p.stream_read.load [a', b, c, d])
      ((a >>> 4) &&& 0xf) sysex [] 0 ⟨ha, rfl, rfl, rfl⟩
    obtain ⟨e1, e2, e3, e4, e5, _⟩ := hloop
    refine ⟨?_, ?_, ?_, ?_, ?_, ?_⟩
    all_goals simp only [tuh_midi_stream_read, h0, if_false, tu_fifo_peek, List.head?_cons,
      tu_fifo_read_n, List.take_succ_cons, List.take_zero, List.length_cons,
      List.length_nil, List.drop_succ_cons, List.drop_zero, if_true, ← ha]
    · rw [e2]
    · exact e3
    · exact e1
    · exact e4
    · exact differ_length e5
    · exact e5

theorem read_code_index_independent_witness :
    differ_in_code_index [0x09, 0x90, 60, 100, 0x08, 0x80, 60, 0, 0x19, 0x91]
      [0x0F, 0x90, 60, 100, 0x00, 0x80, 60, 0, 0x10, 0x91] ∧
    (tuh_midi_stream_read (session_rx 2 [0x09, 0x90, 60, 100, 0x08, 0x80, 60, 0, 0x19, 0x91])
        0 64).p_buffer = [0x90, 60, 100, 0x80, 60, 0] ∧
    (tuh_midi_stream_read (session_rx 2 [0x09, 0x90, 60, 100, 0x08, 0x80, 60, 0, 0x19, 0x91])
        0 64).p_buffer
      = (tuh_midi_stream_read
          (session_rx 2 [0x0F, 0x90, 60, 100, 0x00, 0x80, 60, 0, 0x10, 0x91]) 0 64).p_buffer :=
  ⟨differ_in_code_index.packet 0x09 0x0F 0x90 60 100 _ _ (by decide)
      (differ_in_code_index.packet 0x08 0x00 0x80 60 0 _ _ (by decide)
        (differ_in_code_index.short 0x19 0x10 [0x91] (by decide) (by decide))),
    by decide,
    (read_code_index_independent (session_rx 2 []) 0 64
      [0x09, 0x90, 60, 100, 0x08, 0x80, 60, 0, 0x19, 0x91]
      [0x0F, 0x90, 60, 100, 0x00, 0x80, 60, 0, 0x10, 0x91]
      (differ_in_code_index.packet 0x09 0x0F 0x90 60 100 _ _ (by decide)
        (differ_in_code_index.packet 0x08 0x00 0x80 60 0 _ _ (by decide)
          (differ_in_code_index.short 0x19 0x10 [0x91] (by decide) (by decide))))).2.1⟩

/-! ## Packets the decoder takes and does not decode -/

theorem read_repeat_empty (p : midih_interface_t) (sysex bufsize : Nat)
    (h : p.rx_ff.buf = []) : ∀ k, read_repeat k p sysex bufsize = []
  | 0 => rfl
  | k + 1 => by
    have hr : tuh_midi_stream_read p sysex bufsize = ⟨0, none, [], p, sysex⟩ := by
      unfold tuh_midi_stream_read
      simp only [tu_fifo_peek, h, List.head?_nil, ite_self]
    simp only [read_repeat, hr, List.nil_append]
    exact read_repeat_empty p sysex bufsize h k

/-- C24 fails with two note-on packets of cable 0 in the incoming queue and capacity 3.
The first call of `tuh_midi_stream_read` stores the three bytes of the first packet,
takes the second packet from the queue into `stream_read.buffer` and then leaves its
loop, because `bytes_buffered < bufsize` no longer holds: the queue is empty after the
call and the second packet is in no output. However often the function is called, it
returns `90 3C 64` in all, where the contents of the two packets are
`90 3C 64 90 40 64`. -/
theorem read_loses_packet (k : Nat) :
    (tuh_midi_stream_read (session_rx 1 [0x09, 0x90, 60, 100, 0x09, 0x90, 64, 100]) 0 3).p_buffer
      = [0x90, 60, 100] ∧
    (tuh_midi_stream_read (session_rx 1 [0x09, 0x90, 60, 100, 0x09, 0x90, 64, 100]) 0 3
      ).midi.rx_ff.buf = [] ∧
    read_repeat (k + 1) (session_rx 1 [0x09, 0x90, 60, 100, 0x09, 0x90, 64, 100]) 0 3
      = [0x90, 60, 100] ∧
    (packets_content 1 [(0x09, 0x90, 60, 100), (0x09, 0x90, 64, 100)] 0).1
      = [0x90, 60, 100, 0x90, 64, 100] := by
  have h1 : (tuh_midi_stream_read
      (session_rx 1 [0x09, 0x90, 60, 100, 0x09, 0x90, 64, 100]) 0 3).p_buffer
      = [0x90, 60, 100] := by decide
  have h2 : (tuh_midi_stream_read
      (session_rx 1 [0x09, 0x90, 60, 100, 0x09, 0x90, 64, 100]) 0 3).midi.rx_ff.buf = [] := by
    decide
  refine ⟨h1, h2, ?_, by decide⟩
  simp only [read_repeat, h1, read_repeat_empty _ _ 3 h2 k, List.append_nil]

/-! ## Resuming a write and the padding of real-time packets -/

/-- C3 fails where the input holds real-time bytes: the two bytes after a real-time
byte in its packet are what the stack holds under `streamrt.buffer[2..3]` at that call.
With `AA 55` there during the call on `[F8]` and `11 22` during the following call on
`[F8]`, the queue holds `05 F8 AA 55 05 F8 11 22`, whereas the single call on `[F8, F8]`
with `AA 55` there queues `05 F8 AA 55 05 F8 AA 55`; all the calls take their whole
input and end in the same encode state. The same holds for a call that returns 1 of 2
bytes for want of room and is resumed after the queue has drained. -/
theorem write_resume_padding_differs :
    (tuh_midi_stream_write (session_tx 1) 0 0xAA 0x55 [0xF8]).1 = 1 ∧
    tuh_midi_stream_write (tuh_midi_stream_write (session_tx 1) 0 0xAA 0x55 [0xF8]).2
        0 0x11 0x22 [0xF8]
      = (1, { session_tx 1 with tx_ff := ⟨64, [0x05, 0xF8, 0xAA, 0x55, 0x05, 0xF8, 0x11, 0x22]⟩ }) ∧
    tuh_midi_stream_write (session_tx 1) 0 0xAA 0x55 ([0xF8] ++ [0xF8])
      = (2, { session_tx 1 with tx_ff := ⟨64, [0x05, 0xF8, 0xAA, 0x55, 0x05, 0xF8, 0xAA, 0x55]⟩ }) ∧
    (tuh_midi_stream_write session_nearly_full 0 0xAA 0x55 [0xF8, 0xF8]).1 = 1 ∧
    (tuh_midi_stream_write
        (drain 60 (tuh_midi_stream_write session_nearly_full 0 0xAA 0x55 [0xF8, 0xF8]).2)
        0 0x11 0x22 [0xF8]).2.tx_ff.buf
      = [0x05, 0xF8, 0xAA, 0x55, 0x05, 0xF8, 0x11, 0x22] := by
  decide

/-! ## The decoder against the content in the words of the spec -/

end MidiHost
